import Mathlib

/-!
# TrustoMeter: rating ledger and moderation lifecycle

A shallow embedding of the request handlers of
`backend/src/controllers/user.controller.js` (`addReview`) and
`backend/src/controllers/moderator.controller.js` (`approveFlaggedReview`,
`dismissFlaggedReview`, `approveFlaggedProduct`, `dismissFlaggedProduct`),
together with the parts of the Mongoose schemas
(`models/product.model.js`, `models/review.model.js`) they rely on.

Conventions of the embedding.

* A JavaScript Number is a `JsNum`: a finite value carried as an exact
  rational, or one of `Infinity`, `-Infinity`, `NaN`.  Rounding of IEEE
  doubles and the sign of zero are not represented.
* A field of the request body is a `JsVal`, a primitive value.  Arrays and
  objects are not represented: the theorems speak of ratings and comments
  submitted as primitive values.
* The conversions between Numbers and Strings belong to the JavaScript
  runtime and are a parameter, `JsRuntime`; the general theorems hold for every
  runtime, and `refRuntime` evaluates the closed examples.
* A collection is a list of documents; `_id` identifies a document, and an
  operation by identity acts on the documents carrying that identity.  The
  identities of created reviews come from a counter and are never reused.
* A handler is a function from the store to the new store and the outcome
  handed to the caller: a response sent, or the `ApiError` thrown.  Writes
  made before a `throw` stay in the store.  Handlers run one at a time.
* Both schemas set `timestamps: true`: a document carries `createdAt` and
  `updatedAt`, instants in milliseconds.  The store holds the reading of the
  clock, `now`; it does not advance while a request is handled, so the writes
  of one request carry the same instant.
-/

namespace TrustoMeter

/-! ## JavaScript numbers and values -/

/-- A JavaScript Number: a finite value (exact rational), an infinity, or NaN. -/
inductive JsNum where
  | fin (q : ℚ)
  | pinf
  | ninf
  | nan
  deriving DecidableEq

namespace JsNum

/-- Unary minus. -/
def neg : JsNum → JsNum
  | fin q => fin (-q)
  | pinf => ninf
  | ninf => pinf
  | nan => nan

/-- The `+` operator on two Numbers. -/
def add : JsNum → JsNum → JsNum
  | nan, _ => nan
  | _, nan => nan
  | fin a, fin b => fin (a + b)
  | pinf, ninf => nan
  | ninf, pinf => nan
  | pinf, _ => pinf
  | _, pinf => pinf
  | ninf, _ => ninf
  | _, ninf => ninf

/-- The `-` operator on two Numbers. -/
def sub (a b : JsNum) : JsNum := add a (neg b)

/-- The infinity with the sign chosen by `pos`. -/
def signedInf (pos : Bool) : JsNum := if pos then pinf else ninf

/-- The `*` operator on two Numbers. -/
def mul : JsNum → JsNum → JsNum
  | nan, _ => nan
  | _, nan => nan
  | fin a, fin b => fin (a * b)
  | fin a, pinf => if a = 0 then nan else signedInf (decide (0 < a))
  | fin a, ninf => if a = 0 then nan else signedInf (decide (a < 0))
  | pinf, fin b => if b = 0 then nan else signedInf (decide (0 < b))
  | ninf, fin b => if b = 0 then nan else signedInf (decide (b < 0))
  | pinf, pinf => pinf
  | ninf, ninf => pinf
  | pinf, ninf => ninf
  | ninf, pinf => ninf

/-- The `/` operator on two Numbers.  A zero divisor is taken as `+0`, the
only zero that `count + 1` can produce. -/
def div : JsNum → JsNum → JsNum
  | nan, _ => nan
  | _, nan => nan
  | fin a, fin b =>
      if b = 0 then (if a = 0 then nan else signedInf (decide (0 < a))) else fin (a / b)
  | fin _, pinf => fin 0
  | fin _, ninf => fin 0
  | pinf, fin b => signedInf (decide (0 ≤ b))
  | ninf, fin b => signedInf (decide (b < 0))
  | pinf, pinf => nan
  | pinf, ninf => nan
  | ninf, pinf => nan
  | ninf, ninf => nan

/-- The comparison `a >= b` (false as soon as one side is NaN). -/
def ge : JsNum → JsNum → Bool
  | nan, _ => false
  | _, nan => false
  | fin a, fin b => decide (b ≤ a)
  | pinf, _ => true
  | _, ninf => true
  | fin _, pinf => false
  | ninf, fin _ => false
  | ninf, pinf => false

/-- The comparison `a <= b`. -/
def le (a b : JsNum) : Bool := ge b a

/-- The test `isNaN`. -/
def isNaN : JsNum → Bool
  | nan => true
  | _ => false

end JsNum

/-- A primitive value of a parsed request body field (`express.json`,
`express.urlencoded`): absent, `null`, a boolean, a number or a string. -/
inductive JsVal where
  | undefined
  | null
  | bool (b : Bool)
  | num (n : JsNum)
  | str (s : String)
  deriving DecidableEq

/-- The conversions between Numbers and Strings of the JavaScript runtime
(`Number::toString`, `StringToNumber`, `String.prototype.trim`), which the
handlers reach through `+`, `/` and the Mongoose casts. -/
structure JsRuntime where
  numberToString : JsNum → String
  stringToNumber : String → JsNum
  trim : String → String

namespace JsVal

/-- The abstract operation `ToNumber` on a primitive value. -/
def toNumber (rt : JsRuntime) : JsVal → JsNum
  | undefined => JsNum.nan
  | null => JsNum.fin 0
  | bool b => JsNum.fin (if b then 1 else 0)
  | num n => n
  | str s => rt.stringToNumber s

/-- The expression `a + v` with `a` a Number: string concatenation when `v`
is a string, numeric addition otherwise. -/
def plus (rt : JsRuntime) (a : JsNum) : JsVal → JsVal
  | str s => str (rt.numberToString a ++ s)
  | v => num (JsNum.add a (toNumber rt v))

/-- The expression `v / d` with `d` a Number. -/
def over (rt : JsRuntime) (v : JsVal) (d : JsNum) : JsNum :=
  JsNum.div (toNumber rt v) d

end JsVal

/-! ## Documents and the store -/

/-- The `ratings` sub-document of a product. -/
structure Ratings where
  average : JsNum
  count : JsNum
  deriving DecidableEq

/-- A product document (`productSchema`). -/
structure Product where
  _id : Nat
  name : String
  description : String
  price : JsNum
  category : String
  images : List (String × String)
  ratings : Ratings
  reviews : List Nat
  trustScore : JsNum
  isFlagged : Bool
  approvedByModerator : Bool
  createdAt : Nat
  updatedAt : Nat
  deriving DecidableEq

/-- A review document (`reviewSchema`). -/
structure Review where
  _id : Nat
  user : Nat
  product : Nat
  rating : JsNum
  comment : String
  trustScore : JsNum
  isFlagged : Bool
  approvedByModerator : Bool
  createdAt : Nat
  updatedAt : Nat
  deriving DecidableEq

/-- The entity store: the two collections, the next identity the driver hands
to a created review (identities are never reused), and the reading of the
clock from which Mongoose takes `createdAt` and `updatedAt`. -/
structure Store where
  products : List Product
  reviews : List Review
  nextReviewId : Nat
  now : Nat
  deriving DecidableEq

/-- The store when the clock reads `t`. -/
def Store.atTime (s : Store) (t : Nat) : Store := { s with now := t }

/-- Modelled from the spec: `utils/ApiError.js` is not among the sources; a
failure carries a status code and a message and no payload. -/
structure ApiError where
  statusCode : Nat
  message : String
  deriving DecidableEq

/-- The payload of a success response. -/
inductive Payload where
  | empty
  | review (r : Review)
  | updatedReview (r : Review)
  | updatedProduct (p : Product)
  deriving DecidableEq

/-- Modelled from the spec: `utils/ApiResponse.js` is not among the sources; a
success carries a status code, a payload and a message. -/
structure ApiResponse where
  statusCode : Nat
  data : Payload
  message : String
  deriving DecidableEq

/-- What a `try` block can throw: an `ApiError` raised by the handler itself,
or a Mongoose validation error raised by `create` or `save`. -/
inductive Thrown where
  | api (e : ApiError)
  | validation
  deriving DecidableEq

/-- The outcome handed to the caller together with the store left behind. -/
abbrev Outcome := Store × Except ApiError ApiResponse

/-- The clause `catch (error) { throw new ApiError(500, msg) }` that closes
every handler: whatever the `try` block threw is replaced. -/
def catchAll (msg : String) : Except Thrown ApiResponse → Except ApiError ApiResponse
  | .ok r => .ok r
  | .error _ => .error ⟨500, msg⟩

/-! ## Mongoose queries -/

/-- The query `Review.findById(id)`. -/
def findReview (s : Store) (id : Nat) : Option Review :=
  s.reviews.find? (fun r => r._id == id)

/-- The query `Product.findById(id)`. -/
def findProduct (s : Store) (id : Nat) : Option Product :=
  s.products.find? (fun p => p._id == id)

/-- The query `Review.findOne({ product, user })`. -/
def findReviewBy (s : Store) (productId userId : Nat) : Option Review :=
  s.reviews.find? (fun r => r.product == productId && r.user == userId)

/-- The store after the review with identity `id` is deleted. -/
def deleteReview (s : Store) (id : Nat) : Store :=
  { s with reviews := s.reviews.filter (fun r => r._id != id) }

/-- The store after `Review.deleteMany({ product: productId })`. -/
def deleteReviewsOf (s : Store) (productId : Nat) : Store :=
  { s with reviews := s.reviews.filter (fun r => r.product != productId) }

/-- The store after the product with identity `id` is deleted. -/
def deleteProduct (s : Store) (id : Nat) : Store :=
  { s with products := s.products.filter (fun p => p._id != id) }

/-- The store after the review with identity `id` is updated by `f`. -/
def updateReview (s : Store) (id : Nat) (f : Review → Review) : Store :=
  { s with reviews := s.reviews.map (fun r => if r._id = id then f r else r) }

/-- The store after the product with identity `id` is updated by `f`. -/
def updateProduct (s : Store) (id : Nat) (f : Product → Product) : Store :=
  { s with products := s.products.map (fun p => if p._id = id then f p else p) }

/-- The cast of a submitted value by a `Number` schema path (Mongoose
`castNumber`): `none` is a cast error, `some none` the value `null`. -/
def castNumber (rt : JsRuntime) : JsVal → Option (Option JsNum)
  | .undefined => some none
  | .null => some none
  | .bool b => some (some (JsNum.fin (if b then 1 else 0)))
  | .num n => if n.isNaN then none else some (some n)
  | .str s =>
      if s = "" then some none
      else if (rt.stringToNumber s).isNaN then none
      else some (some (rt.stringToNumber s))

/-- The validation of `rating` by `reviewSchema` (`required`, `min: 1`,
`max: 5`): the number stored when the submitted value is accepted. -/
def validateRating (rt : JsRuntime) (v : JsVal) : Option JsNum :=
  match castNumber rt v with
  | some (some n) => if n.ge (JsNum.fin 1) && n.le (JsNum.fin 5) then some n else none
  | _ => none

/-- The cast of a submitted value by a `String` schema path (Mongoose
`castString`); `none` stands for `null` or `undefined`. -/
def castString (rt : JsRuntime) : JsVal → Option String
  | .undefined => none
  | .null => none
  | .bool b => some (if b then "true" else "false")
  | .num n => some (rt.numberToString n)
  | .str s => some s

/-- The validation of `comment` by `reviewSchema` (`trim`, `required`): the
string stored when the submitted value is accepted. -/
def validateComment (rt : JsRuntime) (v : JsVal) : Option String :=
  match castString rt v with
  | some c => if c = "" ∨ rt.trim c = "" then none else some (rt.trim c)
  | none => none

/-- The document built by `Review.create({ user, product, rating, comment })`
at the instant `now` when validation passes, with the schema defaults filled
in. -/
def newReviewDoc (id userId productId : Nat) (rating : JsNum) (comment : String) (now : Nat) :
    Review :=
  { _id := id, user := userId, product := productId, rating := rating, comment := comment,
    trustScore := JsNum.fin 100, isFlagged := false, approvedByModerator := false,
    createdAt := now, updatedAt := now }

/-- The call `Review.create(...)`: the store with the new review and the
document created, or `none` when validation rejects the fields. -/
def createReview (rt : JsRuntime) (s : Store) (userId productId : Nat) (rating comment : JsVal) :
    Option (Store × Review) :=
  match validateRating rt rating, validateComment rt comment with
  | some n, some c =>
      let doc := newReviewDoc s.nextReviewId userId productId n c s.now
      some ({ s with reviews := s.reviews ++ [doc], nextReviewId := s.nextReviewId + 1 }, doc)
  | _, _ => none

/-- The call `product.save()` after `ratings.average` and `ratings.count` were
assigned (and, with `push`, an identity appended to `reviews`): a NaN assigned
to a `Number` path is a cast error, and the save is then rejected.  A save
that is accepted writes a modified document, and sets its `updatedAt`. -/
def saveRatings (s : Store) (productId : Nat) (newAvg newCount : JsNum) (reviews : List Nat) :
    Option Store :=
  if newAvg.isNaN || newCount.isNaN then none
  else some (updateProduct s productId
    (fun p => { p with ratings := ⟨newAvg, newCount⟩, reviews := reviews, updatedAt := s.now }))

/-! ## The handlers -/

/-- The handler `addReview` of `user.controller.js`. -/
def addReview (rt : JsRuntime) (s : Store) (userId productId : Nat) (rating comment : JsVal) :
    Outcome :=
  let msg := "Something went wrong while adding the review"
  match findProduct s productId with
  | none => (s, catchAll msg (.error (.api ⟨404, "Product not found"⟩)))
  | some product =>
    match findReviewBy s productId userId with
    | some _ => (s, catchAll msg (.error (.api ⟨400, "You have already reviewed this product"⟩)))
    | none =>
      match createReview rt s userId productId rating comment with
      | none => (s, catchAll msg (.error .validation))
      | some (s1, newReview) =>
        let newCount := JsNum.add product.ratings.count (JsNum.fin 1)
        let newAvg := JsVal.over rt
          (JsVal.plus rt (JsNum.mul product.ratings.average product.ratings.count) rating) newCount
        match saveRatings s1 productId newAvg newCount (product.reviews ++ [newReview._id]) with
        | none => (s1, catchAll msg (.error .validation))
        | some s2 => (s2, catchAll msg (.ok ⟨201, .review newReview, "Review added successfully!"⟩))

/-- The handler `approveFlaggedReview` of `moderator.controller.js`;
`findByIdAndUpdate` sets `updatedAt` along with the field given. -/
def approveFlaggedReview (s : Store) (reviewId : Nat) : Outcome :=
  let msg := "Something went wrong while approving the review!"
  let s1 := updateReview s reviewId
    (fun r => { r with approvedByModerator := true, updatedAt := s.now })
  match findReview s1 reviewId with
  | none => (s1, catchAll msg (.error (.api ⟨404, "Review not found"⟩)))
  | some updatedReview =>
      (s1, catchAll msg (.ok ⟨200, .updatedReview updatedReview, "Review approved successfully!"⟩))

/-- The handler `approveFlaggedProduct` of `moderator.controller.js`;
`findByIdAndUpdate` sets `updatedAt` along with the field given. -/
def approveFlaggedProduct (s : Store) (productId : Nat) : Outcome :=
  let msg := "Something went wrong while approving the product!"
  let s1 := updateProduct s productId
    (fun p => { p with approvedByModerator := true, updatedAt := s.now })
  match findProduct s1 productId with
  | none => (s1, catchAll msg (.error (.api ⟨404, "Product not found"⟩)))
  | some updatedProduct =>
      (s1, catchAll msg
        (.ok ⟨200, .updatedProduct updatedProduct, "Flagged product approved successfully!"⟩))

/-- The handler `dismissFlaggedReview` of `moderator.controller.js`; the
`$pull` of `findByIdAndUpdate` sets `updatedAt` of the product as well. -/
def dismissFlaggedReview (s : Store) (reviewId : Nat) : Outcome :=
  let msg := "Something went wrong while dismissing the review!"
  match findReview s reviewId with
  | none => (s, catchAll msg (.error (.api ⟨404, "Review not found"⟩)))
  | some deletedReview =>
    let s1 := deleteReview s reviewId
    let productId := deletedReview.product
    let reviewRating := deletedReview.rating
    let s2 := updateProduct s1 productId
      (fun p => { p with reviews := p.reviews.filter (fun i => i != reviewId), updatedAt := s.now })
    match findProduct s2 productId with
    | none => (s2, catchAll msg (.error (.api ⟨404, "Associated product not found"⟩)))
    | some product =>
      let oldAvg := product.ratings.average
      let oldCount := product.ratings.count
      let newCount := JsNum.sub oldCount (JsNum.fin 1)
      let newAvg :=
        if newCount = JsNum.fin 0 then JsNum.fin 5
        else JsNum.div (JsNum.sub (JsNum.mul oldAvg oldCount) reviewRating) newCount
      match saveRatings s2 productId newAvg newCount product.reviews with
      | none => (s2, catchAll msg (.error .validation))
      | some s3 => (s3, catchAll msg (.ok ⟨200, .empty, "Review dismissed successfully!"⟩))

/-- The handler `dismissFlaggedProduct` of `moderator.controller.js`. -/
def dismissFlaggedProduct (s : Store) (productId : Nat) : Outcome :=
  let msg := "Something went wrong while dismissing the product!"
  let s1 := deleteReviewsOf s productId
  match findProduct s1 productId with
  | none => (s1, catchAll msg (.error (.api ⟨404, "Product not found"⟩)))
  | some _ =>
      (deleteProduct s1 productId, catchAll msg
        (.ok ⟨200, .empty, "Flagged product and its reviews deleted successfully!"⟩))

/-! ## A concrete runtime for closed examples -/

/-- The white space and line terminator code points that `trim` and
`StringToNumber` strip. -/
def isWhiteSpace (c : Char) : Bool :=
  [9, 10, 11, 12, 13, 32, 160, 5760, 8232, 8233, 8239, 8287, 12288, 65279].contains c.toNat
    || (decide (8192 ≤ c.toNat) && decide (c.toNat ≤ 8202))

/-- The characters of a string with leading and trailing white space removed. -/
def trimChars (cs : List Char) : List Char :=
  ((cs.dropWhile isWhiteSpace).reverse.dropWhile isWhiteSpace).reverse

/-- The value of a run of decimal digits read after the value `acc`; `none`
when a character is not a digit. -/
def digitsValue : List Char → Nat → Option Nat
  | [], acc => some acc
  | c :: cs, acc =>
      if decide (48 ≤ c.toNat) && decide (c.toNat ≤ 57) then digitsValue cs (10 * acc + (c.toNat - 48))
      else none

/-- The value of an unsigned decimal literal `ddd`, `ddd.ddd`, `ddd.` or
`.ddd` (no exponent part). -/
def unsignedDecimal (cs : List Char) : Option ℚ :=
  let ip := cs.takeWhile (fun c => c != '.')
  let rest := cs.dropWhile (fun c => c != '.')
  match rest with
  | [] => if ip = [] then none else (digitsValue ip 0).map (fun n => (n : ℚ))
  | _ :: fp =>
      if ip = [] ∧ fp = [] then none
      else
        match digitsValue ip 0, digitsValue fp 0 with
        | some a, some b => some ((a : ℚ) + (b : ℚ) / (10 : ℚ) ^ fp.length)
        | _, _ => none

/-- The characters of `Infinity`. -/
def infinityChars : List Char := "Infinity".toList

/-- The value of a signed literal without surrounding white space. -/
def signedLiteral (cs : List Char) : JsNum :=
  let neg := cs.head? = some '-'
  let body := if cs.head? = some '-' ∨ cs.head? = some '+' then cs.tail else cs
  if body = infinityChars then (if neg then JsNum.ninf else JsNum.pinf)
  else
    match unsignedDecimal body with
    | some q => JsNum.fin (if neg then -q else q)
    | none => JsNum.nan

/-- The operation `StringToNumber` on decimal literals: white space is
stripped, the empty string is 0, a sign may precede the digits or `Infinity`.
Literals with an exponent part or a radix marker are not covered and read as
NaN. -/
def refStringToNumber (s : String) : JsNum :=
  let cs := trimChars s.toList
  if cs = [] then JsNum.fin 0 else signedLiteral cs

/-- The operation `Number::toString` on the infinities, NaN and integers (in
decimal digits, as JavaScript prints them below 10^21); a finite value that is
not an integer is not covered and printed as a fraction. -/
def refNumberToString : JsNum → String
  | JsNum.nan => "NaN"
  | JsNum.pinf => "Infinity"
  | JsNum.ninf => "-Infinity"
  | JsNum.fin q =>
      if q.den = 1 then (if q.num < 0 then "-" else "") ++ Nat.repr q.num.natAbs
      else (if q.num < 0 then "-" else "") ++ Nat.repr q.num.natAbs ++ "/" ++ Nat.repr q.den

/-- The runtime used to evaluate the handlers on concrete requests. -/
def refRuntime : JsRuntime where
  numberToString := refNumberToString
  stringToNumber := refStringToNumber
  trim := fun s => String.mk (trimChars s.toList)


/-! ## Sequences of ledger operations -/

/-- A store is well formed when review identities are pairwise distinct and
below the next identity to be handed out. -/
def Store.WF (s : Store) : Prop :=
  (s.reviews.map (fun r => r._id)).Nodup ∧ ∀ r ∈ s.reviews, r._id < s.nextReviewId

/-- The reviews of the store that belong to product `productId`. -/
def retained (s : Store) (productId : Nat) : List Review :=
  s.reviews.filter (fun r => r.product == productId)

/-- A request that touches the rating ledger: a review submission or the
dismissal of a review. -/
inductive LedgerOp where
  | add (userId productId : Nat) (rating comment : JsVal)
  | dismiss (reviewId : Nat)

/-- Whether the operation submits its rating as a string. -/
def LedgerOp.stringRating : LedgerOp → Bool
  | .add _ _ (.str _) _ => true
  | _ => false

/-- The store after one ledger request is served. -/
def applyOp (rt : JsRuntime) (s : Store) : LedgerOp → Store
  | .add userId productId rating comment => (addReview rt s userId productId rating comment).1
  | .dismiss reviewId => (dismissFlaggedReview s reviewId).1

/-- The store after a sequence of ledger requests is served in order. -/
def runOps (rt : JsRuntime) (s : Store) (ops : List LedgerOp) : Store :=
  ops.foldl (applyOp rt) s

/-- The rational carried by a finite Number (0 for the others). -/
def JsNum.toRat : JsNum → ℚ
  | .fin q => q
  | _ => 0

/-- The sum of the ratings of a list of reviews. -/
def ratingSum (l : List Review) : ℚ := (l.map (fun r => r.rating.toRat)).sum

/-- The ledger invariant of product `productId`: the store is well formed, the
product is stored, its retained reviews carry finite ratings, its count is
their number and its average their mean (5 when there is none). -/
def LedgerInv (s : Store) (productId : Nat) : Prop :=
  s.WF ∧ ∃ product, findProduct s productId = some product ∧
    (∀ r ∈ retained s productId, ∃ q, r.rating = JsNum.fin q) ∧
    product.ratings.count = JsNum.fin (retained s productId).length ∧
    product.ratings.average =
      if retained s productId = [] then JsNum.fin 5
      else JsNum.fin (ratingSum (retained s productId) / (retained s productId).length)

/-! ## Sequences of requests -/

/-- A request to one of the five handlers that write to the store, or the
passing of time: from `clock t` on, the clock reads `t`. -/
inductive Request where
  | addReview (userId productId : Nat) (rating comment : JsVal)
  | dismissReview (reviewId : Nat)
  | dismissProduct (productId : Nat)
  | approveReview (reviewId : Nat)
  | approveProduct (productId : Nat)
  | clock (t : Nat)

/-- Whether the request submits its rating as a string. -/
def Request.stringRating : Request → Bool
  | .addReview _ _ (.str _) _ => true
  | _ => false

/-- The store after one request is served. -/
def serve (rt : JsRuntime) (s : Store) : Request → Store
  | .addReview userId productId rating comment =>
      (addReview rt s userId productId rating comment).1
  | .dismissReview reviewId => (dismissFlaggedReview s reviewId).1
  | .dismissProduct productId => (dismissFlaggedProduct s productId).1
  | .approveReview reviewId => (approveFlaggedReview s reviewId).1
  | .approveProduct productId => (approveFlaggedProduct s productId).1
  | .clock t => s.atTime t

/-- The store after a sequence of requests is served in order. -/
def serveAll (rt : JsRuntime) (s : Store) (reqs : List Request) : Store :=
  reqs.foldl (serve rt) s

/-- Every identity in a product's review list is the identity of a stored
review of that product. -/
def RefsOk (s : Store) : Prop :=
  ∀ p ∈ s.products, ∀ i ∈ p.reviews, ∃ r ∈ s.reviews, r._id = i ∧ r.product = p._id

/-- Every stored review carries a finite rating of [1,5]. -/
def RatingsInRange (s : Store) : Prop :=
  ∀ r ∈ s.reviews, ∃ q : ℚ, r.rating = JsNum.fin q ∧ 1 ≤ q ∧ q ≤ 5

/-- No two stored reviews share their (user, product) pair. -/
def PairsUnique (s : Store) : Prop :=
  (s.reviews.map (fun r => (r.user, r.product))).Nodup

/-! ## Example data -/

/-- A product without reviews, as the schema defaults create it. -/
def lamp : Product :=
  { _id := 1, name := "Lamp", description := "Desk lamp", price := JsNum.fin 20,
    category := "home", images := [], ratings := ⟨JsNum.fin 5, JsNum.fin 0⟩, reviews := [],
    trustScore := JsNum.fin 100, isFlagged := false, approvedByModerator := false,
    createdAt := 0, updatedAt := 0 }

/-- A store holding the lamp and no review. -/
def shop0 : Store := { products := [lamp], reviews := [], nextReviewId := 0, now := 0 }

/-- The store `shop0` after user 7 rated the lamp 4. -/
def shop1 : Store :=
  { products := [{ lamp with ratings := ⟨JsNum.fin 4, JsNum.fin 1⟩, reviews := [0] }],
    reviews := [newReviewDoc 0 7 1 (JsNum.fin 4) "ok" 0], nextReviewId := 1, now := 0 }

/-- The store `shop1` after user 8 rated the lamp 2. -/
def shop2 : Store :=
  { products := [{ lamp with ratings := ⟨JsNum.fin 3, JsNum.fin 2⟩, reviews := [0, 1] }],
    reviews := [newReviewDoc 0 7 1 (JsNum.fin 4) "ok" 0, newReviewDoc 1 8 1 (JsNum.fin 2) "fine" 0],
    nextReviewId := 2, now := 0 }

/-- The store `shop0` after three requests: user 7 submits the rating " 4" as
a string, the review created is dismissed, and user 8 submits the rating 2. -/
def driftedShop : Store :=
  serveAll refRuntime shop0
    [.addReview 7 1 (.str " 4") (.str "ok"), .dismissReview 0,
      .addReview 8 1 (.num (.fin 2)) (.str "fine")]

/-- A store whose only review belongs to a product that is not stored. -/
def orphanShop : Store :=
  { products := [lamp], reviews := [newReviewDoc 0 7 2 (JsNum.fin 4) "ok" 0], nextReviewId := 1,
    now := 0 }

/-! ## Trust analysis: values, collaborators and evidence

The functions `analyzeProduct` (`utils/productAnalysis.js`) and `analyzeReview`
(`utils/reviewAnalysis.js`).  Their collaborators (the HTTP client, the search
provider, the inference model, `JSON.parse`, the clock, the environment
variables) are the fields of `AnalysisEnv`; every call of a collaborator is a
function of its arguments.  The inputs interpolated into a prompt are kept as
a record; the fixed text of the template around them is not represented. -/

/-- A JavaScript value as `JSON.parse` and object literals build it. -/
inductive Json where
  | undefined
  | null
  | bool (b : Bool)
  | num (n : JsNum)
  | str (s : String)
  | arr (items : List Json)
  | obj (fields : List (String × Json))

/-- The value of the property `key` among `fields`: the one defined last. -/
def lookupField (key : String) (fields : List (String × Json)) : Option Json :=
  ((fields.filter (fun kv => kv.1 == key)).getLast?).map (fun kv => kv.2)

/-- The property access `value.key`; `none` when the property is not defined
or the value is not an object. -/
def Json.get? : Json → String → Option Json
  | .obj fields, key => lookupField key fields
  | _, _ => none

/-- The chain of property accesses `value.k1.k2...`. -/
def Json.path? (value : Json) (keys : List String) : Option Json :=
  keys.foldl (fun v key => v.bind (fun j => j.get? key)) (some value)

/-- The weights that the prompt of `analyzeProduct` states for the description,
price, image, seller and brand checks. -/
def promptWeights : List ℚ := [0.10, 0.25, 0.30, 0.15, 0.20]

/-- The own enumerable properties that the spread `{ ...value }` copies. -/
def spreadFields : Json → List (String × Json)
  | .obj fields => fields
  | .arr items => items.enum.map (fun ix => (Nat.repr ix.1, ix.2))
  | .str s => s.toList.enum.map (fun ix => (Nat.repr ix.1, Json.str (String.singleton ix.2)))
  | _ => []

/-- The product object handed to `analyzeProduct`; a field is `none` when the
object does not define it.  `_id` is the text `_id.toString()` gives. -/
structure AnalyzedProduct where
  _id : Option String
  name : Option String
  brand : Option String
  price : Option JsNum
  description : Option String
  seller : Option String
  images : Option (List (String × String))

/-- An image attached to the inference call (`inlineData`). -/
structure Part where
  data : String
  mimeType : String
  deriving DecidableEq

/-- The response of `axios.get(url, { responseType: 'arraybuffer' })`: its
`content-type` header and its body, as the base64 text of the bytes. -/
structure ImageResponse where
  contentType : Option String
  bodyBase64 : String

/-- An entry of `image_results` in a reverse-image response. -/
structure ImageResult where
  title : Option String
  link : Option String

/-- The fields of a reverse-image response that `analyzeProduct` reads;
`inline_images` is kept as its length. -/
structure ReverseData where
  image_results : Option (List ImageResult)
  inline_images : Option Nat
  knowledge_graph_title : Option String
  google_reverse_image_url : Option String

/-- An entry of `organic_results` in a web-search response. -/
structure SearchResult where
  title : Option String
  snippet : Option String
  link : Option String

/-- The inputs interpolated into the prompt of `analyzeProduct`. -/
structure ProductPrompt where
  name : String
  brand : String
  price : String
  description : String
  seller : String
  googleSearchSummary : String
  imageSerpSummaries : String
  deriving DecidableEq

/-- The inputs interpolated into the prompt of `analyzeReview`. -/
structure ReviewPrompt where
  reviewText : String
  productCategory : String
  rating : String
  deriving DecidableEq

/-- The `metadata` argument of `analyzeReview`. -/
structure ReviewMetadata where
  productCategory : Option String
  rating : JsVal

/-- The collaborators of the analysis functions.  A call that throws is an
`Except.error`; for the inference call and `JSON.parse` the error is the
message of what was thrown, for the reverse-image search it is the text of
`error.response.data.error` when there is one. -/
structure AnalysisEnv where
  geminiKey : Bool
  serpKey : Bool
  now : String
  runtime : JsRuntime
  toFixed2 : JsNum → String
  encodeURIComponent : String → String
  httpGet : String → Option ImageResponse
  reverseImageSearch : String → Except (Option String) (Option ReverseData)
  googleSearch : String → Except Unit (Option (List SearchResult))
  generateContent : ProductPrompt → List Part → Except String String
  generateReview : ReviewPrompt → Except String String
  jsonParse : String → Except String Json

/-- The text `${value}` for a string that may be undefined. -/
def jsText (value : Option String) : String := value.getD "undefined"

/-- The expression `value || fallback` on a string that may be undefined. -/
def orElse (value : Option String) (fallback : String) : String :=
  match value with
  | some s => if s = "" then fallback else s
  | none => fallback

/-- Whether `pat` occurs in the characters `cs`. -/
def containsChars (pat : List Char) : List Char → Bool
  | [] => pat.isEmpty
  | c :: cs => pat.isPrefixOf (c :: cs) || containsChars pat cs

/-- The test `text.includes(pat)`. -/
def includes (text pat : String) : Bool := containsChars pat.toList text.toList

/-- The function `urlToGenerativePart`. -/
def urlToGenerativePart (env : AnalysisEnv) (url : String) : Option Part :=
  match env.httpGet url with
  | none => none
  | some response =>
    match response.contentType with
    | none => none
    | some mimeType =>
      if "image/".toList.isPrefixOf mimeType.toList then some ⟨response.bodyBase64, mimeType⟩
      else none

/-- What `serpApiReverseImageSearchFull` returns: the response data, the
string `'quota_exceeded'`, or `null`. -/
inductive ReverseResult where
  | data (d : ReverseData)
  | quotaExceeded
  | null

/-- The function `serpApiReverseImageSearchFull`. -/
def serpApiReverseImageSearchFull (env : AnalysisEnv) (imageUrl : String) : ReverseResult :=
  if !env.serpKey then .null
  else
    match env.reverseImageSearch imageUrl with
    | .ok (some d) => .data d
    | .ok none => .null
    | .error (some errorText) =>
        if includes errorText "monthly searches" then .quotaExceeded else .null
    | .error none => .null

/-- The function `serpApiGoogleSearch`; `none` is the `null` it returns when no
search key is configured. -/
def serpApiGoogleSearch (env : AnalysisEnv) (productName : Option String) :
    Option (List SearchResult) :=
  if !env.serpKey then none
  else
    match env.googleSearch (jsText productName ++ " India price and specs") with
    | .ok (some results) => some results
    | .ok none => some []
    | .error _ => some []

/-- The address given for a manual check of an image. -/
def manualCheckUrl (env : AnalysisEnv) (url : String) : String :=
  "https://images.google.com/searchbyimage?image_url=" ++ env.encodeURIComponent url

/-- The lines built from a reverse-image response. -/
def reverseLines (d : ReverseData) : List String :=
  (match d.image_results with
    | some (r :: rs) =>
        "Top image results:" ::
          ((r :: rs).take 3).enum.map (fun ir =>
            Nat.repr (ir.1 + 1) ++ ". " ++ orElse ir.2.title "Untitled" ++ " - " ++ jsText ir.2.link)
    | _ => [])
  ++ (match d.inline_images with
    | some n => if n = 0 then [] else ["Inline similar images (" ++ Nat.repr n ++ ")"]
    | none => [])
  ++ (match d.knowledge_graph_title with
    | some t => if t = "" then [] else ["Knowledge Graph: " ++ t]
    | none => [])
  ++ (match d.google_reverse_image_url with
    | some u => if u = "" then [] else ["Google UI: " ++ u]
    | none => [])

/-- The text `serpSummary` of one image. -/
def serpSummary (env : AnalysisEnv) (url : String) : String :=
  match serpApiReverseImageSearchFull env url with
  | .quotaExceeded => "Quota exceeded. Check manually: " ++ manualCheckUrl env url
  | .null => "Failed. Check manually: " ++ manualCheckUrl env url
  | .data d =>
      let lines := reverseLines d
      "\n".intercalate (if lines.isEmpty then ["No reverse image results found."] else lines)

/-- The record `{ part, url, serpSummary }` built for one image. -/
structure ImageEvidence where
  part : Option Part
  url : String
  serpSummary : String

/-- The evidence gathered for the images of the product, in their order. -/
def imageData (env : AnalysisEnv) (product : AnalyzedProduct) : List ImageEvidence :=
  (product.images.getD []).map (fun img =>
    { part := urlToGenerativePart env img.1, url := img.1, serpSummary := serpSummary env img.1 })

/-- The parts of the images that were downloaded (`filter(Boolean)`). -/
def imageParts (env : AnalysisEnv) (product : AnalyzedProduct) : List Part :=
  (imageData env product).filterMap (fun d => d.part)

/-- The block of evidence text of one image. -/
def imageBlock (d : ImageEvidence) : String :=
  "Image: " ++ d.url ++ "\nReverse image search findings:\n" ++ d.serpSummary

/-- The text `imageSerpSummaries`. -/
def imageSerpSummaries (env : AnalysisEnv) (product : AnalyzedProduct) : String :=
  "\n\n".intercalate ((imageData env product).map imageBlock)

/-- The text `googleSearchSummary` built from the search results. -/
def googleSearchSummary (results : List SearchResult) : String :=
  if results.isEmpty then "No Google Search results found."
  else "\n".intercalate (results.enum.map (fun ir =>
    Nat.repr (ir.1 + 1) ++ ". " ++ jsText ir.2.title ++ "\n   Snippet: " ++ jsText ir.2.snippet
      ++ "\n   Link: " ++ jsText ir.2.link))

/-- The prompt of `analyzeProduct` for the evidence gathered. -/
def productPrompt (env : AnalysisEnv) (product : AnalyzedProduct) (results : List SearchResult) :
    ProductPrompt :=
  { name := orElse product.name "Not specified",
    brand := orElse product.brand "Not specified",
    price := match product.price with
      | some p => env.toFixed2 p
      | none => "Not specified",
    description := orElse product.description "No description provided",
    seller := orElse product.seller "Not specified",
    googleSearchSummary := googleSearchSummary results,
    imageSerpSummaries := imageSerpSummaries env product }

/-- The inference call of `analyzeProduct` with its retry without images: the
text of the response, or the message of the error thrown. -/
def generateText (env : AnalysisEnv) (prompt : ProductPrompt) (parts : List Part) :
    Except String String :=
  match env.generateContent prompt parts with
  | .ok text => .ok text
  | .error message =>
      if !parts.isEmpty
          && (includes message "invalid" || includes message "format" || includes message "image")
      then
        match env.generateContent prompt [] with
        | .ok text => .ok text
        | .error message2 => .error ("Gemini fallback failed: " ++ message2)
      else .error ("Gemini API error: " ++ message)

/-- The match of `/\{[\s\S]*\}/`: the span from the first opening brace to the
last closing brace after it. -/
def braceSpanChars (cs : List Char) : Option (List Char) :=
  match cs.dropWhile (fun c => c != Char.ofNat 123) with
  | [] => none
  | open_ :: rest =>
      match (rest.reverse.dropWhile (fun c => c != Char.ofNat 125)).reverse with
      | [] => none
      | body => some (open_ :: body)

/-- The text `jsonMatch[0]` of `analyzeProduct`, when there is a match. -/
def braceSpan (text : String) : Option String := (braceSpanChars text.toList).map String.mk

/-- The characters before and after the first occurrence of `pat`. -/
def splitAtFirst (pat : List Char) : List Char → Option (List Char × List Char)
  | [] => if pat.isEmpty then some ([], []) else none
  | c :: cs =>
      if pat.isPrefixOf (c :: cs) then some ([], (c :: cs).drop pat.length)
      else (splitAtFirst pat cs).map (fun ab => (c :: ab.1, ab.2))

/-- The opening of a fenced block: three backticks, `json`, a line feed. -/
def fenceOpen : List Char := [Char.ofNat 96, Char.ofNat 96, Char.ofNat 96, 'j', 's', 'o', 'n', '\n']

/-- The closing of a fenced block: a line feed and three backticks. -/
def fenceClose : List Char := ['\n', Char.ofNat 96, Char.ofNat 96, Char.ofNat 96]

/-- The group captured by the fence pattern of `analyzeReview`: the text
between the first opening and the first closing after it. -/
def fencedChars (cs : List Char) : Option (List Char) :=
  match splitAtFirst fenceOpen cs with
  | none => none
  | some (_, rest) => (splitAtFirst fenceClose rest).map (fun ab => ab.1)

/-- The text `jsonStr` of `analyzeReview`. -/
def jsonStr (text : String) : String :=
  match fencedChars text.toList with
  | some inner => String.mk inner
  | none => text

/-- The message of the `TypeError` thrown by reading `length` of `null`. -/
def nullLengthMessage : String := "Cannot read properties of null (reading 'length')"

/-- The report returned when `GEMINI_API_KEY` is not set. -/
def unconfiguredReport (now : String) : Json :=
  .obj [("trustScore", .num (.fin 0)),
    ("summary", .str "Analysis service is not properly configured."),
    ("redFlags", .arr [.str "GEMINI_API_KEY is not configured"]),
    ("analyzedAt", .str now),
    ("error", .str "GEMINI_API_KEY is not set")]

/-- A check of the failure report. -/
def failedCheck (label : String) : Json :=
  .obj [(label, .str "Unknown"), ("findings", .str "Analysis failed.")]

/-- The report returned by the `catch` clause of `analyzeProduct`. -/
def failureReport (now message : String) : Json :=
  .obj [("trustScore", .num (.fin 0)),
    ("summary", .str ("Analysis failed: " ++ message)),
    ("redFlags", .arr [.str "An error occurred during analysis."]),
    ("analyzedAt", .str now),
    ("verification", .obj [
      ("descriptionCheck", .obj [("isConsistent", .bool false), ("quality", .str "Unknown"),
        ("findings", .str "Analysis failed.")]),
      ("imageCheck", failedCheck "authenticity"),
      ("priceCheck", failedCheck "status"),
      ("sellerCheck", failedCheck "status"),
      ("brandCheck", failedCheck "status")]),
    ("error", .str message)]

/-- The report built from the parsed response: its properties, then
`analyzedAt`, `productId` and `productName`. -/
def successReport (env : AnalysisEnv) (product : AnalyzedProduct) (analysisData : Json) : Json :=
  .obj (spreadFields analysisData ++
    [("analyzedAt", .str env.now),
     ("productId", match product._id with
        | some id => .str id
        | none => .undefined),
     ("productName", match product.name with
        | some n => .str n
        | none => .undefined)])

/-- The value `analysisData` of `analyzeProduct`, or the message of the error
thrown before it is obtained: by reading the `length` of the `null` that
`serpApiGoogleSearch` returned, by the inference call, by the missing match,
or by `JSON.parse`. -/
def analysisData (env : AnalysisEnv) (product : AnalyzedProduct) : Except String Json :=
  match serpApiGoogleSearch env product.name with
  | none => .error nullLengthMessage
  | some results =>
    match generateText env (productPrompt env product results) (imageParts env product) with
    | .error message => .error message
    | .ok text =>
      match braceSpan text with
      | none => .error "Failed to parse JSON response from Gemini."
      | some span => env.jsonParse span

/-- The function `analyzeProduct`. -/
def analyzeProduct (env : AnalysisEnv) (product : AnalyzedProduct) : Json :=
  if !env.geminiKey then unconfiguredReport env.now
  else
    match analysisData env product with
    | .ok data => successReport env product data
    | .error message => failureReport env.now message

/-- Whether a value is truthy. -/
def JsVal.truthy : JsVal → Bool
  | .undefined => false
  | .null => false
  | .bool b => b
  | .num n => !(n.isNaN || n == JsNum.fin 0)
  | .str s => s != ""

/-- The text `${value}` of a primitive value. -/
def JsVal.text (rt : JsRuntime) : JsVal → String
  | .undefined => "undefined"
  | .null => "null"
  | .bool b => if b then "true" else "false"
  | .num n => rt.numberToString n
  | .str s => s

/-- The prompt of `analyzeReview`. -/
def reviewPrompt (env : AnalysisEnv) (reviewText : String) (metadata : Option ReviewMetadata) :
    ReviewPrompt :=
  { reviewText := reviewText,
    productCategory := orElse (metadata.bind (fun m => m.productCategory)) "Not specified",
    rating := match metadata with
      | some m => if m.rating.truthy then m.rating.text env.runtime else "Not provided"
      | none => "Not provided" }

/-- The result returned by the `catch` clause of `analyzeReview`. -/
def reviewFailure (message : String) : Json :=
  .obj [("isFake", .bool false),
    ("confidence", .num (.fin 0)),
    ("reasons", .arr [.str "Analysis failed"]),
    ("explanation", .str "Could not analyze this review due to an error."),
    ("error", .str message)]

/-- The function `analyzeReview`. -/
def analyzeReview (env : AnalysisEnv) (reviewText : String) (metadata : Option ReviewMetadata) :
    Json :=
  match env.generateReview (reviewPrompt env reviewText metadata) with
  | .error message => reviewFailure message
  | .ok text =>
    match env.jsonParse (jsonStr text) with
    | .error message => reviewFailure message
    | .ok value => value


/-! ## Reference collaborators for closed examples -/

/-- The rest of the text after JSON white space. -/
def skipWs (cs : List Char) : List Char :=
  cs.dropWhile (fun c => c == ' ' || c == '\t' || c == '\n' || c == '\r')

/-- The value of a hexadecimal digit. -/
def hexValue (c : Char) : Option Nat :=
  if 48 ≤ c.toNat ∧ c.toNat ≤ 57 then some (c.toNat - 48)
  else if 97 ≤ c.toNat ∧ c.toNat ≤ 102 then some (c.toNat - 87)
  else if 65 ≤ c.toNat ∧ c.toNat ≤ 70 then some (c.toNat - 55)
  else none

/-- The character of a `\u` escape with the four digits given; escapes that
denote half of a surrogate pair are not covered. -/
def unicodeEscape (a b c d : Char) : Option Char :=
  match hexValue a, hexValue b, hexValue c, hexValue d with
  | some w, some x, some y, some z =>
      let n := ((w * 16 + x) * 16 + y) * 16 + z
      if 55296 ≤ n ∧ n ≤ 57343 then none else some (Char.ofNat n)
  | _, _, _, _ => none

/-- The characters of a JSON string after its opening quote, with the text
that follows the closing quote. -/
def parseStringBody : List Char → List Char → Option (String × List Char)
  | [], _ => none
  | '\\' :: 'u' :: a :: b :: c :: d :: cs, acc =>
      match unicodeEscape a b c d with
      | some ch => parseStringBody cs (ch :: acc)
      | none => none
  | '\\' :: e :: cs, acc =>
      if e == '"' then parseStringBody cs ('"' :: acc)
      else if e == '\\' then parseStringBody cs ('\\' :: acc)
      else if e == '/' then parseStringBody cs ('/' :: acc)
      else if e == 'b' then parseStringBody cs (Char.ofNat 8 :: acc)
      else if e == 'f' then parseStringBody cs (Char.ofNat 12 :: acc)
      else if e == 'n' then parseStringBody cs ('\n' :: acc)
      else if e == 'r' then parseStringBody cs ('\r' :: acc)
      else if e == 't' then parseStringBody cs ('\t' :: acc)
      else none
  | c :: cs, acc =>
      if c == '"' then some (String.mk acc.reverse, cs)
      else if c == '\\' then none
      else if c.toNat < 32 then none
      else parseStringBody cs (c :: acc)

/-- Whether a character is a decimal digit. -/
def isDigit (c : Char) : Bool := decide (48 ≤ c.toNat) && decide (c.toNat ≤ 57)

/-- The natural number written by a run of digits. -/
def digitsNat (ds : List Char) : Nat := ds.foldl (fun n c => 10 * n + (c.toNat - 48)) 0

/-- The exponent part of a JSON number, when there is one: the power of ten
and the text that follows. -/
def parseExponent (cs : List Char) : Option (ℚ × List Char) :=
  match cs with
  | e :: rest =>
      if e == 'e' || e == 'E' then
        let neg := rest.head? == some '-'
        let body := if rest.head? == some '-' || rest.head? == some '+' then rest.tail else rest
        let ds := body.takeWhile isDigit
        if ds.isEmpty then none
        else some (if neg then ((10 : ℚ) ^ digitsNat ds)⁻¹ else (10 : ℚ) ^ digitsNat ds,
          body.dropWhile isDigit)
      else some (1, cs)
  | [] => some (1, [])

/-- A JSON number at the head of the text, with the text that follows. -/
def parseNumber (cs : List Char) : Option (ℚ × List Char) :=
  let neg := cs.head? == some '-'
  let body := if neg then cs.tail else cs
  let ip := body.takeWhile isDigit
  let rest := body.dropWhile isDigit
  if ip.isEmpty || (ip.length > 1 && ip.head? == some '0') then none
  else
    let fracAndRest : Option (ℚ × List Char) :=
      match rest with
      | '.' :: more =>
          let fp := more.takeWhile isDigit
          if fp.isEmpty then none
          else some ((digitsNat fp : ℚ) / (10 : ℚ) ^ fp.length, more.dropWhile isDigit)
      | _ => some (0, rest)
    match fracAndRest with
    | none => none
    | some (frac, rest2) =>
        match parseExponent rest2 with
        | none => none
        | some (scale, rest3) =>
            let magnitude := ((digitsNat ip : ℚ) + frac) * scale
            some (if neg then -magnitude else magnitude, rest3)

/-- The members of a JSON object after its opening brace, read with the value
parser `pv`. -/
def parseMembers (pv : List Char → Option (Json × List Char)) :
    Nat → List Char → List (String × Json) → Option (Json × List Char)
  | 0, _, _ => none
  | n + 1, cs, acc =>
      match skipWs cs with
      | '"' :: rest =>
          match parseStringBody rest [] with
          | none => none
          | some (key, r1) =>
              match skipWs r1 with
              | ':' :: r2 =>
                  match pv r2 with
                  | none => none
                  | some (v, r3) =>
                      match skipWs r3 with
                      | ',' :: r4 => parseMembers pv n r4 (acc ++ [(key, v)])
                      | '}' :: r4 => some (.obj (acc ++ [(key, v)]), r4)
                      | _ => none
              | _ => none
      | _ => none

/-- The elements of a JSON array after its opening bracket, read with the
value parser `pv`. -/
def parseElements (pv : List Char → Option (Json × List Char)) :
    Nat → List Char → List Json → Option (Json × List Char)
  | 0, _, _ => none
  | n + 1, cs, acc =>
      match pv cs with
      | none => none
      | some (v, r1) =>
          match skipWs r1 with
          | ',' :: r2 => parseElements pv n r2 (acc ++ [v])
          | ']' :: r2 => some (.arr (acc ++ [v]), r2)
          | _ => none

/-- A JSON value at the head of the text, with the text that follows; the
first argument bounds the nesting depth. -/
def parseValue : Nat → List Char → Option (Json × List Char)
  | 0, _ => none
  | depth + 1, cs =>
      match skipWs cs with
      | '{' :: rest =>
          match skipWs rest with
          | '}' :: rest2 => some (.obj [], rest2)
          | rest2 => parseMembers (parseValue depth) rest2.length rest2 []
      | '[' :: rest =>
          match skipWs rest with
          | ']' :: rest2 => some (.arr [], rest2)
          | rest2 => parseElements (parseValue depth) rest2.length rest2 []
      | '"' :: rest => (parseStringBody rest []).map (fun sr => (.str sr.1, sr.2))
      | 't' :: 'r' :: 'u' :: 'e' :: rest => some (.bool true, rest)
      | 'f' :: 'a' :: 'l' :: 's' :: 'e' :: rest => some (.bool false, rest)
      | 'n' :: 'u' :: 'l' :: 'l' :: rest => some (.null, rest)
      | other => (parseNumber other).map (fun qr => (.num (.fin qr.1), qr.2))

/-- The function `JSON.parse` on a JSON text.  The message of the
`SyntaxError` depends on the engine; a fixed one stands for it. -/
def refJsonParse (text : String) : Except String Json :=
  match parseValue (text.length + 1) text.toList with
  | some (v, rest) => if (skipWs rest).isEmpty then .ok v else .error "Unexpected token in JSON"
  | none => .error "Unexpected token in JSON"

/-- Whether `encodeURIComponent` leaves the character as it is. -/
def isUnreserved (c : Char) : Bool :=
  (decide (48 ≤ c.toNat) && decide (c.toNat ≤ 57))
    || (decide (65 ≤ c.toNat) && decide (c.toNat ≤ 90))
    || (decide (97 ≤ c.toNat) && decide (c.toNat ≤ 122))
    || [45, 95, 46, 33, 126, 42, 39, 40, 41].contains c.toNat

/-- The bytes of the UTF-8 encoding of a code point. -/
def utf8Bytes (n : Nat) : List Nat :=
  if n < 128 then [n]
  else if n < 2048 then [192 + n / 64, 128 + n % 64]
  else if n < 65536 then [224 + n / 4096, 128 + n / 64 % 64, 128 + n % 64]
  else [240 + n / 262144, 128 + n / 4096 % 64, 128 + n / 64 % 64, 128 + n % 64]

/-- An upper-case hexadecimal digit. -/
def hexDigit (n : Nat) : Char := if n < 10 then Char.ofNat (48 + n) else Char.ofNat (55 + n)

/-- The function `encodeURIComponent`. -/
def refEncodeURIComponent (s : String) : String :=
  String.mk (s.toList.flatMap (fun c =>
    if isUnreserved c then [c]
    else (utf8Bytes c.toNat).flatMap (fun b => ['%', hexDigit (b / 16), hexDigit (b % 16)])))

/-- The method `toFixed(2)` on a finite value below 10^21, and on the values
that are not finite. -/
def refToFixed2 : JsNum → String
  | .nan => "NaN"
  | .pinf => "Infinity"
  | .ninf => "-Infinity"
  | .fin q =>
      let cents := (Int.floor (|q| * 100 + 1 / 2)).toNat
      let frac := cents % 100
      (if q < 0 ∧ cents ≠ 0 then "-" else "") ++ Nat.repr (cents / 100) ++ "."
        ++ (if frac < 10 then "0" else "") ++ Nat.repr frac

/-- A product with two images. -/
def demoProduct : AnalyzedProduct :=
  { _id := some "p1", name := some "Lamp", brand := none, price := some (JsNum.fin 20),
    description := some "Desk lamp", seller := none,
    images := some [("a.png", "front"), ("b.png", "back")] }

/-- An environment in which both keys are configured, the first image cannot
be downloaded and its reverse search runs out of quota, the second image is
found once, the web search fails, and the inference call answers `answer`
(to the product prompt and to the review prompt). -/
def demoEnv (answer : Except String String) : AnalysisEnv :=
  { geminiKey := true,
    serpKey := true,
    now := "2025-01-01T00:00:00.000Z",
    runtime := refRuntime,
    toFixed2 := refToFixed2,
    encodeURIComponent := refEncodeURIComponent,
    httpGet := fun url =>
      if url = "b.png" then some { contentType := some "image/png", bodyBase64 := "aGk=" } else none,
    reverseImageSearch := fun url =>
      if url = "b.png" then
        .ok (some { image_results := some [{ title := some "Lamp X", link := some "shop.in/x" }],
                    inline_images := none, knowledge_graph_title := none,
                    google_reverse_image_url := none })
      else .error (some "You have run out of monthly searches"),
    googleSearch := fun _ => .error (),
    generateContent := fun _ _ => answer,
    generateReview := fun _ => answer,
    jsonParse := refJsonParse }

/-- The environment `demoEnv` without the inference key. -/
def noGeminiEnv (answer : Except String String) : AnalysisEnv :=
  { demoEnv answer with geminiKey := false }

/-- The environment `demoEnv` without the search key. -/
def noSerpEnv (answer : Except String String) : AnalysisEnv :=
  { demoEnv answer with serpKey := false }

/-- A response that is one JSON object with the documented shape. -/
def goodAnswer : String :=
  "\x7b\"trustScore\": 80, \"summary\": \"ok\", \"redFlags\": [], \"verification\": \x7b"
    ++ "\"descriptionCheck\": \x7b\"isConsistent\": true, \"quality\": \"Good\", \"findings\": \"f\"\x7d, "
    ++ "\"priceCheck\": \x7b\"status\": \"Unknown\", \"findings\": \"f\"\x7d, "
    ++ "\"imageCheck\": \x7b\"authenticity\": \"No Images\", \"findings\": \"f\"\x7d, "
    ++ "\"sellerCheck\": \x7b\"status\": \"Unknown\", \"findings\": \"f\"\x7d, "
    ++ "\"brandCheck\": \x7b\"status\": \"Missing\", \"findings\": \"f\"\x7d\x7d\x7d"


/-! ## Arithmetic and lookup lemmas -/

@[simp]
theorem now_updateProduct (s : Store) (id : Nat) (f : Product → Product) :
    (updateProduct s id f).now = s.now := rfl
@[simp]
theorem now_updateReview (s : Store) (id : Nat) (f : Review → Review) :
    (updateReview s id f).now = s.now := rfl
@[simp]
theorem now_deleteReview (s : Store) (id : Nat) : (deleteReview s id).now = s.now := rfl
@[simp]
theorem now_deleteReviewsOf (s : Store) (id : Nat) : (deleteReviewsOf s id).now = s.now := rfl
@[simp]
theorem now_deleteProduct (s : Store) (id : Nat) : (deleteProduct s id).now = s.now := rfl

@[simp]
theorem JsNum.add_fin (a b : ℚ) : JsNum.add (.fin a) (.fin b) = .fin (a + b) := rfl
@[simp]
theorem JsNum.sub_fin (a b : ℚ) : JsNum.sub (.fin a) (.fin b) = .fin (a - b) := by
  simp [JsNum.sub, JsNum.neg, JsNum.add, sub_eq_add_neg]
@[simp]
theorem JsNum.mul_fin (a b : ℚ) : JsNum.mul (.fin a) (.fin b) = .fin (a * b) := rfl
theorem JsNum.div_fin (a b : ℚ) (hb : b ≠ 0) : JsNum.div (.fin a) (.fin b) = .fin (a / b) := by
  simp [JsNum.div, hb]
@[simp]
theorem JsNum.isNaN_fin (a : ℚ) : (JsNum.fin a).isNaN = false := rfl

/-- Looking up an identity after the documents carrying it were updated gives
the update of what the lookup gave before. -/
theorem find_map_ite {α : Type} (key : α → Nat) (f : α → α) (hf : ∀ a, key (f a) = key a)
    (id : Nat) (l : List α) :
    (l.map (fun a => if key a = id then f a else a)).find? (fun a => key a == id)
      = (l.find? (fun a => key a == id)).map f := by
  induction l with
  | nil => rfl
  | cons x xs ih =>
    by_cases h : key x = id
    · have h1 : (key (f x) == id) = true := by rw [hf, h]; exact beq_self_eq_true id
      have h2 : (key x == id) = true := by rw [h]; exact beq_self_eq_true id
      simp only [List.map_cons, if_pos h, List.find?_cons, h1, h2, Option.map_some']
    · have h2 : (key x == id) = false := beq_eq_false_iff_ne.mpr h
      simp only [List.map_cons, if_neg h, List.find?_cons, h2, ih]

/-- Looking up another identity is not affected by the update. -/
theorem find_map_ite_ne {α : Type} (key : α → Nat) (f : α → α) (hf : ∀ a, key (f a) = key a)
    (id other : Nat) (hne : other ≠ id) (l : List α) :
    (l.map (fun a => if key a = id then f a else a)).find? (fun a => key a == other)
      = l.find? (fun a => key a == other) := by
  induction l with
  | nil => rfl
  | cons x xs ih =>
    by_cases h : key x = id
    · have hx : key x ≠ other := by rw [h]; exact fun e => hne e.symm
      have h1 : (key (f x) == other) = false := by rw [hf]; exact beq_eq_false_iff_ne.mpr hx
      have h2 : (key x == other) = false := beq_eq_false_iff_ne.mpr hx
      simp only [List.map_cons, if_pos h, List.find?_cons, h1, h2, ih]
    · simp only [List.map_cons, if_neg h, List.find?_cons, ih]

/-- The product found under `id` after `updateProduct s id f`. -/
theorem findProduct_updateProduct (s : Store) (id : Nat) (f : Product → Product)
    (hf : ∀ p, (f p)._id = p._id) :
    findProduct (updateProduct s id f) id = (findProduct s id).map f := by
  simpa [findProduct, updateProduct] using find_map_ite (fun p : Product => p._id) f hf id s.products

/-- An accepted rating that is not a string is a finite number of [1,5], and
it is the number the arithmetic of `addReview` sees. -/
theorem validateRating_nonString (rt : JsRuntime) (v : JsVal) (n : JsNum)
    (hns : ∀ t, v ≠ .str t) (hv : validateRating rt v = some n) :
    JsVal.toNumber rt v = n ∧ ∃ r : ℚ, n = .fin r ∧ 1 ≤ r ∧ r ≤ 5 := by
  cases v with
  | undefined => simp [validateRating, castNumber] at hv
  | null => simp [validateRating, castNumber] at hv
  | str t => exact absurd rfl (hns t)
  | bool b =>
    cases b <;> simp [validateRating, castNumber, JsNum.ge, JsNum.le] at hv
    · norm_num at hv
    · subst hv; exact ⟨by simp [JsVal.toNumber], 1, by simp, le_refl _, by norm_num⟩
  | num m =>
    cases m with
    | fin q =>
      simp [validateRating, castNumber, JsNum.ge, JsNum.le, JsNum.isNaN] at hv
      obtain ⟨⟨h1, h5⟩, rfl⟩ := hv
      exact ⟨rfl, q, rfl, h1, h5⟩
    | pinf => simp [validateRating, castNumber, JsNum.ge, JsNum.le, JsNum.isNaN] at hv
    | ninf => simp [validateRating, castNumber, JsNum.ge, JsNum.le, JsNum.isNaN] at hv
    | nan => simp [validateRating, castNumber, JsNum.ge, JsNum.le, JsNum.isNaN] at hv


/-- With a rating that is not a string, `(a + rating) / d` is numeric. -/
theorem over_plus_nonString (rt : JsRuntime) (a d : JsNum) (v : JsVal) (hns : ∀ t, v ≠ .str t) :
    JsVal.over rt (JsVal.plus rt a v) d = JsNum.div (JsNum.add a (JsVal.toNumber rt v)) d := by
  cases v with
  | str t => exact absurd rfl (hns t)
  | _ => rfl

/-! ## The rating ledger -/

/-- A review submission that passes every check, with the rating given as
a number in [1,5] (any accepted value that is not a string), on a product
whose aggregate is `(a, c)` with `c + 1 ≠ 0`, by a user without a review of the
product: the response is the 201 success carrying the created review, the
review is in the store, and the product has count `c + 1`, average
`(a * c + r) / (c + 1)` and the review identity appended to its list. -/
theorem addReview_updates_aggregate (rt : JsRuntime) (s : Store) (userId productId : Nat)
    (rating comment : JsVal) (product : Product) (a c r : ℚ)
    (hp : findProduct s productId = some product)
    (hagg : product.ratings = ⟨JsNum.fin a, JsNum.fin c⟩)
    (hc : c + 1 ≠ 0)
    (hnew : findReviewBy s productId userId = none)
    (hns : ∀ t, rating ≠ .str t)
    (hr : validateRating rt rating = some (JsNum.fin r))
    (hcm : (validateComment rt comment).isSome = true) :
    ∃ review : Review,
      (addReview rt s userId productId rating comment).2
          = .ok ⟨201, .review review, "Review added successfully!"⟩
        ∧ review ∈ (addReview rt s userId productId rating comment).1.reviews
        ∧ review._id = s.nextReviewId ∧ review.user = userId ∧ review.product = productId
        ∧ review.rating = JsNum.fin r
        ∧ findProduct (addReview rt s userId productId rating comment).1 productId
            = some { product with
                ratings := ⟨JsNum.fin ((a * c + r) / (c + 1)), JsNum.fin (c + 1)⟩,
                reviews := product.reviews ++ [review._id], updatedAt := s.now } := by
  obtain ⟨cm, hcm⟩ := Option.isSome_iff_exists.mp hcm
  obtain ⟨hnum, -⟩ := validateRating_nonString rt rating _ hns hr
  have hfind : findProduct { s with
      reviews := s.reviews ++ [newReviewDoc s.nextReviewId userId productId (JsNum.fin r) cm s.now],
      nextReviewId := s.nextReviewId + 1 } productId = some product := hp
  have hout : addReview rt s userId productId rating comment
      = (updateProduct { s with
            reviews := s.reviews ++ [newReviewDoc s.nextReviewId userId productId (JsNum.fin r) cm s.now],
            nextReviewId := s.nextReviewId + 1 } productId
          (fun p => { p with
            ratings := ⟨JsNum.fin ((a * c + r) / (c + 1)), JsNum.fin (c + 1)⟩,
            reviews := product.reviews ++ [s.nextReviewId], updatedAt := s.now }),
         .ok ⟨201, .review (newReviewDoc s.nextReviewId userId productId (JsNum.fin r) cm s.now),
           "Review added successfully!"⟩) := by
    simp only [addReview, hp, hnew, createReview, hr, hcm, saveRatings,
      over_plus_nonString rt _ _ rating hns, hnum, hagg, JsNum.mul_fin, JsNum.add_fin,
      JsNum.div_fin _ _ hc, JsNum.isNaN_fin, Bool.or_self, Bool.false_eq_true, if_false, catchAll,
      newReviewDoc]
  refine ⟨newReviewDoc s.nextReviewId userId productId (JsNum.fin r) cm s.now, ?_⟩
  rw [hout]
  refine ⟨rfl, ?_, rfl, rfl, rfl, rfl, ?_⟩
  · simp [updateProduct]
  · rw [findProduct_updateProduct, hfind]
    · rfl
    · intro p; rfl

/-- Rating 4 on the fresh lamp gives average 4 and count 1, then rating 2 by
another user gives average 3 and count 2. -/
theorem addReview_updates_aggregate_witness :
    (findProduct (addReview refRuntime shop0 7 1 (.num (.fin 4)) (.str "ok")).1 1).map
        (fun p => (p.ratings, p.reviews)) = some (⟨.fin 4, .fin 1⟩, [0])
      ∧ (findProduct (addReview refRuntime shop1 8 1 (.num (.fin 2)) (.str "fine")).1 1).map
        (fun p => (p.ratings, p.reviews)) = some (⟨.fin 3, .fin 2⟩, [0, 1]) := by
  obtain ⟨r1, -, -, hid1, -, -, -, h1⟩ :=
    addReview_updates_aggregate refRuntime shop0 7 1 (.num (.fin 4)) (.str "ok") lamp 5 0 4
      (by decide) rfl (by norm_num) (by decide) (by intro t h; cases h)
      (by with_unfolding_all decide) (by decide)
  obtain ⟨r2, -, -, hid2, -, -, -, h2⟩ :=
    addReview_updates_aggregate refRuntime shop1 8 1 (.num (.fin 2)) (.str "fine")
      { lamp with ratings := ⟨.fin 4, .fin 1⟩, reviews := [0] } 4 1 2
      (by decide) rfl (by norm_num) (by decide) (by intro t h; cases h)
      (by with_unfolding_all decide) (by decide)
  rw [h1, h2, hid1, hid2]
  constructor
  · simp [shop0, lamp]
  · simp [shop1, lamp]; norm_num

/-- After the deletion no review is found under the identity. -/
theorem findReview_deleteReview (s : Store) (id : Nat) : findReview (deleteReview s id) id = none := by
  simp [findReview, deleteReview, List.find?_eq_none]

/-- Dismissing a stored review with finite rating `r` whose product is
stored with the finite aggregate `(a, c)`: the response is the 200 success,
the reviews left are those with another identity, and the product has the
identity pulled from its list, count `c - 1`, and average 5 when `c - 1 = 0`
and `(a * c - r) / (c - 1)` otherwise. -/
theorem dismissFlaggedReview_updates_aggregate (s : Store) (reviewId : Nat) (review : Review)
    (product : Product) (a c r : ℚ)
    (hrev : findReview s reviewId = some review)
    (hp : findProduct s review.product = some product)
    (hagg : product.ratings = ⟨JsNum.fin a, JsNum.fin c⟩)
    (hr : review.rating = JsNum.fin r) :
    (dismissFlaggedReview s reviewId).2 = .ok ⟨200, .empty, "Review dismissed successfully!"⟩
      ∧ (dismissFlaggedReview s reviewId).1.reviews
          = s.reviews.filter (fun x => x._id != reviewId)
      ∧ (∀ x ∈ (dismissFlaggedReview s reviewId).1.reviews, x._id ≠ reviewId)
      ∧ findProduct (dismissFlaggedReview s reviewId).1 review.product
          = some { product with
              ratings := ⟨if c - 1 = 0 then JsNum.fin 5 else JsNum.fin ((a * c - r) / (c - 1)),
                JsNum.fin (c - 1)⟩,
              reviews := product.reviews.filter (fun i => i != reviewId), updatedAt := s.now }
      ∧ reviewId ∉ product.reviews.filter (fun i => i != reviewId) := by
  have hfind1 : findProduct (deleteReview s reviewId) review.product = some product := hp
  have hfind2 : findProduct (updateProduct (deleteReview s reviewId) review.product
      (fun p => { p with reviews := p.reviews.filter (fun i => i != reviewId), updatedAt := s.now })) review.product
        = some { product with reviews := product.reviews.filter (fun i => i != reviewId), updatedAt := s.now } := by
    rw [findProduct_updateProduct, hfind1]
    · rfl
    · intro p; rfl
  have havg : (if JsNum.fin (c - 1) = JsNum.fin 0 then JsNum.fin 5
      else JsNum.div (JsNum.fin (a * c - r)) (JsNum.fin (c - 1)))
        = if c - 1 = 0 then JsNum.fin 5 else JsNum.fin ((a * c - r) / (c - 1)) := by
    by_cases h : c - 1 = 0
    · simp [h]
    · have h2 : JsNum.fin (c - 1) ≠ JsNum.fin 0 := fun e => h (JsNum.fin.inj e)
      rw [if_neg h, if_neg h2, JsNum.div_fin _ _ h]
  have hnan : (if c - 1 = 0 then JsNum.fin 5 else JsNum.fin ((a * c - r) / (c - 1))).isNaN = false := by
    split <;> rfl
  have hout : dismissFlaggedReview s reviewId
      = (updateProduct (updateProduct (deleteReview s reviewId) review.product
            (fun p => { p with reviews := p.reviews.filter (fun i => i != reviewId), updatedAt := s.now }))
          review.product
          (fun p => { p with
            ratings := ⟨if c - 1 = 0 then JsNum.fin 5 else JsNum.fin ((a * c - r) / (c - 1)),
              JsNum.fin (c - 1)⟩,
            reviews := product.reviews.filter (fun i => i != reviewId), updatedAt := s.now }),
         .ok ⟨200, .empty, "Review dismissed successfully!"⟩) := by
    simp only [dismissFlaggedReview, hrev, hfind2, hagg, hr, JsNum.mul_fin, JsNum.sub_fin, havg,
      saveRatings, hnan, JsNum.isNaN_fin, Bool.or_self, Bool.false_eq_true, if_false, catchAll,
      now_updateProduct, now_deleteReview]
  rw [hout]
  refine ⟨rfl, rfl, ?_, ?_, ?_⟩
  · intro x hx
    simp [updateProduct, deleteReview] at hx
    exact hx.2
  · rw [findProduct_updateProduct, hfind2]
    · rfl
    · intro p; rfl
  · simp


/-! ## The shape of the store left by the ledger handlers -/

/-- The store left by `addReview`: the store as it was; or, when the review was
created, the store with the review alone (the product save was rejected) or
with the review and the updated product. -/
theorem addReview_store_cases (rt : JsRuntime) (s : Store) (userId productId : Nat)
    (rating comment : JsVal) :
    (addReview rt s userId productId rating comment).1 = s ∨
    ∃ product n cm, findProduct s productId = some product
      ∧ findReviewBy s productId userId = none ∧ validateRating rt rating = some n ∧
      ((JsNum.isNaN (JsVal.over rt (JsVal.plus rt
            (JsNum.mul product.ratings.average product.ratings.count) rating)
            (JsNum.add product.ratings.count (JsNum.fin 1)))
          || JsNum.isNaN (JsNum.add product.ratings.count (JsNum.fin 1))) = true ∧
        (addReview rt s userId productId rating comment).1
          = { s with reviews := s.reviews ++ [newReviewDoc s.nextReviewId userId productId n cm s.now],
                     nextReviewId := s.nextReviewId + 1 }
       ∨
       (JsNum.isNaN (JsVal.over rt (JsVal.plus rt
            (JsNum.mul product.ratings.average product.ratings.count) rating)
            (JsNum.add product.ratings.count (JsNum.fin 1)))
          || JsNum.isNaN (JsNum.add product.ratings.count (JsNum.fin 1))) = false ∧
        (addReview rt s userId productId rating comment).1
          = updateProduct
              { s with reviews := s.reviews ++ [newReviewDoc s.nextReviewId userId productId n cm s.now],
                       nextReviewId := s.nextReviewId + 1 }
              productId
              (fun p => { p with
                ratings := ⟨JsVal.over rt (JsVal.plus rt
                    (JsNum.mul product.ratings.average product.ratings.count) rating)
                    (JsNum.add product.ratings.count (JsNum.fin 1)),
                  JsNum.add product.ratings.count (JsNum.fin 1)⟩,
                reviews := product.reviews ++ [s.nextReviewId], updatedAt := s.now })) := by
  unfold addReview
  cases hp : findProduct s productId with
  | none => left; rfl
  | some product =>
    cases hb : findReviewBy s productId userId with
    | some _ => left; rfl
    | none =>
      cases hv : validateRating rt rating with
      | none => left; simp [createReview, hv]
      | some n =>
        cases hc : validateComment rt comment with
        | none => left; simp [createReview, hv, hc]
        | some cm =>
          right
          refine ⟨product, n, cm, rfl, rfl, rfl, ?_⟩
          simp only [createReview, hv, hc, saveRatings]
          by_cases hnan : (JsNum.isNaN (JsVal.over rt (JsVal.plus rt
              (JsNum.mul product.ratings.average product.ratings.count) rating)
              (JsNum.add product.ratings.count (JsNum.fin 1)))
            || JsNum.isNaN (JsNum.add product.ratings.count (JsNum.fin 1))) = true
          · left; exact ⟨hnan, by rw [if_pos hnan]⟩
          · right
            refine ⟨by simpa using hnan, ?_⟩
            rw [if_neg hnan]
            rfl

/-- The store left by `dismissFlaggedReview`: the store as it was; or, when the
review was found, the store without it and with its identity pulled (the
product is missing, or its save was rejected), or that store with the new
aggregate saved. -/
theorem dismissFlaggedReview_store_cases (s : Store) (reviewId : Nat) :
    (dismissFlaggedReview s reviewId).1 = s ∨
    ∃ review, findReview s reviewId = some review ∧
      ((findProduct s review.product = none ∧
        (dismissFlaggedReview s reviewId).1
          = updateProduct (deleteReview s reviewId) review.product
              (fun p => { p with reviews := p.reviews.filter (fun i => i != reviewId), updatedAt := s.now }))
       ∨ ∃ product, findProduct s review.product = some product ∧
          ((JsNum.isNaN (if JsNum.sub product.ratings.count (JsNum.fin 1) = JsNum.fin 0
                then JsNum.fin 5
                else JsNum.div (JsNum.sub (JsNum.mul product.ratings.average product.ratings.count)
                  review.rating) (JsNum.sub product.ratings.count (JsNum.fin 1)))
              || JsNum.isNaN (JsNum.sub product.ratings.count (JsNum.fin 1))) = true ∧
            (dismissFlaggedReview s reviewId).1
              = updateProduct (deleteReview s reviewId) review.product
                  (fun p => { p with reviews := p.reviews.filter (fun i => i != reviewId), updatedAt := s.now })
           ∨
           (JsNum.isNaN (if JsNum.sub product.ratings.count (JsNum.fin 1) = JsNum.fin 0
                then JsNum.fin 5
                else JsNum.div (JsNum.sub (JsNum.mul product.ratings.average product.ratings.count)
                  review.rating) (JsNum.sub product.ratings.count (JsNum.fin 1)))
              || JsNum.isNaN (JsNum.sub product.ratings.count (JsNum.fin 1))) = false ∧
            (dismissFlaggedReview s reviewId).1
              = updateProduct
                  (updateProduct (deleteReview s reviewId) review.product
                    (fun p => { p with reviews := p.reviews.filter (fun i => i != reviewId), updatedAt := s.now }))
                  review.product
                  (fun p => { p with
                    ratings := ⟨if JsNum.sub product.ratings.count (JsNum.fin 1) = JsNum.fin 0
                        then JsNum.fin 5
                        else JsNum.div (JsNum.sub (JsNum.mul product.ratings.average
                          product.ratings.count) review.rating)
                          (JsNum.sub product.ratings.count (JsNum.fin 1)),
                      JsNum.sub product.ratings.count (JsNum.fin 1)⟩,
                    reviews := product.reviews.filter (fun i => i != reviewId), updatedAt := s.now }))) := by
  unfold dismissFlaggedReview
  cases hr : findReview s reviewId with
  | none => left; rfl
  | some review =>
    right
    refine ⟨review, rfl, ?_⟩
    cases hp : findProduct s review.product with
    | none =>
      left
      have h2 : findProduct (updateProduct (deleteReview s reviewId) review.product
          (fun p => { p with reviews := p.reviews.filter (fun i => i != reviewId), updatedAt := s.now }))
          review.product = none := by
        rw [findProduct_updateProduct]
        · have : findProduct (deleteReview s reviewId) review.product = none := hp
          rw [this]; rfl
        · intro p; rfl
      simp only [h2]
      exact ⟨trivial, trivial⟩
    | some product =>
      right
      have h2 : findProduct (updateProduct (deleteReview s reviewId) review.product
          (fun p => { p with reviews := p.reviews.filter (fun i => i != reviewId), updatedAt := s.now }))
          review.product
            = some { product with reviews := product.reviews.filter (fun i => i != reviewId), updatedAt := s.now } := by
        rw [findProduct_updateProduct]
        · have : findProduct (deleteReview s reviewId) review.product = some product := hp
          rw [this]; rfl
        · intro p; rfl
      refine ⟨product, rfl, ?_⟩
      simp only [h2, saveRatings]
      by_cases hnan : (JsNum.isNaN (if JsNum.sub product.ratings.count (JsNum.fin 1) = JsNum.fin 0
              then JsNum.fin 5
              else JsNum.div (JsNum.sub (JsNum.mul product.ratings.average product.ratings.count)
                review.rating) (JsNum.sub product.ratings.count (JsNum.fin 1)))
            || JsNum.isNaN (JsNum.sub product.ratings.count (JsNum.fin 1))) = true
      · left; exact ⟨hnan, by rw [if_pos hnan]⟩
      · right
        refine ⟨by simpa using hnan, ?_⟩
        rw [if_neg hnan]
        rfl

/-! ## The ledger invariant -/

/-- A review found by identity is stored and carries that identity. -/
theorem findReview_some (s : Store) (id : Nat) (rv : Review) (h : findReview s id = some rv) :
    rv ∈ s.reviews ∧ rv._id = id := by
  unfold findReview at h
  exact ⟨List.mem_of_find?_eq_some h, by simpa using List.find?_some h⟩

/-- Two reviews of a list with distinct identities that share an identity are
the same review. -/
theorem id_unique (L : List Review) (hnd : (L.map (fun r => r._id)).Nodup) (a b : Review)
    (ha : a ∈ L) (hb : b ∈ L) (h : a._id = b._id) : a = b :=
  List.inj_on_of_nodup_map hnd ha hb h

/-- Deleting a review of another product leaves the reviews of `p` as they
were. -/
theorem retained_delete_other (L : List Review) (rv : Review)
    (hnd : (L.map (fun r => r._id)).Nodup) (hmem : rv ∈ L) (p : Nat) (hp : rv.product ≠ p) :
    (L.filter (fun r => r._id != rv._id)).filter (fun r => r.product == p)
      = L.filter (fun r => r.product == p) := by
  rw [List.filter_filter]
  apply List.filter_congr
  intro x hx
  by_cases hxp : x.product = p
  · have hne : x._id ≠ rv._id := by
      intro e
      have := id_unique L hnd x rv hx hmem e
      exact hp (this ▸ hxp)
    simp [hxp, hne]
  · simp [hxp]

/-- Deleting a review takes one review, and its rating, out of the reviews of
its product. -/
theorem retained_delete (L : List Review) (rv : Review)
    (hnd : (L.map (fun r => r._id)).Nodup) (hmem : rv ∈ L) :
    ((L.filter (fun r => r._id != rv._id)).filter (fun r => r.product == rv.product)).length + 1
        = (L.filter (fun r => r.product == rv.product)).length
      ∧ ratingSum ((L.filter (fun r => r._id != rv._id)).filter (fun r => r.product == rv.product))
          + rv.rating.toRat
        = ratingSum (L.filter (fun r => r.product == rv.product)) := by
  induction L with
  | nil => cases hmem
  | cons x xs ih =>
    rw [List.map_cons, List.nodup_cons] at hnd
    by_cases hx : x._id = rv._id
    · have hxrv : x = rv := by
        rcases List.mem_cons.mp hmem with h | h
        · exact h.symm
        · exact absurd (List.mem_map.mpr ⟨rv, h, hx.symm⟩) hnd.1
      subst hxrv
      have hkeep : xs.filter (fun r => r._id != x._id) = xs := by
        apply List.filter_eq_self.mpr
        intro a ha
        have : a._id ≠ x._id := fun e => hnd.1 (List.mem_map.mpr ⟨a, ha, e⟩)
        simpa using this
      simp [List.filter_cons, hkeep, ratingSum, add_comm]
    · have hmem2 : rv ∈ xs := by
        rcases List.mem_cons.mp hmem with h | h
        · exact absurd (h ▸ rfl) hx
        · exact h
      obtain ⟨ih1, ih2⟩ := ih hnd.2 hmem2
      by_cases hxp : x.product = rv.product
      · simp only [List.filter_cons, bne_iff_ne, ne_eq, hx, not_false_eq_true, decide_True,
          if_true, hxp, beq_self_eq_true, List.length_cons]
        refine ⟨by omega, ?_⟩
        simp only [ratingSum, List.map_cons, List.sum_cons] at ih2 ⊢
        linarith
      · have hb : (x.product == rv.product) = false := beq_eq_false_iff_ne.mpr hxp
        simp only [List.filter_cons, bne_iff_ne, ne_eq, hx, not_false_eq_true, decide_True,
          if_true, hb, Bool.false_eq_true, if_false]
        exact ⟨ih1, ih2⟩



/-- Creating a review keeps the store well formed. -/
theorem wf_create (s : Store) (doc : Review) (hid : doc._id = s.nextReviewId) (h : s.WF) :
    Store.WF { s with reviews := s.reviews ++ [doc], nextReviewId := s.nextReviewId + 1 } := by
  obtain ⟨hnd, hlt⟩ := h
  refine ⟨?_, ?_⟩
  · simp only [List.map_append, List.map_cons, List.map_nil]
    rw [List.nodup_append]
    refine ⟨hnd, List.nodup_singleton _, ?_⟩
    intro a ha hb
    rw [List.mem_singleton] at hb
    obtain ⟨r, hr, rfl⟩ := List.mem_map.mp ha
    have := hlt r hr
    omega
  · intro r hr
    rcases List.mem_append.mp hr with h1 | h1
    · exact Nat.lt_succ_of_lt (hlt r h1)
    · rw [List.mem_singleton] at h1
      show r._id < s.nextReviewId + 1
      rw [h1, hid]
      omega

/-- Deleting a review keeps the store well formed. -/
theorem wf_deleteReview (s : Store) (id : Nat) (h : s.WF) : (deleteReview s id).WF := by
  obtain ⟨hnd, hlt⟩ := h
  refine ⟨?_, ?_⟩
  · exact List.Nodup.sublist (List.Sublist.map _ (List.filter_sublist _)) hnd
  · intro r hr
    exact hlt r (List.mem_of_mem_filter hr)

/-- The product found under another identity after `updateProduct s id f`. -/
theorem findProduct_updateProduct_ne (s : Store) (id other : Nat) (f : Product → Product)
    (hne : other ≠ id) (hf : ∀ p, (f p)._id = p._id) :
    findProduct (updateProduct s id f) other = findProduct s other := by
  simpa [findProduct, updateProduct] using
    find_map_ite_ne (fun p : Product => p._id) f hf id other hne s.products

/-- The ledger invariant from its parts. -/
theorem ledgerInv_intro (s : Store) (p : Nat) (prod : Product) (hwf : s.WF)
    (hp : findProduct s p = some prod) (L : List Review) (hL : retained s p = L)
    (hfin : ∀ r ∈ L, ∃ q, r.rating = JsNum.fin q)
    (hc : prod.ratings.count = JsNum.fin L.length)
    (ha : prod.ratings.average
      = if L = [] then JsNum.fin 5 else JsNum.fin (ratingSum L / L.length)) :
    LedgerInv s p := by
  subst hL
  exact ⟨hwf, prod, hp, hfin, hc, ha⟩

/-- A review submission whose rating is not a string keeps the ledger invariant
of every product. -/
theorem ledgerInv_addReview (rt : JsRuntime) (s : Store) (p userId productId : Nat)
    (rating comment : JsVal) (hns : ∀ t, rating ≠ .str t) (h : LedgerInv s p) :
    LedgerInv (addReview rt s userId productId rating comment).1 p := by
  rcases addReview_store_cases rt s userId productId rating comment with
    h0 | ⟨product, n, cm, hp, -, hv, hcase⟩
  · rw [h0]; exact h
  · obtain ⟨hwf, prod, hprod, hfin, hcnt, havg⟩ := h
    have hwf1 := wf_create s (newReviewDoc s.nextReviewId userId productId n cm s.now) rfl hwf
    by_cases hq : productId = p
    · subst hq
      have hpp : prod = product := Option.some.inj (hprod.symm.trans hp)
      subst hpp
      obtain ⟨hnum, r, rfl, -, -⟩ := validateRating_nonString rt rating n hns hv
      have hret : retained { s with
          reviews := s.reviews ++ [newReviewDoc s.nextReviewId userId productId (JsNum.fin r) cm s.now],
          nextReviewId := s.nextReviewId + 1 } productId
            = retained s productId ++ [newReviewDoc s.nextReviewId userId productId (JsNum.fin r) cm s.now] := by
        simp [retained, List.filter_append, newReviewDoc]
      have hA : ∃ A : ℚ, prod.ratings.average = JsNum.fin A ∧
          A * ((retained s productId).length : ℚ) = ratingSum (retained s productId) := by
        by_cases hnil : retained s productId = []
        · exact ⟨5, by rw [havg, if_pos hnil], by simp [hnil, ratingSum]⟩
        · refine ⟨_, by rw [havg, if_neg hnil], ?_⟩
          have : ((retained s productId).length : ℚ) ≠ 0 := by
            simpa using hnil
          field_simp
      obtain ⟨A, hAavg, hAsum⟩ := hA
      have hlen : ((retained s productId).length : ℚ) + 1 ≠ 0 := by positivity
      have hval : JsVal.over rt (JsVal.plus rt
            (JsNum.mul prod.ratings.average prod.ratings.count) rating)
            (JsNum.add prod.ratings.count (JsNum.fin 1))
          = JsNum.fin ((ratingSum (retained s productId) + r)
              / (((retained s productId).length : ℚ) + 1)) := by
        rw [over_plus_nonString rt _ _ rating hns, hnum, hAavg, hcnt, JsNum.mul_fin,
          JsNum.add_fin, JsNum.add_fin, JsNum.div_fin _ _ hlen, hAsum]
      have hcount : JsNum.add prod.ratings.count (JsNum.fin 1)
          = JsNum.fin (((retained s productId).length : ℚ) + 1) := by
        rw [hcnt, JsNum.add_fin]
      rw [hval, hcount] at hcase
      rcases hcase with ⟨hbad, -⟩ | ⟨-, hout⟩
      · simp at hbad
      · rw [hout]
        have hfp : findProduct (updateProduct { s with
            reviews := s.reviews ++ [newReviewDoc s.nextReviewId userId productId (JsNum.fin r) cm s.now],
            nextReviewId := s.nextReviewId + 1 } productId
            (fun x => { x with
              ratings := ⟨JsNum.fin ((ratingSum (retained s productId) + r)
                  / (((retained s productId).length : ℚ) + 1)),
                JsNum.fin (((retained s productId).length : ℚ) + 1)⟩,
              reviews := prod.reviews ++ [s.nextReviewId], updatedAt := s.now })) productId
            = some { prod with
              ratings := ⟨JsNum.fin ((ratingSum (retained s productId) + r)
                  / (((retained s productId).length : ℚ) + 1)),
                JsNum.fin (((retained s productId).length : ℚ) + 1)⟩,
              reviews := prod.reviews ++ [s.nextReviewId], updatedAt := s.now } := by
          rw [findProduct_updateProduct]
          · have : findProduct { s with
                reviews := s.reviews ++ [newReviewDoc s.nextReviewId userId productId (JsNum.fin r) cm s.now],
                nextReviewId := s.nextReviewId + 1 } productId = some prod := hp
            rw [this]; rfl
          · intro x; rfl
        refine ledgerInv_intro _ productId _ hwf1 hfp _ hret ?_ ?_ ?_
        · intro x hx
          rcases List.mem_append.mp hx with h1 | h1
          · exact hfin x h1
          · rw [List.mem_singleton] at h1
            exact ⟨r, by rw [h1]; rfl⟩
        · simp
        · simp [ratingSum, newReviewDoc, JsNum.toRat]
    · have hret : retained { s with
          reviews := s.reviews ++ [newReviewDoc s.nextReviewId userId productId n cm s.now],
          nextReviewId := s.nextReviewId + 1 } p = retained s p := by
        simp [retained, List.filter_append, newReviewDoc, hq]
      have hinv1 : LedgerInv { s with
          reviews := s.reviews ++ [newReviewDoc s.nextReviewId userId productId n cm s.now],
          nextReviewId := s.nextReviewId + 1 } p := by
        refine ⟨hwf1, prod, hprod, ?_, ?_, ?_⟩
        · rw [hret]; exact hfin
        · rw [hret]; exact hcnt
        · rw [hret]; exact havg
      rcases hcase with ⟨-, hout⟩ | ⟨-, hout⟩
      · rw [hout]; exact hinv1
      · rw [hout]
        obtain ⟨hw, prod1, hprod1, hrest⟩ := hinv1
        refine ⟨hw, prod1, ?_, hrest⟩
        rw [findProduct_updateProduct_ne _ _ _ _ (fun e => hq e.symm)]
        · exact hprod1
        · intro x; rfl



/-- The dismissal of a review keeps the ledger invariant of every product. -/
theorem ledgerInv_dismissFlaggedReview (s : Store) (p reviewId : Nat) (h : LedgerInv s p) :
    LedgerInv (dismissFlaggedReview s reviewId).1 p := by
  rcases dismissFlaggedReview_store_cases s reviewId with h0 | ⟨rv, hrv, hcase⟩
  · rw [h0]; exact h
  · obtain ⟨hmem, hid⟩ := findReview_some s reviewId rv hrv
    subst hid
    obtain ⟨hwf, prod, hprod, hfin, hcnt, havg⟩ := h
    have hwfd := wf_deleteReview s rv._id hwf
    by_cases hq : rv.product = p
    · subst hq
      obtain ⟨hlen, hsum⟩ := retained_delete s.reviews rv hwf.1 hmem
      have hretd : retained (deleteReview s rv._id) rv.product
          = (s.reviews.filter (fun r => r._id != rv._id)).filter (fun r => r.product == rv.product) :=
        rfl
      have hmemr : rv ∈ retained s rv.product := by
        simp [retained, hmem]
      obtain ⟨x, hx⟩ := hfin rv hmemr
      have hnil : retained s rv.product ≠ [] := List.ne_nil_of_mem hmemr
      rw [if_neg hnil] at havg
      have hlenq : ((retained s rv.product).length : ℚ)
          = ((retained (deleteReview s rv._id) rv.product).length : ℚ) + 1 := by
        rw [hretd]
        have : (retained s rv.product).length
            = ((s.reviews.filter (fun r => r._id != rv._id)).filter
                (fun r => r.product == rv.product)).length + 1 := hlen.symm
        rw [this]; push_cast; rfl
      have hsumq : ratingSum (retained s rv.product)
          = ratingSum (retained (deleteReview s rv._id) rv.product) + x := by
        rw [hretd]
        have := hsum
        rw [hx] at this
        exact this.symm
      have hpos : ((retained s rv.product).length : ℚ) ≠ 0 := by
        rw [hlenq]; positivity
      have hcount : JsNum.sub prod.ratings.count (JsNum.fin 1)
          = JsNum.fin ((retained (deleteReview s rv._id) rv.product).length : ℚ) := by
        rw [hcnt, JsNum.sub_fin, hlenq]; congr 1; ring
      have hval : (if JsNum.sub prod.ratings.count (JsNum.fin 1) = JsNum.fin 0 then JsNum.fin 5
            else JsNum.div (JsNum.sub (JsNum.mul prod.ratings.average prod.ratings.count)
              rv.rating) (JsNum.sub prod.ratings.count (JsNum.fin 1)))
          = if retained (deleteReview s rv._id) rv.product = [] then JsNum.fin 5
            else JsNum.fin (ratingSum (retained (deleteReview s rv._id) rv.product)
              / ((retained (deleteReview s rv._id) rv.product).length : ℚ)) := by
        rw [hcount]
        by_cases hnil2 : retained (deleteReview s rv._id) rv.product = []
        · rw [if_pos hnil2, hnil2]; simp
        · have hne : ((retained (deleteReview s rv._id) rv.product).length : ℚ) ≠ 0 := by
            simpa using hnil2
          have hne2 : JsNum.fin ((retained (deleteReview s rv._id) rv.product).length : ℚ)
              ≠ JsNum.fin 0 := fun e => hne (JsNum.fin.inj e)
          rw [if_neg hnil2, if_neg hne2, havg, hcnt, hx, JsNum.mul_fin, JsNum.sub_fin,
            JsNum.div_fin _ _ hne]
          congr 2
          rw [div_mul_cancel₀ _ hpos, hsumq]; ring
      rcases hcase with ⟨hnone, -⟩ | ⟨product, hp2, hcase2⟩
      · rw [hprod] at hnone; cases hnone
      · have hpp : prod = product := Option.some.inj (hprod.symm.trans hp2)
        subst hpp
        rw [hval, hcount] at hcase2
        rcases hcase2 with ⟨hbad, -⟩ | ⟨-, hout⟩
        · exfalso
          revert hbad
          split <;> simp
        · rw [hout]
          have hfp : findProduct (updateProduct
                (updateProduct (deleteReview s rv._id) rv.product
                  (fun p => { p with reviews := p.reviews.filter (fun i => i != rv._id), updatedAt := s.now }))
                rv.product
                (fun p => { p with
                  ratings := ⟨if retained (deleteReview s rv._id) rv.product = [] then JsNum.fin 5
                      else JsNum.fin (ratingSum (retained (deleteReview s rv._id) rv.product)
                        / ((retained (deleteReview s rv._id) rv.product).length : ℚ)),
                    JsNum.fin ((retained (deleteReview s rv._id) rv.product).length : ℚ)⟩,
                  reviews := prod.reviews.filter (fun i => i != rv._id), updatedAt := s.now })) rv.product
              = some { prod with
                  ratings := ⟨if retained (deleteReview s rv._id) rv.product = [] then JsNum.fin 5
                      else JsNum.fin (ratingSum (retained (deleteReview s rv._id) rv.product)
                        / ((retained (deleteReview s rv._id) rv.product).length : ℚ)),
                    JsNum.fin ((retained (deleteReview s rv._id) rv.product).length : ℚ)⟩,
                  reviews := prod.reviews.filter (fun i => i != rv._id), updatedAt := s.now } := by
            rw [findProduct_updateProduct, findProduct_updateProduct]
            · have : findProduct (deleteReview s rv._id) rv.product = some prod := hprod
              rw [this]; rfl
            · intro x; rfl
            · intro x; rfl
          refine ledgerInv_intro _ rv.product _ hwfd hfp
            (retained (deleteReview s rv._id) rv.product) rfl ?_ rfl rfl
          intro y hy
          apply hfin y
          rw [hretd] at hy
          have hy2 := List.mem_of_mem_filter (List.mem_filter.mp hy).1
          simp only [retained, List.mem_filter]
          exact ⟨hy2, (List.mem_filter.mp hy).2⟩
    · have hretd : retained (deleteReview s rv._id) p = retained s p :=
        retained_delete_other s.reviews rv hwf.1 hmem p hq
      have hinv1 : LedgerInv (deleteReview s rv._id) p := by
        refine ⟨hwfd, prod, hprod, ?_, ?_, ?_⟩
        · rw [hretd]; exact hfin
        · rw [hretd]; exact hcnt
        · rw [hretd]; exact havg
      have hinv2 : LedgerInv (updateProduct (deleteReview s rv._id) rv.product
          (fun p => { p with reviews := p.reviews.filter (fun i => i != rv._id), updatedAt := s.now })) p := by
        obtain ⟨hw, prod1, hprod1, hrest⟩ := hinv1
        refine ⟨hw, prod1, ?_, hrest⟩
        rw [findProduct_updateProduct_ne _ _ _ _ (fun e => hq e.symm)]
        · exact hprod1
        · intro x; rfl
      rcases hcase with ⟨-, hout⟩ | ⟨product, -, ⟨-, hout⟩ | ⟨-, hout⟩⟩
      · rw [hout]; exact hinv2
      · rw [hout]; exact hinv2
      · rw [hout]
        obtain ⟨hw, prod1, hprod1, hrest⟩ := hinv2
        refine ⟨hw, prod1, ?_, hrest⟩
        rw [findProduct_updateProduct_ne _ _ _ _ (fun e => hq e.symm)]
        · exact hprod1
        · intro x; rfl



/-- A sequence of ledger requests without string ratings keeps the ledger
invariant. -/
theorem ledgerInv_runOps (rt : JsRuntime) (p : Nat) (ops : List LedgerOp) :
    ∀ s : Store, LedgerInv s p → (∀ op ∈ ops, op.stringRating = false) →
      LedgerInv (runOps rt s ops) p := by
  induction ops with
  | nil => intro s h _; exact h
  | cons op rest ih =>
    intro s h hnum
    have hrest : ∀ o ∈ rest, o.stringRating = false := fun o ho => hnum o (List.mem_cons_of_mem _ ho)
    have hop := hnum op (List.mem_cons_self _ _)
    show LedgerInv (runOps rt (applyOp rt s op) rest) p
    apply ih _ _ hrest
    cases op with
    | add userId productId rating comment =>
      apply ledgerInv_addReview
      · intro t ht
        subst ht
        simp [LedgerOp.stringRating] at hop
      · exact h
    | dismiss reviewId => exact ledgerInv_dismissFlaggedReview s p reviewId h

/-- Start from a well-formed store in which the product is stored with
average 5 and count 0 and has no review, and serve any sequence of review
submissions (ratings given as numbers, not strings) and review dismissals, on
this or any other product.  Then the product is still stored, the ratings of
its retained reviews are finite numbers `qs`, its count is their number and
its average is their exact mean, or 5 when there is none. -/
theorem ledger_average_is_mean (rt : JsRuntime) (s : Store) (productId : Nat) (product : Product)
    (ops : List LedgerOp)
    (hwf : s.WF)
    (hp : findProduct s productId = some product)
    (h0 : product.ratings = ⟨JsNum.fin 5, JsNum.fin 0⟩)
    (hnone : retained s productId = [])
    (hnum : ∀ op ∈ ops, op.stringRating = false) :
    ∃ (product' : Product) (qs : List ℚ),
      findProduct (runOps rt s ops) productId = some product'
        ∧ (retained (runOps rt s ops) productId).map (fun r => r.rating) = qs.map JsNum.fin
        ∧ product'.ratings.count = JsNum.fin qs.length
        ∧ product'.ratings.average
            = if qs = [] then JsNum.fin 5 else JsNum.fin (qs.sum / qs.length) := by
  have hinit : LedgerInv s productId := by
    refine ledgerInv_intro s productId product hwf hp [] hnone ?_ ?_ ?_
    · intro r hr; cases hr
    · rw [h0]; simp
    · rw [h0]; simp
  obtain ⟨-, product', hp', hfin, hcnt, havg⟩ := ledgerInv_runOps rt productId ops s hinit hnum
  refine ⟨product', (retained (runOps rt s ops) productId).map (fun r => r.rating.toRat), hp',
    ?_, ?_, ?_⟩
  · rw [List.map_map]
    apply List.map_congr_left
    intro r hr
    obtain ⟨q, hq⟩ := hfin r hr
    simp [hq, JsNum.toRat]
  · rw [hcnt]; simp
  · rw [havg]
    simp only [List.map_eq_nil_iff, List.length_map, ratingSum]

/-- The ledger requests rate 4, rate 2, dismiss the first review leave the
lamp with average 2 and count 1. -/
theorem ledger_average_is_mean_witness :
    (findProduct (runOps refRuntime shop0
        [.add 7 1 (.num (.fin 4)) (.str "ok"), .add 8 1 (.num (.fin 2)) (.str "fine"),
          .dismiss 0]) 1).map (fun p => p.ratings) = some ⟨.fin 2, .fin 1⟩ := by
  obtain ⟨product', qs, hp, hqs, hcnt, havg⟩ :=
    ledger_average_is_mean refRuntime shop0 1 lamp
      [.add 7 1 (.num (.fin 4)) (.str "ok"), .add 8 1 (.num (.fin 2)) (.str "fine"), .dismiss 0]
      ⟨List.nodup_nil, fun r hr => by cases hr⟩ (by decide) rfl rfl (by decide)
  have hret : (retained (runOps refRuntime shop0
        [.add 7 1 (.num (.fin 4)) (.str "ok"), .add 8 1 (.num (.fin 2)) (.str "fine"),
          .dismiss 0]) 1).map (fun r => r.rating) = [JsNum.fin 2] := by
    with_unfolding_all decide
  rw [hret] at hqs
  have hq : qs = [2] := by
    cases qs with
    | nil => cases hqs
    | cons a t =>
      cases t with
      | nil => simp at hqs; rw [← hqs]
      | cons b u => simp at hqs
  subst hq
  rw [hp]
  cases product' with
  | mk _ _ _ _ _ _ ratings _ _ _ _ =>
    cases ratings with
    | mk avg cnt =>
      simp only at hcnt havg
      simp [hcnt, havg]



/-- Dismissing the review rated 4 from the lamp with average 3 and count 2
leaves average 2, count 1 and the other review listed. -/
theorem dismissFlaggedReview_updates_aggregate_witness :
    (dismissFlaggedReview shop2 0).2 = .ok ⟨200, .empty, "Review dismissed successfully!"⟩
      ∧ findReview (dismissFlaggedReview shop2 0).1 0 = none
      ∧ (findProduct (dismissFlaggedReview shop2 0).1 1).map (fun p => (p.ratings, p.reviews))
          = some (⟨.fin 2, .fin 1⟩, [1]) := by
  obtain ⟨h1, -, h2, h3, -⟩ :=
    dismissFlaggedReview_updates_aggregate shop2 0 (newReviewDoc 0 7 1 (JsNum.fin 4) "ok" 0)
      { lamp with ratings := ⟨JsNum.fin 3, JsNum.fin 2⟩, reviews := [0, 1] } 3 2 4
      (by decide) (by decide) rfl rfl
  refine ⟨h1, ?_, ?_⟩
  · rw [findReview, List.find?_eq_none]
    intro x hx
    simpa using h2 x hx
  · have h4 : findProduct (dismissFlaggedReview shop2 0).1 1 = _ := h3
    rw [h4]
    simp [lamp]
    norm_num

/-! ## Range of the rating -/

/-- A submitted rating whose numeric value lies outside [1,5] makes `addReview`
fail with the store, and so the product's average and count, left as they
were. -/
theorem addReview_rejects_rating_out_of_range (rt : JsRuntime) (s : Store)
    (userId productId : Nat) (rating comment : JsVal) (n : JsNum)
    (hcast : castNumber rt rating = some (some n))
    (hout : (n.ge (JsNum.fin 1) && n.le (JsNum.fin 5)) = false) :
    addReview rt s userId productId rating comment
      = (s, .error ⟨500, "Something went wrong while adding the review"⟩) := by
  have hv : validateRating rt rating = none := by
    simp only [validateRating, hcast, hout, Bool.false_eq_true, if_false]
  unfold addReview
  cases findProduct s productId with
  | none => rfl
  | some product =>
    cases findReviewBy s productId userId with
    | some _ => rfl
    | none => simp [createReview, hv, catchAll]

/-! ## Cascades and references -/

/-- C5 (failing run): from the store holding the lamp with count 0 and no
review, the submission of the rating `" 4"` creates the review, then fails on
saving the product (the average computed from the string is NaN) and leaves
count 0; dismissing that review then stores count -1. -/
theorem count_negative_after_failed_save :
    (addReview refRuntime shop0 7 1 (.str " 4") (.str "ok")).2
        = .error ⟨500, "Something went wrong while adding the review"⟩
      ∧ (addReview refRuntime shop0 7 1 (.str " 4") (.str "ok")).1
        = { shop0 with reviews := [newReviewDoc 0 7 1 (JsNum.fin 4) "ok" 0], nextReviewId := 1 }
      ∧ (dismissFlaggedReview (addReview refRuntime shop0 7 1 (.str " 4") (.str "ok")).1 0).2
        = .ok ⟨200, .empty, "Review dismissed successfully!"⟩
      ∧ (findProduct
          (dismissFlaggedReview (addReview refRuntime shop0 7 1 (.str " 4") (.str "ok")).1 0).1
          1).map (fun p => p.ratings) = some ⟨.fin 4, .fin (-1)⟩ := by
  refine ⟨?_, ?_, ?_, ?_⟩ <;> with_unfolding_all rfl

/-- C6: after a product is dismissed no stored review refers to it (the
reviews of the other products are kept); when the product was stored it is no
longer stored and the response is the 200 success. -/
theorem dismissFlaggedProduct_cascades (s : Store) (productId : Nat) :
    (∀ r ∈ (dismissFlaggedProduct s productId).1.reviews, r.product ≠ productId)
      ∧ (dismissFlaggedProduct s productId).1.reviews
          = s.reviews.filter (fun r => r.product != productId)
      ∧ (∀ product, findProduct s productId = some product →
          findProduct (dismissFlaggedProduct s productId).1 productId = none
            ∧ (∀ q ∈ (dismissFlaggedProduct s productId).1.products, q._id ≠ productId)
            ∧ (dismissFlaggedProduct s productId).2
                = .ok ⟨200, .empty, "Flagged product and its reviews deleted successfully!"⟩) := by
  have hfind : findProduct (deleteReviewsOf s productId) productId = findProduct s productId := rfl
  refine ⟨?_, ?_, ?_⟩
  · intro r hr
    have hr2 : r ∈ s.reviews.filter (fun r => r.product != productId) := by
      simp only [dismissFlaggedProduct, hfind] at hr
      cases hp : findProduct s productId with
      | none => rw [hp] at hr; exact hr
      | some product => rw [hp] at hr; exact hr
    simpa using (List.mem_filter.mp hr2).2
  · simp only [dismissFlaggedProduct, hfind]
    cases hp : findProduct s productId with
    | none => rfl
    | some product => rfl
  · intro product hp
    have hout : dismissFlaggedProduct s productId
        = (deleteProduct (deleteReviewsOf s productId) productId,
            .ok ⟨200, .empty, "Flagged product and its reviews deleted successfully!"⟩) := by
      simp only [dismissFlaggedProduct, hfind, hp]
      rfl
    rw [hout]
    refine ⟨?_, ?_, rfl⟩
    · simp [findProduct, deleteProduct, deleteReviewsOf, List.find?_eq_none]
    · intro q hq
      simp [deleteProduct, deleteReviewsOf] at hq
      exact hq.2

/-- The example of C6: dismissing the lamp of `shop2` leaves no product and no
review. -/
theorem dismissFlaggedProduct_cascades_witness :
    dismissFlaggedProduct shop2 1
      = ({ products := [], reviews := [], nextReviewId := 2, now := 0 },
          .ok ⟨200, .empty, "Flagged product and its reviews deleted successfully!"⟩) := by
  have h := (dismissFlaggedProduct_cascades shop2 1).2.2
    { lamp with ratings := ⟨JsNum.fin 3, JsNum.fin 2⟩, reviews := [0, 1] } (by decide)
  have hs : (dismissFlaggedProduct shop2 1).1 = { products := [], reviews := [], nextReviewId := 2, now := 0 } := by
    decide
  exact Prod.ext hs h.2.2



/-! ## Failures surfaced to the caller -/

/-- A second submission by a user who already reviewed the product leaves the
store as it was, and what the caller receives is the 500 failure of the
closing `catch` clause. -/
theorem addReview_duplicate (rt : JsRuntime) (s : Store) (userId productId : Nat)
    (rating comment : JsVal) (first : Review)
    (h : findReviewBy s productId userId = some first) :
    addReview rt s userId productId rating comment
      = (s, .error ⟨500, "Something went wrong while adding the review"⟩) := by
  unfold addReview
  cases findProduct s productId with
  | none => rfl
  | some product => simp only [h]; rfl

/-- C7 (failing run): user 7 has reviewed the lamp in `shop1` and submits a
second review.  The store is left as it was, but the failure handed to the
caller is the generic 500 one, not the conflict raised inside the handler
(status 400, "You have already reviewed this product"). -/
theorem addReview_duplicate_surfaces_500 :
    addReview refRuntime shop1 7 1 (.num (.fin 5)) (.str "again")
      = (shop1, .error ⟨500, "Something went wrong while adding the review"⟩) :=
  addReview_duplicate refRuntime shop1 7 1 (.num (.fin 5)) (.str "again")
    (newReviewDoc 0 7 1 (JsNum.fin 4) "ok" 0) (by decide)

/-- Updating by `f` and then by `g`, where `g` overwrites what `f` wrote, is
updating by `g`. -/
theorem map_ite_absorb {α : Type} (key : α → Nat) (f g : α → α) (hf : ∀ a, key (f a) = key a)
    (hgf : ∀ a, g (f a) = g a) (id : Nat) (l : List α) :
    (l.map (fun a => if key a = id then f a else a)).map (fun a => if key a = id then g a else a)
      = l.map (fun a => if key a = id then g a else a) := by
  rw [List.map_map]
  apply List.map_congr_left
  intro a _
  by_cases h : key a = id
  · simp [h, hf, hgf]
  · simp [h]

/-- The review found under `id` after `updateReview s id f`. -/
theorem findReview_updateReview (s : Store) (id : Nat) (f : Review → Review)
    (hf : ∀ r, (f r)._id = r._id) :
    findReview (updateReview s id f) id = (findReview s id).map f := by
  simpa [findReview, updateReview] using find_map_ite (fun r : Review => r._id) f hf id s.reviews

/-- C8 (as amended): approving a stored review (resp. product) answers the 200
success with the updated document, sets `approvedByModerator` and writes the
instant of the call to `updatedAt` on the documents with that identity, and
leaves every other field, every other document and the other collection as
stored; approving again at the instant `t` gives what one approval at `t`
gives; and when the documents with that identity are already approved, the
approval changes their `updatedAt` and nothing else. -/
theorem approve_sets_flag_and_updatedAt (s : Store) (id : Nat) :
    (∀ review, findReview s id = some review →
      (approveFlaggedReview s id).2
          = .ok ⟨200, .updatedReview { review with approvedByModerator := true, updatedAt := s.now },
              "Review approved successfully!"⟩
        ∧ (approveFlaggedReview s id).1
          = { s with reviews := s.reviews.map (fun r =>
                if r._id = id then { r with approvedByModerator := true, updatedAt := s.now }
                else r) }
        ∧ (∀ t, approveFlaggedReview ((approveFlaggedReview s id).1.atTime t) id
            = approveFlaggedReview (s.atTime t) id)
        ∧ ((∀ r ∈ s.reviews, r._id = id → r.approvedByModerator = true) →
            (approveFlaggedReview s id).1
              = { s with reviews := s.reviews.map (fun r =>
                    if r._id = id then { r with updatedAt := s.now } else r) }))
    ∧ (∀ product, findProduct s id = some product →
      (approveFlaggedProduct s id).2
          = .ok ⟨200,
              .updatedProduct { product with approvedByModerator := true, updatedAt := s.now },
              "Flagged product approved successfully!"⟩
        ∧ (approveFlaggedProduct s id).1
          = { s with products := s.products.map (fun p =>
                if p._id = id then { p with approvedByModerator := true, updatedAt := s.now }
                else p) }
        ∧ (∀ t, approveFlaggedProduct ((approveFlaggedProduct s id).1.atTime t) id
            = approveFlaggedProduct (s.atTime t) id)
        ∧ ((∀ p ∈ s.products, p._id = id → p.approvedByModerator = true) →
            (approveFlaggedProduct s id).1
              = { s with products := s.products.map (fun p =>
                    if p._id = id then { p with updatedAt := s.now } else p) })) := by
  constructor
  · intro review hrev
    have hfind : findReview (updateReview s id
        (fun r => { r with approvedByModerator := true, updatedAt := s.now })) id
        = some { review with approvedByModerator := true, updatedAt := s.now } := by
      rw [findReview_updateReview s id
        (fun r => { r with approvedByModerator := true, updatedAt := s.now }) (fun r => rfl), hrev]
      rfl
    have hout : approveFlaggedReview s id
        = (updateReview s id (fun r => { r with approvedByModerator := true, updatedAt := s.now }),
            .ok ⟨200, .updatedReview { review with approvedByModerator := true, updatedAt := s.now },
              "Review approved successfully!"⟩) := by
      simp only [approveFlaggedReview, hfind]; rfl
    refine ⟨by rw [hout], by rw [hout]; rfl, ?_, ?_⟩
    · intro t
      rw [hout]
      have key := map_ite_absorb (fun r : Review => r._id)
        (fun r => { r with approvedByModerator := true, updatedAt := s.now })
        (fun r => { r with approvedByModerator := true, updatedAt := t })
        (fun r => rfl) (fun r => rfl) id s.reviews
      beta_reduce at key
      simp only [approveFlaggedReview, updateReview, Store.atTime, key]
    · intro hall
      rw [hout]
      simp only [updateReview]
      congr 1
      apply List.map_congr_left
      intro a ha
      by_cases hk : a._id = id
      · have := hall a ha hk
        cases a
        simp only at this
        simp [hk, this]
      · simp [hk]
  · intro product hp
    have hfind : findProduct (updateProduct s id
        (fun p => { p with approvedByModerator := true, updatedAt := s.now })) id
        = some { product with approvedByModerator := true, updatedAt := s.now } := by
      rw [findProduct_updateProduct s id
        (fun p => { p with approvedByModerator := true, updatedAt := s.now }) (fun r => rfl), hp]
      rfl
    have hout : approveFlaggedProduct s id
        = (updateProduct s id (fun p => { p with approvedByModerator := true, updatedAt := s.now }),
            .ok ⟨200,
              .updatedProduct { product with approvedByModerator := true, updatedAt := s.now },
              "Flagged product approved successfully!"⟩) := by
      simp only [approveFlaggedProduct, hfind]; rfl
    refine ⟨by rw [hout], by rw [hout]; rfl, ?_, ?_⟩
    · intro t
      rw [hout]
      have key := map_ite_absorb (fun p : Product => p._id)
        (fun p => { p with approvedByModerator := true, updatedAt := s.now })
        (fun p => { p with approvedByModerator := true, updatedAt := t })
        (fun r => rfl) (fun r => rfl) id s.products
      beta_reduce at key
      simp only [approveFlaggedProduct, updateProduct, Store.atTime, key]
    · intro hall
      rw [hout]
      simp only [updateProduct]
      congr 1
      apply List.map_congr_left
      intro a ha
      by_cases hk : a._id = id
      · have := hall a ha hk
        cases a
        simp only at this
        simp [hk, this]
      · simp [hk]

/-- The example of C8: at the instant 5 the first review of `shop2` and the
lamp are approved, and approved again at the instant 9. -/
theorem approve_sets_flag_and_updatedAt_witness :
    (approveFlaggedReview (shop2.atTime 5) 0).1.reviews
        = [{ newReviewDoc 0 7 1 (JsNum.fin 4) "ok" 0 with
              approvedByModerator := true, updatedAt := 5 },
            newReviewDoc 1 8 1 (JsNum.fin 2) "fine" 0]
      ∧ approveFlaggedReview ((approveFlaggedReview (shop2.atTime 5) 0).1.atTime 9) 0
        = approveFlaggedReview ((shop2.atTime 5).atTime 9) 0
      ∧ approveFlaggedProduct ((approveFlaggedProduct (shop2.atTime 5) 1).1.atTime 9) 1
        = approveFlaggedProduct ((shop2.atTime 5).atTime 9) 1 := by
  obtain ⟨-, h2, h3, -⟩ := (approve_sets_flag_and_updatedAt (shop2.atTime 5) 0).1
    (newReviewDoc 0 7 1 (JsNum.fin 4) "ok" 0) (by decide)
  obtain ⟨-, -, h5, -⟩ := (approve_sets_flag_and_updatedAt (shop2.atTime 5) 1).2
    { lamp with ratings := ⟨JsNum.fin 3, JsNum.fin 2⟩, reviews := [0, 1] } (by decide)
  refine ⟨?_, h3 9, h5 9⟩
  rw [h2]
  decide

/-- C8 (counterexample): the first review of `shop2` and the lamp were last
written at the instant 0.  Approved at the instant 5 they carry `updatedAt`
5, a field other than `approvedByModerator`; approved again at the instant 9,
already approved, they are changed once more. -/
theorem approve_rewrites_updatedAt :
    (findReview shop2 0).map (fun r => r.updatedAt) = some 0
      ∧ (findReview (approveFlaggedReview (shop2.atTime 5) 0).1 0).map (fun r => r.updatedAt)
        = some 5
      ∧ (approveFlaggedReview ((approveFlaggedReview (shop2.atTime 5) 0).1.atTime 9) 0).1.reviews
        ≠ (approveFlaggedReview (shop2.atTime 5) 0).1.reviews
      ∧ (findProduct shop2 1).map (fun p => p.updatedAt) = some 0
      ∧ (findProduct (approveFlaggedProduct (shop2.atTime 5) 1).1 1).map (fun p => p.updatedAt)
        = some 5
      ∧ (approveFlaggedProduct ((approveFlaggedProduct (shop2.atTime 5) 1).1.atTime 9) 1).1.products
        ≠ (approveFlaggedProduct (shop2.atTime 5) 1).1.products := by
  refine ⟨?_, ?_, ?_, ?_, ?_, ?_⟩ <;> decide

/-- C9 (failing run): on the store `shop0`, which holds no review and no
product with identity 99, each moderation handler hands the caller the 500
failure of its closing `catch` clause; the 404 raised inside is replaced. -/
theorem unknown_identity_surfaces_500 :
    (approveFlaggedReview shop0 99).2
        = .error ⟨500, "Something went wrong while approving the review!"⟩
      ∧ (approveFlaggedProduct shop0 99).2
        = .error ⟨500, "Something went wrong while approving the product!"⟩
      ∧ (dismissFlaggedReview shop0 99).2
        = .error ⟨500, "Something went wrong while dismissing the review!"⟩
      ∧ (dismissFlaggedProduct shop0 99).2
        = .error ⟨500, "Something went wrong while dismissing the product!"⟩ := by
  refine ⟨?_, ?_, ?_, ?_⟩ <;> rfl

/-- C10 (failing run): the only review of `orphanShop` belongs to product 2,
which is not stored.  Dismissing it deletes the review, and the caller receives
the generic 500 failure; the "Associated product not found" raised inside is
replaced. -/
theorem orphan_dismissal_surfaces_500 :
    findProduct orphanShop 2 = none
      ∧ dismissFlaggedReview orphanShop 0
        = ({ orphanShop with reviews := [] },
            .error ⟨500, "Something went wrong while dismissing the review!"⟩) := by
  refine ⟨?_, ?_⟩ <;> with_unfolding_all rfl


/-! ## Reference integrity in reachable states -/

/-- A product found by identity is stored and carries that identity. -/
theorem findProduct_some (s : Store) (id : Nat) (p : Product) (h : findProduct s id = some p) :
    p ∈ s.products ∧ p._id = id := by
  unfold findProduct at h
  exact ⟨List.mem_of_find?_eq_some h, by simpa using List.find?_some h⟩

/-- When no product is found under an identity, no stored product carries it. -/
theorem findProduct_none (s : Store) (id : Nat) (h : findProduct s id = none) :
    ∀ p ∈ s.products, p._id ≠ id := by
  unfold findProduct at h
  intro p hp
  simpa using List.find?_eq_none.mp h p hp

/-- Deleting reviews keeps the store well formed. -/
theorem wf_filter (s : Store) (keep : Review → Bool) (h : s.WF) :
    Store.WF { s with reviews := s.reviews.filter keep } := by
  obtain ⟨hnd, hlt⟩ := h
  exact ⟨List.Nodup.sublist (List.Sublist.map _ (List.filter_sublist _)) hnd,
    fun r hr => hlt r (List.mem_of_mem_filter hr)⟩

/-- A review submission keeps the review lists free of dangling identities. -/
theorem refsOk_addReview (rt : JsRuntime) (s : Store) (userId productId : Nat)
    (rating comment : JsVal) (h : RefsOk s) :
    RefsOk (addReview rt s userId productId rating comment).1 := by
  rcases addReview_store_cases rt s userId productId rating comment with
    h0 | ⟨product, n, cm, hp, -, -, hcase⟩
  · rw [h0]; exact h
  · obtain ⟨hpmem, hpid⟩ := findProduct_some s productId product hp
    have h1 : RefsOk { s with
        reviews := s.reviews ++ [newReviewDoc s.nextReviewId userId productId n cm s.now],
        nextReviewId := s.nextReviewId + 1 } := by
      intro p hpm i hi
      obtain ⟨r, hr, hri, hrp⟩ := h p hpm i hi
      exact ⟨r, List.mem_append_left _ hr, hri, hrp⟩
    rcases hcase with ⟨-, hout⟩ | ⟨-, hout⟩
    · rw [hout]; exact h1
    · rw [hout]
      intro p' hp' i hi
      simp only [updateProduct, List.mem_map] at hp'
      obtain ⟨p, hpm, rfl⟩ := hp'
      by_cases hk : p._id = productId
      · rw [if_pos hk] at hi ⊢
        rcases List.mem_append.mp hi with hi1 | hi1
        · obtain ⟨r, hr, hri, hrp⟩ := h product hpmem i hi1
          exact ⟨r, List.mem_append_left _ hr, hri, by rw [hrp, hpid]; exact hk.symm⟩
        · rw [List.mem_singleton] at hi1
          exact ⟨newReviewDoc s.nextReviewId userId productId n cm s.now,
            List.mem_append_right _ (List.mem_singleton.mpr rfl), hi1.symm, hk.symm⟩
      · rw [if_neg hk] at hi ⊢
        exact h1 p hpm i hi

/-- After a review is deleted, review lists that only lost identities, and lost
the deleted one in the lists of its product, have no dangling identity. -/
theorem refsOk_after_delete (s : Store) (rv : Review) (hwf : s.WF) (hmem : rv ∈ s.reviews)
    (h : RefsOk s) (products' : List Product) (next now : Nat)
    (H : ∀ p' ∈ products', ∃ p0 ∈ s.products, p0._id = p'._id ∧
      ∀ i ∈ p'.reviews, i ∈ p0.reviews ∧ (p'._id = rv.product → i ≠ rv._id)) :
    RefsOk { products := products', reviews := s.reviews.filter (fun r => r._id != rv._id),
             nextReviewId := next, now := now } := by
  intro p' hp' i hi
  obtain ⟨p0, hp0, hid, hsub⟩ := H p' hp'
  obtain ⟨hi0, hne⟩ := hsub i hi
  obtain ⟨r, hr, hri, hrp⟩ := h p0 hp0 i hi0
  have hineq : r._id ≠ rv._id := by
    intro e
    have hrrv : r = rv := id_unique s.reviews hwf.1 r rv hr hmem e
    have hq : p'._id = rv.product := by rw [← hid, ← hrp, hrrv]
    exact hne hq (hri.symm.trans e)
  refine ⟨r, ?_, hri, hrp.trans hid⟩
  exact List.mem_filter.mpr ⟨hr, by simpa using hineq⟩

/-- The dismissal of a review keeps the review lists free of dangling
identities. -/
theorem refsOk_dismissFlaggedReview (s : Store) (reviewId : Nat) (hwf : s.WF) (h : RefsOk s) :
    RefsOk (dismissFlaggedReview s reviewId).1 := by
  rcases dismissFlaggedReview_store_cases s reviewId with h0 | ⟨rv, hrv, hcase⟩
  · rw [h0]; exact h
  · obtain ⟨hmem, hid⟩ := findReview_some s reviewId rv hrv
    subst hid
    have hpull : RefsOk (updateProduct (deleteReview s rv._id) rv.product
        (fun p => { p with reviews := p.reviews.filter (fun i => i != rv._id), updatedAt := s.now })) := by
      apply refsOk_after_delete s rv hwf hmem h
      intro p' hp'
      simp only [deleteReview, List.mem_map] at hp'
      obtain ⟨p, hpm, rfl⟩ := hp'
      by_cases hk : p._id = rv.product
      · rw [if_pos hk]
        refine ⟨p, hpm, rfl, ?_⟩
        intro i hi
        have := List.mem_filter.mp hi
        exact ⟨this.1, fun _ => by simpa using this.2⟩
      · rw [if_neg hk]
        exact ⟨p, hpm, rfl, fun i hi => ⟨hi, fun e => absurd e hk⟩⟩
    rcases hcase with ⟨-, hout⟩ | ⟨product, hp, ⟨-, hout⟩ | ⟨-, hout⟩⟩
    · rw [hout]; exact hpull
    · rw [hout]; exact hpull
    · rw [hout]
      obtain ⟨hpmem, hpid⟩ := findProduct_some s rv.product product hp
      apply refsOk_after_delete s rv hwf hmem h
      intro p' hp'
      simp only [updateProduct, deleteReview, List.mem_map] at hp'
      obtain ⟨p1, ⟨p, hpm, rfl⟩, rfl⟩ := hp'
      by_cases hk : p._id = rv.product
      · rw [if_pos hk, if_pos (show _ = rv.product from hk)]
        refine ⟨product, hpmem, hpid.trans hk.symm, ?_⟩
        intro i hi
        have := List.mem_filter.mp hi
        exact ⟨this.1, fun _ => by simpa using this.2⟩
      · rw [if_neg hk, if_neg hk]
        exact ⟨p, hpm, rfl, fun i hi => ⟨hi, fun e => absurd e hk⟩⟩

/-- The store left by `dismissFlaggedProduct`. -/
theorem dismissFlaggedProduct_store (s : Store) (productId : Nat) :
    (dismissFlaggedProduct s productId).1.reviews
        = s.reviews.filter (fun r => r.product != productId)
      ∧ (dismissFlaggedProduct s productId).1.nextReviewId = s.nextReviewId
      ∧ (dismissFlaggedProduct s productId).1.products
        = s.products.filter (fun p => p._id != productId) := by
  have hfind : findProduct (deleteReviewsOf s productId) productId = findProduct s productId := rfl
  simp only [dismissFlaggedProduct, hfind]
  cases hp : findProduct s productId with
  | none =>
    refine ⟨rfl, rfl, ?_⟩
    show s.products = _
    symm
    apply List.filter_eq_self.mpr
    intro p hpm
    simpa using findProduct_none s productId hp p hpm
  | some product => exact ⟨rfl, rfl, rfl⟩

/-- The dismissal of a product keeps the review lists free of dangling
identities. -/
theorem refsOk_dismissFlaggedProduct (s : Store) (productId : Nat) (h : RefsOk s) :
    RefsOk (dismissFlaggedProduct s productId).1 := by
  obtain ⟨hr, -, hp⟩ := dismissFlaggedProduct_store s productId
  intro p hpm i hi
  rw [hp] at hpm
  obtain ⟨hpm1, hpne⟩ := List.mem_filter.mp hpm
  obtain ⟨r, hrm, hri, hrp⟩ := h p hpm1 i hi
  refine ⟨r, ?_, hri, hrp⟩
  rw [hr]
  exact List.mem_filter.mpr ⟨hrm, by rw [hrp]; exact hpne⟩

/-- The handler `addReview` keeps the store well formed. -/
theorem wf_addReview (rt : JsRuntime) (s : Store) (userId productId : Nat)
    (rating comment : JsVal) (h : s.WF) :
    (addReview rt s userId productId rating comment).1.WF := by
  rcases addReview_store_cases rt s userId productId rating comment with
    h0 | ⟨product, n, cm, -, -, -, ⟨-, hout⟩ | ⟨-, hout⟩⟩
  · rw [h0]; exact h
  · rw [hout]; exact wf_create s _ rfl h
  · rw [hout]; exact wf_create s (newReviewDoc s.nextReviewId userId productId n cm s.now) rfl h

/-- The handler `dismissFlaggedReview` keeps the store well formed. -/
theorem wf_dismissFlaggedReview (s : Store) (reviewId : Nat) (h : s.WF) :
    (dismissFlaggedReview s reviewId).1.WF := by
  rcases dismissFlaggedReview_store_cases s reviewId with
    h0 | ⟨rv, -, ⟨-, hout⟩ | ⟨product, -, ⟨-, hout⟩ | ⟨-, hout⟩⟩⟩
  · rw [h0]; exact h
  · rw [hout]; exact wf_deleteReview s reviewId h
  · rw [hout]; exact wf_deleteReview s reviewId h
  · rw [hout]; exact wf_deleteReview s reviewId h

/-- The handler `dismissFlaggedProduct` keeps the store well formed. -/
theorem wf_dismissFlaggedProduct (s : Store) (productId : Nat) (h : s.WF) :
    (dismissFlaggedProduct s productId).1.WF := by
  obtain ⟨hr, hn, -⟩ := dismissFlaggedProduct_store s productId
  have := wf_filter s (fun r => r.product != productId) h
  unfold Store.WF at this ⊢
  rw [hr, hn]
  exact this

/-- The store left by `approveFlaggedReview`. -/
theorem approveFlaggedReview_store (s : Store) (id : Nat) :
    (approveFlaggedReview s id).1
      = updateReview s id (fun r => { r with approvedByModerator := true, updatedAt := s.now }) := by
  unfold approveFlaggedReview
  simp only
  split <;> rfl

/-- The store left by `approveFlaggedProduct`. -/
theorem approveFlaggedProduct_store (s : Store) (id : Nat) :
    (approveFlaggedProduct s id).1
      = updateProduct s id (fun p => { p with approvedByModerator := true, updatedAt := s.now }) := by
  unfold approveFlaggedProduct
  simp only
  split <;> rfl

/-- What a projection reads from the reviews is left as it was by an update
that does not change what it reads. -/
theorem map_updateReview {β : Type} (s : Store) (id : Nat) (f : Review → Review)
    (g : Review → β) (hg : ∀ r, g (f r) = g r) :
    (updateReview s id f).reviews.map g = s.reviews.map g := by
  simp only [updateReview, List.map_map]
  apply List.map_congr_left
  intro r _
  by_cases h : r._id = id
  · simp [h, hg]
  · simp [h]

/-- A review of the updated store is the update of a stored review, or a
stored review. -/
theorem mem_updateReview (s : Store) (id : Nat) (f : Review → Review) (r : Review)
    (h : r ∈ (updateReview s id f).reviews) :
    ∃ r0 ∈ s.reviews, r = f r0 ∨ r = r0 := by
  simp only [updateReview, List.mem_map] at h
  obtain ⟨r0, h0, rfl⟩ := h
  refine ⟨r0, h0, ?_⟩
  by_cases hk : r0._id = id
  · left; simp [hk]
  · right; simp [hk]

/-- An update of the reviews that keeps their identities keeps the store well
formed. -/
theorem wf_updateReview (s : Store) (id : Nat) (f : Review → Review)
    (hf : ∀ r, (f r)._id = r._id) (h : s.WF) : (updateReview s id f).WF := by
  refine ⟨?_, ?_⟩
  · rw [map_updateReview s id f (fun r => r._id) hf]; exact h.1
  · intro r hr
    obtain ⟨r0, h0, rfl | rfl⟩ := mem_updateReview s id f r hr
    · rw [hf]; exact h.2 r0 h0
    · exact h.2 r h0

/-- Serving a request keeps the store well formed. -/
theorem wf_serve (rt : JsRuntime) (s : Store) (req : Request) (h : s.WF) : (serve rt s req).WF := by
  cases req with
  | addReview u p r c => exact wf_addReview rt s u p r c h
  | dismissReview i => exact wf_dismissFlaggedReview s i h
  | dismissProduct p => exact wf_dismissFlaggedProduct s p h
  | approveReview i =>
    show (approveFlaggedReview s i).1.WF
    rw [approveFlaggedReview_store]
    exact wf_updateReview s i
      (fun r => { r with approvedByModerator := true, updatedAt := s.now }) (fun r => rfl) h
  | approveProduct p =>
    show (approveFlaggedProduct s p).1.WF
    rw [approveFlaggedProduct_store]
    exact h
  | clock t => exact h

/-- An approval of a review keeps the review lists free of dangling
identities. -/
theorem refsOk_approveFlaggedReview (s : Store) (id : Nat) (h : RefsOk s) :
    RefsOk (approveFlaggedReview s id).1 := by
  rw [approveFlaggedReview_store]
  intro p hp i hi
  obtain ⟨r, hr, hri, hrp⟩ := h p hp i hi
  refine ⟨if r._id = id then { r with approvedByModerator := true, updatedAt := s.now } else r,
    ?_, ?_, ?_⟩
  · simp only [updateReview, List.mem_map]
    exact ⟨r, hr, rfl⟩
  · split <;> exact hri
  · split <;> exact hrp

/-- An approval of a product keeps the review lists free of dangling
identities. -/
theorem refsOk_approveFlaggedProduct (s : Store) (id : Nat) (h : RefsOk s) :
    RefsOk (approveFlaggedProduct s id).1 := by
  rw [approveFlaggedProduct_store]
  intro p hp i hi
  simp only [updateProduct, List.mem_map] at hp
  obtain ⟨p0, hp0, rfl⟩ := hp
  by_cases hk : p0._id = id
  · rw [if_pos hk] at hi ⊢
    exact h p0 hp0 i hi
  · rw [if_neg hk] at hi ⊢
    exact h p0 hp0 i hi

/-- Serving requests keeps the review lists free of dangling identities. -/
theorem refsOk_serveAll (rt : JsRuntime) (reqs : List Request) :
    ∀ s : Store, s.WF → RefsOk s → RefsOk (serveAll rt s reqs) := by
  induction reqs with
  | nil => intro s _ h; exact h
  | cons req rest ih =>
    intro s hwf h
    show RefsOk (serveAll rt (serve rt s req) rest)
    apply ih _ (wf_serve rt s req hwf)
    cases req with
    | addReview u p r c => exact refsOk_addReview rt s u p r c h
    | dismissReview i => exact refsOk_dismissFlaggedReview s i hwf h
    | dismissProduct p => exact refsOk_dismissFlaggedProduct s p h
    | approveReview i => exact refsOk_approveFlaggedReview s i h
    | approveProduct p => exact refsOk_approveFlaggedProduct s p h
    | clock t => exact h

/-- From a store without reviews in which every product has an empty review
list, whatever sequence of requests is served (review submissions with any
rating value, dismissals, approvals, at any instants), every identity in a product's
review list is the identity of a stored review of that product. -/
theorem review_lists_never_dangle (rt : JsRuntime) (s : Store) (reqs : List Request)
    (h0 : s.reviews = []) (h1 : ∀ p ∈ s.products, p.reviews = []) :
    ∀ p ∈ (serveAll rt s reqs).products, ∀ i ∈ p.reviews,
      ∃ r ∈ (serveAll rt s reqs).reviews, r._id = i ∧ r.product = p._id := by
  apply refsOk_serveAll rt reqs s
  · exact ⟨by rw [h0]; exact List.nodup_nil, by rw [h0]; intro r hr; cases hr⟩
  · intro p hp i hi
    rw [h1 p hp] at hi
    cases hi

/-- Reference integrity on `shop0` after a run containing the string rating
that makes the product save fail. -/
theorem review_lists_never_dangle_witness :
    ∀ p ∈ (serveAll refRuntime shop0
        [.addReview 7 1 (.str " 4") (.str "ok"), .addReview 8 1 (.num (.fin 2)) (.str "fine"),
          .dismissReview 0]).products,
      ∀ i ∈ p.reviews,
        ∃ r ∈ (serveAll refRuntime shop0
          [.addReview 7 1 (.str " 4") (.str "ok"), .addReview 8 1 (.num (.fin 2)) (.str "fine"),
            .dismissReview 0]).reviews, r._id = i ∧ r.product = p._id :=
  review_lists_never_dangle refRuntime shop0 _ rfl (by decide)



/-! ## The ledger of every product in reachable states -/

/-- An update does not change which identities are stored. -/
theorem isSome_findProduct_updateProduct (s : Store) (id p : Nat) (f : Product → Product)
    (hf : ∀ x, (f x)._id = x._id) :
    (findProduct (updateProduct s id f) p).isSome = (findProduct s p).isSome := by
  by_cases h : p = id
  · subst h
    rw [findProduct_updateProduct s p f hf]
    cases findProduct s p <;> rfl
  · rw [findProduct_updateProduct_ne s id p f h hf]

/-- The handler `addReview` does not change which products are stored. -/
theorem isSome_findProduct_addReview (rt : JsRuntime) (s : Store) (userId productId p : Nat)
    (rating comment : JsVal) :
    (findProduct (addReview rt s userId productId rating comment).1 p).isSome
      = (findProduct s p).isSome := by
  rcases addReview_store_cases rt s userId productId rating comment with
    h0 | ⟨product, n, cm, -, -, -, ⟨-, hout⟩ | ⟨-, hout⟩⟩
  · rw [h0]
  · rw [hout]; rfl
  · rw [hout, isSome_findProduct_updateProduct]
    · rfl
    · intro x; rfl

/-- The handler `dismissFlaggedReview` does not change which products are
stored. -/
theorem isSome_findProduct_dismissFlaggedReview (s : Store) (reviewId p : Nat) :
    (findProduct (dismissFlaggedReview s reviewId).1 p).isSome = (findProduct s p).isSome := by
  rcases dismissFlaggedReview_store_cases s reviewId with
    h0 | ⟨rv, -, ⟨-, hout⟩ | ⟨product, -, ⟨-, hout⟩ | ⟨-, hout⟩⟩⟩
  · rw [h0]
  · rw [hout, isSome_findProduct_updateProduct]
    · rfl
    · intro x; rfl
  · rw [hout, isSome_findProduct_updateProduct]
    · rfl
    · intro x; rfl
  · rw [hout, isSome_findProduct_updateProduct, isSome_findProduct_updateProduct]
    · rfl
    · intro x; rfl
    · intro x; rfl

/-- The dismissal of a product leaves the other products as they were. -/
theorem findProduct_dismissFlaggedProduct_ne (s : Store) (productId p : Nat) (h : p ≠ productId) :
    findProduct (dismissFlaggedProduct s productId).1 p = findProduct s p := by
  obtain ⟨-, -, hp⟩ := dismissFlaggedProduct_store s productId
  unfold findProduct
  rw [hp, List.find?_filter]
  congr 1
  funext a
  by_cases ha : a._id = p
  · have : a._id ≠ productId := by rw [ha]; exact h
    simp [ha, h]
  · simp [ha]

/-- After its dismissal a product is not found. -/
theorem findProduct_dismissFlaggedProduct_self (s : Store) (productId : Nat) :
    findProduct (dismissFlaggedProduct s productId).1 productId = none := by
  obtain ⟨-, -, hp⟩ := dismissFlaggedProduct_store s productId
  unfold findProduct
  rw [hp, List.find?_eq_none]
  intro a ha
  have := (List.mem_filter.mp ha).2
  simpa using this

/-- The dismissal of a product leaves the reviews of the other products. -/
theorem retained_dismissFlaggedProduct_ne (s : Store) (productId p : Nat) (h : p ≠ productId) :
    retained (dismissFlaggedProduct s productId).1 p = retained s p := by
  obtain ⟨hr, -, -⟩ := dismissFlaggedProduct_store s productId
  unfold retained
  rw [hr, List.filter_filter]
  apply List.filter_congr
  intro a _
  by_cases ha : a.product = p
  · simp [ha, h]
  · simp [ha]

/-- The reviews of a product after an update of the reviews that keeps their
products. -/
theorem retained_updateReview (s : Store) (id p : Nat) (f : Review → Review)
    (hp : ∀ r, (f r).product = r.product) :
    retained (updateReview s id f) p
      = (retained s p).map (fun r => if r._id = id then f r else r) := by
  simp only [retained, updateReview, List.filter_map]
  congr 1
  apply List.filter_congr
  intro r _
  by_cases h : r._id = id
  · simp [h, hp]
  · simp [h]

/-- An update of the reviews that keeps their identities, products and ratings
keeps the ledger invariant. -/
theorem ledgerInv_updateReview (s : Store) (id p : Nat) (f : Review → Review)
    (hid : ∀ r, (f r)._id = r._id) (hp : ∀ r, (f r).product = r.product)
    (hr : ∀ r, (f r).rating = r.rating) (h : LedgerInv s p) :
    LedgerInv (updateReview s id f) p := by
  obtain ⟨hwf, prod, hprod, hfin, hcnt, havg⟩ := h
  have hkeep : ∀ r : Review, (if r._id = id then f r else r).rating = r.rating := by
    intro r
    split
    · exact hr r
    · rfl
  have hsum : ratingSum ((retained s p).map (fun r => if r._id = id then f r else r))
      = ratingSum (retained s p) := by
    simp only [ratingSum, List.map_map]
    congr 1
    apply List.map_congr_left
    intro r _
    simp only [Function.comp_apply, hkeep]
  refine ledgerInv_intro _ p prod (wf_updateReview s id f hid hwf) hprod _
    (retained_updateReview s id p f hp) ?_ ?_ ?_
  · intro r hr
    obtain ⟨r0, h0, rfl⟩ := List.mem_map.mp hr
    rw [hkeep]
    exact hfin r0 h0
  · rw [List.length_map]; exact hcnt
  · rw [hsum, List.length_map, havg]
    simp only [List.map_eq_nil_iff]

/-- An update of the products that keeps their identities and aggregates keeps
the ledger invariant. -/
theorem ledgerInv_updateProduct (s : Store) (id p : Nat) (f : Product → Product)
    (hid : ∀ x, (f x)._id = x._id) (hr : ∀ x, (f x).ratings = x.ratings)
    (h : LedgerInv s p) : LedgerInv (updateProduct s id f) p := by
  obtain ⟨hwf, prod, hprod, hfin, hcnt, havg⟩ := h
  by_cases hk : p = id
  · subst hk
    refine ledgerInv_intro _ p (f prod) hwf ?_ (retained s p) rfl hfin ?_ ?_
    · rw [findProduct_updateProduct s p f hid, hprod]; rfl
    · rw [hr]; exact hcnt
    · rw [hr]; exact havg
  · refine ledgerInv_intro _ p prod hwf ?_ (retained s p) rfl hfin hcnt havg
    rw [findProduct_updateProduct_ne s id p f hk hid]; exact hprod

/-- A request without a string rating keeps the ledger invariant of every
stored product. -/
theorem allLedgers_serve (rt : JsRuntime) (s : Store) (req : Request)
    (hns : req.stringRating = false)
    (h : ∀ p, (findProduct s p).isSome = true → LedgerInv s p) :
    ∀ p, (findProduct (serve rt s req) p).isSome = true → LedgerInv (serve rt s req) p := by
  intro p hp
  cases req with
  | addReview u q r c =>
    have hp0 : (findProduct s p).isSome = true := by
      rw [← isSome_findProduct_addReview rt s u q p r c]; exact hp
    apply ledgerInv_addReview rt s p u q r c _ (h p hp0)
    intro t ht
    subst ht
    simp [Request.stringRating] at hns
  | dismissReview i =>
    have hp0 : (findProduct s p).isSome = true := by
      rw [← isSome_findProduct_dismissFlaggedReview s i p]; exact hp
    exact ledgerInv_dismissFlaggedReview s p i (h p hp0)
  | dismissProduct q =>
    have hne : p ≠ q := by
      intro e
      subst e
      have := findProduct_dismissFlaggedProduct_self s p
      simp only [serve] at hp
      rw [this] at hp
      cases hp
    have hfp : findProduct (dismissFlaggedProduct s q).1 p = findProduct s p :=
      findProduct_dismissFlaggedProduct_ne s q p hne
    have hp0 : (findProduct s p).isSome = true := by rw [← hfp]; exact hp
    obtain ⟨hwf, prod, hprod, hfin, hcnt, havg⟩ := h p hp0
    have hret := retained_dismissFlaggedProduct_ne s q p hne
    refine ledgerInv_intro _ p prod (wf_dismissFlaggedProduct s q hwf) (hfp.trans hprod)
      (retained s p) hret hfin hcnt havg
  | approveReview i =>
    have hs : serve rt s (.approveReview i) = updateReview s i
        (fun r => { r with approvedByModerator := true, updatedAt := s.now }) :=
      approveFlaggedReview_store s i
    rw [hs] at hp ⊢
    exact ledgerInv_updateReview s i p
      (fun r => { r with approvedByModerator := true, updatedAt := s.now })
      (fun r => rfl) (fun r => rfl) (fun r => rfl) (h p hp)
  | approveProduct q =>
    have hs : serve rt s (.approveProduct q) = updateProduct s q
        (fun x => { x with approvedByModerator := true, updatedAt := s.now }) :=
      approveFlaggedProduct_store s q
    rw [hs] at hp ⊢
    rw [isSome_findProduct_updateProduct s q p
      (fun x => { x with approvedByModerator := true, updatedAt := s.now }) (fun x => rfl)] at hp
    exact ledgerInv_updateProduct s q p
      (fun x => { x with approvedByModerator := true, updatedAt := s.now })
      (fun x => rfl) (fun x => rfl) (h p hp)
  | clock t => exact h p hp

/-- Requests without string ratings keep the ledger invariant of every stored
product. -/
theorem allLedgers_serveAll (rt : JsRuntime) (reqs : List Request) :
    ∀ s : Store, (∀ p, (findProduct s p).isSome = true → LedgerInv s p) →
      (∀ req ∈ reqs, req.stringRating = false) →
      ∀ p, (findProduct (serveAll rt s reqs) p).isSome = true → LedgerInv (serveAll rt s reqs) p := by
  induction reqs with
  | nil => intro s h _; exact h
  | cons req rest ih =>
    intro s h hns
    show ∀ p, (findProduct (serveAll rt (serve rt s req) rest) p).isSome = true → _
    exact ih _ (allLedgers_serve rt s req (hns req (List.mem_cons_self _ _)) h)
      (fun r hr => hns r (List.mem_cons_of_mem _ hr))

/-- From a store without reviews in which every product has the default
aggregate (5, 0), whatever sequence of requests is served (review submissions
with ratings that are not strings, dismissals, approvals, at any instants), every
product found in the store has as count the number of its stored reviews (so
a count that is not negative) and as average their exact mean, or 5 when it
has none. -/
theorem count_is_number_of_reviews (rt : JsRuntime) (s : Store) (reqs : List Request)
    (h0 : s.reviews = [])
    (h1 : ∀ p ∈ s.products, p.ratings = ⟨JsNum.fin 5, JsNum.fin 0⟩)
    (hns : ∀ req ∈ reqs, req.stringRating = false)
    (productId : Nat) (product : Product)
    (hp : findProduct (serveAll rt s reqs) productId = some product) :
    product.ratings.count = JsNum.fin (retained (serveAll rt s reqs) productId).length
      ∧ ∃ qs : List ℚ,
          (retained (serveAll rt s reqs) productId).map (fun r => r.rating) = qs.map JsNum.fin
            ∧ product.ratings.average
                = if qs = [] then JsNum.fin 5 else JsNum.fin (qs.sum / qs.length) := by
  have hinit : ∀ p, (findProduct s p).isSome = true → LedgerInv s p := by
    intro p hsome
    obtain ⟨prod, hprod⟩ := Option.isSome_iff_exists.mp hsome
    obtain ⟨hmem, -⟩ := findProduct_some s p prod hprod
    have hret : retained s p = [] := by simp [retained, h0]
    refine ledgerInv_intro s p prod ?_ hprod [] hret ?_ ?_ ?_
    · exact ⟨by rw [h0]; exact List.nodup_nil, by rw [h0]; intro r hr; cases hr⟩
    · intro r hr; cases hr
    · rw [h1 prod hmem]; simp
    · rw [h1 prod hmem]; simp
  have hsome : (findProduct (serveAll rt s reqs) productId).isSome = true := by rw [hp]; rfl
  obtain ⟨-, prod, hprod, hfin, hcnt, havg⟩ := allLedgers_serveAll rt reqs s hinit hns productId hsome
  have hpp : prod = product := Option.some.inj (hprod.symm.trans hp)
  subst hpp
  refine ⟨hcnt, (retained (serveAll rt s reqs) productId).map (fun r => r.rating.toRat), ?_, ?_⟩
  · rw [List.map_map]
    apply List.map_congr_left
    intro r hr
    obtain ⟨q, hq⟩ := hfin r hr
    simp [hq, JsNum.toRat]
  · rw [havg]
    simp only [List.map_eq_nil_iff, List.length_map, ratingSum]

/-- Two submissions on `shop0` and the dismissal of the first leave the lamp
with count 1. -/
theorem count_is_number_of_reviews_witness :
    (findProduct (serveAll refRuntime shop0
        [.addReview 7 1 (.num (.fin 4)) (.str "ok"), .addReview 8 1 (.num (.fin 2)) (.str "fine"),
          .dismissReview 0]) 1).map (fun p => p.ratings.count) = some (.fin 1) := by
  have hp : findProduct (serveAll refRuntime shop0
        [.addReview 7 1 (.num (.fin 4)) (.str "ok"), .addReview 8 1 (.num (.fin 2)) (.str "fine"),
          .dismissReview 0]) 1
      = some { lamp with ratings := ⟨.fin 2, .fin 1⟩, reviews := [1] } := by
    with_unfolding_all rfl
  obtain ⟨hc, -⟩ := count_is_number_of_reviews refRuntime shop0
    [.addReview 7 1 (.num (.fin 4)) (.str "ok"), .addReview 8 1 (.num (.fin 2)) (.str "fine"),
      .dismissReview 0] rfl (by decide) (by decide) 1 _ hp
  rw [hp]
  rfl

/-! ## One review per user and product -/

/-- Serving a request keeps the (user, product) pairs distinct. -/
theorem pairsUnique_serve (rt : JsRuntime) (s : Store) (req : Request) (h : PairsUnique s) :
    PairsUnique (serve rt s req) := by
  have hsub : ∀ keep : Review → Bool,
      (List.map (fun r : Review => (r.user, r.product)) (s.reviews.filter keep)).Nodup :=
    fun keep => List.Nodup.sublist (List.Sublist.map _ (List.filter_sublist _)) h
  cases req with
  | addReview u q r c =>
    rcases addReview_store_cases rt s u q r c with
      h0 | ⟨product, n, cm, -, hnone, -, hcase⟩
    · show PairsUnique (addReview rt s u q r c).1
      rw [h0]; exact h
    · have hnew : PairsUnique { s with
          reviews := s.reviews ++ [newReviewDoc s.nextReviewId u q n cm s.now],
          nextReviewId := s.nextReviewId + 1 } := by
        unfold PairsUnique
        simp only [List.map_append, List.map_cons, List.map_nil]
        rw [List.nodup_append]
        refine ⟨h, List.nodup_singleton _, ?_⟩
        intro a ha hb
        rw [List.mem_singleton] at hb
        obtain ⟨x, hx, rfl⟩ := List.mem_map.mp ha
        unfold findReviewBy at hnone
        have := List.find?_eq_none.mp hnone x hx
        simp only [newReviewDoc, Prod.mk.injEq] at hb
        simp [hb.1, hb.2] at this
      show PairsUnique (addReview rt s u q r c).1
      rcases hcase with ⟨-, hout⟩ | ⟨-, hout⟩
      · rw [hout]; exact hnew
      · rw [hout]; exact hnew
  | dismissReview i =>
    show PairsUnique (dismissFlaggedReview s i).1
    rcases dismissFlaggedReview_store_cases s i with
      h0 | ⟨rv, -, ⟨-, hout⟩ | ⟨product, -, ⟨-, hout⟩ | ⟨-, hout⟩⟩⟩
    · rw [h0]; exact h
    · rw [hout]; exact hsub _
    · rw [hout]; exact hsub _
    · rw [hout]; exact hsub _
  | dismissProduct q =>
    show PairsUnique (dismissFlaggedProduct s q).1
    unfold PairsUnique
    rw [(dismissFlaggedProduct_store s q).1]
    exact hsub _
  | approveReview i =>
    show PairsUnique (approveFlaggedReview s i).1
    unfold PairsUnique
    rw [approveFlaggedReview_store, map_updateReview s i
      (fun r => { r with approvedByModerator := true, updatedAt := s.now })
      (fun r => (r.user, r.product)) (fun r => rfl)]
    exact h
  | approveProduct q =>
    show PairsUnique (approveFlaggedProduct s q).1
    rw [approveFlaggedProduct_store]
    exact h
  | clock t => exact h

/-- Whatever sequence of review submissions, dismissals and approvals is
served, at any instants, from a store in which no two reviews share their
(user, product) pair, no two reviews of the resulting store share it. -/
theorem pairs_stay_unique (rt : JsRuntime) (reqs : List Request) (s : Store)
    (h : PairsUnique s) : PairsUnique (serveAll rt s reqs) := by
  induction reqs generalizing s with
  | nil => exact h
  | cons req rest ih => exact ih _ (pairsUnique_serve rt s req h)

/-- The pairs stay distinct on `shop1` when user 7 submits a second review of
the lamp. -/
theorem pairs_stay_unique_witness :
    PairsUnique (serveAll refRuntime shop1
      [.addReview 7 1 (.num (.fin 5)) (.str "again"), .addReview 8 1 (.num (.fin 2)) (.str "fine")]) :=
  pairs_stay_unique refRuntime _ shop1 (by unfold PairsUnique; decide)


/-! ## The status of every failure -/

/-- A failure that leaves `catchAll` carries the status 500. -/
theorem catchAll_error (msg : String) (x : Except Thrown ApiResponse) (e : ApiError)
    (h : catchAll msg x = .error e) : e.statusCode = 500 := by
  cases x with
  | ok r => simp [catchAll] at h
  | error t =>
    simp only [catchAll, Except.error.injEq] at h
    rw [← h]

/-- Whatever the store and the request, a failure handed to the caller by one
of the five handlers carries the status 500: the 400 and 404 raised inside the
`try` blocks never reach the caller. -/
theorem failures_always_500 (rt : JsRuntime) (s : Store) (userId productId reviewId : Nat)
    (rating comment : JsVal) (e : ApiError) :
    ((addReview rt s userId productId rating comment).2 = .error e → e.statusCode = 500)
      ∧ ((approveFlaggedReview s reviewId).2 = .error e → e.statusCode = 500)
      ∧ ((approveFlaggedProduct s productId).2 = .error e → e.statusCode = 500)
      ∧ ((dismissFlaggedReview s reviewId).2 = .error e → e.statusCode = 500)
      ∧ ((dismissFlaggedProduct s productId).2 = .error e → e.statusCode = 500) := by
  refine ⟨?_, ?_, ?_, ?_, ?_⟩
  · simp only [addReview]
    intro h
    repeat' split at h
    all_goals exact catchAll_error _ _ e (by simpa using h)
  · simp only [approveFlaggedReview]
    intro h
    repeat' split at h
    all_goals exact catchAll_error _ _ e (by simpa using h)
  · simp only [approveFlaggedProduct]
    intro h
    repeat' split at h
    all_goals exact catchAll_error _ _ e (by simpa using h)
  · simp only [dismissFlaggedReview]
    intro h
    repeat' split at h
    all_goals exact catchAll_error _ _ e (by simpa using h)
  · simp only [dismissFlaggedProduct]
    intro h
    repeat' split at h
    all_goals exact catchAll_error _ _ e (by simpa using h)

/-- The failure of approving the unknown review 99 of `shop0` carries the
status 500. -/
theorem failures_always_500_witness :
    ∃ e, (approveFlaggedReview shop0 99).2 = .error e ∧ e.statusCode = 500 :=
  ⟨⟨500, "Something went wrong while approving the review!"⟩, rfl,
    (failures_always_500 refRuntime shop0 7 1 99 (.num (.fin 4)) (.str "ok")
      ⟨500, "Something went wrong while approving the review!"⟩).2.1 rfl⟩

/-! ## The rating as submitted -/

/-- C19 (failing run): user 8 rates the lamp of `shop1` (average 4, count 1)
with the string `"2"`.  Validation stores the review with the number 2, the
response is the 201 success, and the average saved is `("4" + "2") / 2 = 21`,
not `(4 * 1 + 2) / 2 = 3`. -/
theorem string_rating_is_concatenated :
    validateRating refRuntime (.str "2") = some (.fin 2)
      ∧ (addReview refRuntime shop1 8 1 (.str "2") (.str "fine")).2
        = .ok ⟨201, .review (newReviewDoc 1 8 1 (JsNum.fin 2) "fine" 0), "Review added successfully!"⟩
      ∧ (findProduct (addReview refRuntime shop1 8 1 (.str "2") (.str "fine")).1 1).map
          (fun p => p.ratings) = some ⟨.fin 21, .fin 2⟩ := by
  refine ⟨?_, ?_, ?_⟩ <;> with_unfolding_all rfl

/-! ## The range of the ratings in reachable states -/

/-- A rating that validation accepts is a finite number of [1,5]. -/
theorem validateRating_range (rt : JsRuntime) (v : JsVal) (n : JsNum)
    (h : validateRating rt v = some n) : ∃ q : ℚ, n = JsNum.fin q ∧ 1 ≤ q ∧ q ≤ 5 := by
  unfold validateRating at h
  split at h
  · rename_i m _
    split at h
    · rename_i hr
      cases h
      cases n with
      | fin q =>
        simp only [JsNum.ge, JsNum.le, Bool.and_eq_true, decide_eq_true_eq] at hr
        exact ⟨q, rfl, hr.1, hr.2⟩
      | pinf => simp [JsNum.ge, JsNum.le] at hr
      | ninf => simp [JsNum.ge, JsNum.le] at hr
      | nan => simp [JsNum.ge, JsNum.le] at hr
    · cases h
  · cases h

/-- In range and out of range exclude each other. -/
theorem not_out_of_range (n : JsNum) (q : ℚ) (hn : n = JsNum.fin q) (h1 : 1 ≤ q) (h5 : q ≤ 5) :
    (n.ge (JsNum.fin 1) && n.le (JsNum.fin 5)) = true := by
  subst hn
  simp [JsNum.ge, JsNum.le, h1, h5]

/-- Serving a request keeps the stored ratings in [1,5]. -/
theorem ratingsInRange_serve (rt : JsRuntime) (s : Store) (req : Request)
    (h : RatingsInRange s) : RatingsInRange (serve rt s req) := by
  have hsub : ∀ keep : Review → Bool,
      ∀ r ∈ s.reviews.filter keep, ∃ q : ℚ, r.rating = JsNum.fin q ∧ 1 ≤ q ∧ q ≤ 5 :=
    fun keep r hr => h r (List.mem_of_mem_filter hr)
  cases req with
  | addReview u q r c =>
    show RatingsInRange (addReview rt s u q r c).1
    rcases addReview_store_cases rt s u q r c with
      h0 | ⟨product, n, cm, -, -, hv, hcase⟩
    · rw [h0]; exact h
    · have hnew : ∀ x ∈ s.reviews ++ [newReviewDoc s.nextReviewId u q n cm s.now],
          ∃ y : ℚ, x.rating = JsNum.fin y ∧ 1 ≤ y ∧ y ≤ 5 := by
        intro x hx
        rcases List.mem_append.mp hx with hx | hx
        · exact h x hx
        · rw [List.mem_singleton] at hx
          subst hx
          exact validateRating_range rt r n hv
      rcases hcase with ⟨-, hout⟩ | ⟨-, hout⟩
      · rw [hout]; exact hnew
      · rw [hout]; exact hnew
  | dismissReview i =>
    show RatingsInRange (dismissFlaggedReview s i).1
    rcases dismissFlaggedReview_store_cases s i with
      h0 | ⟨rv, -, ⟨-, hout⟩ | ⟨product, -, ⟨-, hout⟩ | ⟨-, hout⟩⟩⟩
    · rw [h0]; exact h
    · rw [hout]; exact hsub _
    · rw [hout]; exact hsub _
    · rw [hout]; exact hsub _
  | dismissProduct q =>
    show RatingsInRange (dismissFlaggedProduct s q).1
    unfold RatingsInRange
    rw [(dismissFlaggedProduct_store s q).1]
    exact hsub _
  | approveReview i =>
    show RatingsInRange (approveFlaggedReview s i).1
    rw [approveFlaggedReview_store]
    intro r hr
    obtain ⟨r0, h0, rfl | rfl⟩ := mem_updateReview s i _ r hr
    · exact h r0 h0
    · exact h r h0
  | approveProduct q =>
    show RatingsInRange (approveFlaggedProduct s q).1
    rw [approveFlaggedProduct_store]
    exact h
  | clock t => exact h

/-- Serving requests keeps the stored ratings in [1,5]. -/
theorem ratingsInRange_serveAll (rt : JsRuntime) (reqs : List Request) (s : Store)
    (h : RatingsInRange s) : RatingsInRange (serveAll rt s reqs) := by
  induction reqs generalizing s with
  | nil => exact h
  | cons req rest ih => exact ih _ (ratingsInRange_serve rt s req h)

/-- C4: in every store reached from a store without reviews by requests to the
five handlers at any instants, a submitted rating whose numeric value lies
outside [1,5] makes `addReview` signal an error and leave the store, and so
every average and count, as it was; and every stored review carries a finite
rating of [1,5], so that a dismissal never meets a rating outside [1,5]: the
dismissal of a stored review with such a rating, of which there is none,
signals an error and leaves the store as it was. -/
theorem rating_out_of_range_never_applied (rt : JsRuntime) (s0 : Store) (reqs : List Request)
    (h0 : s0.reviews = []) :
    (∀ userId productId rating comment n, castNumber rt rating = some (some n) →
      (n.ge (JsNum.fin 1) && n.le (JsNum.fin 5)) = false →
      addReview rt (serveAll rt s0 reqs) userId productId rating comment
        = (serveAll rt s0 reqs, .error ⟨500, "Something went wrong while adding the review"⟩))
    ∧ (∀ r ∈ (serveAll rt s0 reqs).reviews, ∃ q : ℚ, r.rating = JsNum.fin q ∧ 1 ≤ q ∧ q ≤ 5)
    ∧ (∀ reviewId review, findReview (serveAll rt s0 reqs) reviewId = some review →
      (review.rating.ge (JsNum.fin 1) && review.rating.le (JsNum.fin 5)) = false →
      dismissFlaggedReview (serveAll rt s0 reqs) reviewId
        = (serveAll rt s0 reqs,
            .error ⟨500, "Something went wrong while dismissing the review!"⟩)) := by
  have hinv : RatingsInRange (serveAll rt s0 reqs) := by
    apply ratingsInRange_serveAll
    intro r hr
    rw [h0] at hr
    cases hr
  refine ⟨?_, hinv, ?_⟩
  · intro userId productId rating comment n hcast hout
    exact addReview_rejects_rating_out_of_range rt _ userId productId rating comment n hcast hout
  · intro reviewId review hfind hout
    obtain ⟨q, hq, h1, h5⟩ := hinv review (findReview_some _ reviewId review hfind).1
    rw [not_out_of_range review.rating q hq h1 h5] at hout
    cases hout

/-- The case of C4 on the store reached from `shop0` by two submissions, an
approval and the passing of time: the ratings 7 and "0" are rejected, and the
two stored ratings are 4 and 2. -/
theorem rating_out_of_range_never_applied_witness :
    addReview refRuntime
        (serveAll refRuntime shop0
          [.addReview 7 1 (.str " 4") (.str "ok"), .clock 3,
            .addReview 8 1 (.num (.fin 2)) (.str "fine"), .approveReview 0])
        9 1 (.num (.fin 7)) (.str "ok")
      = (serveAll refRuntime shop0
          [.addReview 7 1 (.str " 4") (.str "ok"), .clock 3,
            .addReview 8 1 (.num (.fin 2)) (.str "fine"), .approveReview 0],
          .error ⟨500, "Something went wrong while adding the review"⟩)
      ∧ addReview refRuntime
        (serveAll refRuntime shop0
          [.addReview 7 1 (.str " 4") (.str "ok"), .clock 3,
            .addReview 8 1 (.num (.fin 2)) (.str "fine"), .approveReview 0])
        9 1 (.str "0") (.str "ok")
      = (serveAll refRuntime shop0
          [.addReview 7 1 (.str " 4") (.str "ok"), .clock 3,
            .addReview 8 1 (.num (.fin 2)) (.str "fine"), .approveReview 0],
          .error ⟨500, "Something went wrong while adding the review"⟩)
      ∧ (serveAll refRuntime shop0
          [.addReview 7 1 (.str " 4") (.str "ok"), .clock 3,
            .addReview 8 1 (.num (.fin 2)) (.str "fine"), .approveReview 0]).reviews.map
          (fun r => r.rating) = [.fin 4, .fin 2] := by
  have h := rating_out_of_range_never_applied refRuntime shop0
    [.addReview 7 1 (.str " 4") (.str "ok"), .clock 3,
      .addReview 8 1 (.num (.fin 2)) (.str "fine"), .approveReview 0] rfl
  refine ⟨h.1 9 1 (.num (.fin 7)) (.str "ok") (.fin 7) (by decide) (by with_unfolding_all decide),
    h.1 9 1 (.str "0") (.str "ok") (.fin 0) (by decide) (by with_unfolding_all decide), ?_⟩
  with_unfolding_all rfl

/-! ## Runs on which the ledger formulas fail -/

/-- C1 (failing run): on `shop0`, where the lamp has no review, count 0 and
average 5, user 7 submits the rating 4 and user 8 submits the rating "2" as a
string.  Both reviews are stored, with the ratings 4 and 2, whose mean is 3;
the count is 2 and the average stored is 21. -/
theorem string_rating_breaks_the_mean :
    (retained (runOps refRuntime shop0
        [.add 7 1 (.num (.fin 4)) (.str "ok"), .add 8 1 (.str "2") (.str "fine")]) 1).map
        (fun r => r.rating) = [.fin 4, .fin 2]
      ∧ (findProduct (runOps refRuntime shop0
        [.add 7 1 (.num (.fin 4)) (.str "ok"), .add 8 1 (.str "2") (.str "fine")]) 1).map
        (fun p => p.ratings) = some ⟨.fin 21, .fin 2⟩
      ∧ ratingSum (retained (runOps refRuntime shop0
        [.add 7 1 (.num (.fin 4)) (.str "ok"), .add 8 1 (.str "2") (.str "fine")]) 1) / 2 = 3 := by
  refine ⟨?_, ?_, ?_⟩ <;> with_unfolding_all rfl

/-- C2 (failing run): the lamp of `shop1` has the aggregate (4, 1) and user 8
has not reviewed it.  The rating "5", a string, is accepted: the answer is the
201 success and the review is stored with the rating 5.  The count becomes 2
and the average 45/2, where `(4 * 1 + 5) / (1 + 1)` is 9/2. -/
theorem accepted_string_rating_is_not_averaged :
    validateRating refRuntime (.str "5") = some (.fin 5)
      ∧ (addReview refRuntime shop1 8 1 (.str "5") (.str "fine")).2
        = .ok ⟨201, .review (newReviewDoc 1 8 1 (JsNum.fin 5) "fine" 0),
            "Review added successfully!"⟩
      ∧ (findProduct (addReview refRuntime shop1 8 1 (.str "5") (.str "fine")).1 1).map
          (fun p => (p.ratings, p.reviews)) = some (⟨.fin (45 / 2), .fin 2⟩, [0, 1])
      ∧ ((4 * 1 + 5) / (1 + 1) : ℚ) = 9 / 2 := by
  refine ⟨?_, ?_, ?_, by norm_num⟩ <;> with_unfolding_all rfl

/-- C3 (failing run): in `driftedShop` the lamp has the aggregate
(-Infinity, 0) and lists review 1, rated 2.  Dismissing review 1 deletes it
and pulls its identity from the list, but the new average is NaN, the save is
rejected, the caller receives the 500 failure and the aggregate stays
(-Infinity, 0): the count is not 0 - 1. -/
theorem dismissal_fails_on_infinite_average :
    (findProduct driftedShop 1).map (fun p => (p.ratings, p.reviews))
        = some (⟨.ninf, .fin 0⟩, [1])
      ∧ (findReview driftedShop 1).map (fun r => (r.product, r.rating)) = some (1, .fin 2)
      ∧ (dismissFlaggedReview driftedShop 1).2
        = .error ⟨500, "Something went wrong while dismissing the review!"⟩
      ∧ findReview (dismissFlaggedReview driftedShop 1).1 1 = none
      ∧ (findProduct (dismissFlaggedReview driftedShop 1).1 1).map
          (fun p => (p.ratings, p.reviews)) = some (⟨.ninf, .fin 0⟩, []) := by
  refine ⟨?_, ?_, ?_, ?_, ?_⟩ <;> with_unfolding_all rfl

/-! ## Trust analysis: the reports -/

/-- Properties appended under other keys do not change what a key gives. -/
theorem lookupField_append (key : String) (fields extra : List (String × Json))
    (h : ∀ kv ∈ extra, kv.1 ≠ key) :
    lookupField key (fields ++ extra) = lookupField key fields := by
  have hnil : extra.filter (fun kv => kv.1 == key) = [] := by
    apply List.filter_eq_nil_iff.mpr
    intro kv hkv
    simpa using h kv hkv
  simp [lookupField, List.filter_append, hnil]

/-- The report of `analyzeProduct` when the inference key is not set. -/
theorem analyzeProduct_unconfigured (env : AnalysisEnv) (product : AnalyzedProduct)
    (h : env.geminiKey = false) :
    analyzeProduct env product = unconfiguredReport env.now := by
  simp [analyzeProduct, h]

/-- The report of `analyzeProduct` when its `try` block throws. -/
theorem analyzeProduct_failure (env : AnalysisEnv) (product : AnalyzedProduct) (message : String)
    (hkey : env.geminiKey = true) (h : analysisData env product = .error message) :
    analyzeProduct env product = failureReport env.now message := by
  simp [analyzeProduct, hkey, h]

/-- The report of `analyzeProduct` when the response was parsed. -/
theorem analyzeProduct_success (env : AnalysisEnv) (product : AnalyzedProduct) (data : Json)
    (hkey : env.geminiKey = true) (h : analysisData env product = .ok data) :
    analyzeProduct env product = successReport env product data := by
  simp [analyzeProduct, hkey, h]

/-- What the parsed response defines under a key other than `analyzedAt`,
`productId` and `productName` is what the report defines under it. -/
theorem successReport_get (env : AnalysisEnv) (product : AnalyzedProduct) (data : Json)
    (key : String) (h1 : key ≠ "analyzedAt") (h2 : key ≠ "productId")
    (h3 : key ≠ "productName") :
    (successReport env product data).get? key = lookupField key (spreadFields data) := by
  unfold successReport Json.get?
  apply lookupField_append
  intro kv hkv
  simp only [List.mem_cons, List.mem_singleton, List.not_mem_nil, or_false] at hkv
  rcases hkv with rfl | rfl | rfl
  · exact fun e => h1 e.symm
  · exact fun e => h2 e.symm
  · exact fun e => h3 e.symm

/-- C11 (failing run): without the inference key, `analyzeProduct` returns a
report with trust score 0 and an error text but without a verification block,
where the report of its `catch` clause labels the five checks. -/
theorem unconfigured_report_lacks_verification :
    analyzeProduct (noGeminiEnv (.ok goodAnswer)) demoProduct
        = unconfiguredReport "2025-01-01T00:00:00.000Z"
      ∧ (analyzeProduct (noGeminiEnv (.ok goodAnswer)) demoProduct).get? "trustScore"
        = some (.num (.fin 0))
      ∧ (analyzeProduct (noGeminiEnv (.ok goodAnswer)) demoProduct).get? "error"
        = some (.str "GEMINI_API_KEY is not set")
      ∧ (analyzeProduct (noGeminiEnv (.ok goodAnswer)) demoProduct).get? "verification" = none := by
  refine ⟨?_, ?_, ?_, ?_⟩ <;> rfl

/-- C12: when the inference call of `analyzeReview` throws, or `JSON.parse`
throws on the text it extracts from the response, the function returns the
result of its `catch` clause: `isFake` false, `confidence` 0 and, as `error`,
the message of what was thrown. -/
theorem analyzeReview_degrades (env : AnalysisEnv) (reviewText : String)
    (metadata : Option ReviewMetadata) (message : String)
    (h : env.generateReview (reviewPrompt env reviewText metadata) = .error message
      ∨ ∃ text, env.generateReview (reviewPrompt env reviewText metadata) = .ok text
          ∧ env.jsonParse (jsonStr text) = .error message) :
    analyzeReview env reviewText metadata = reviewFailure message
      ∧ (analyzeReview env reviewText metadata).get? "isFake" = some (.bool false)
      ∧ (analyzeReview env reviewText metadata).get? "confidence" = some (.num (.fin 0))
      ∧ (analyzeReview env reviewText metadata).get? "error" = some (.str message) := by
  have hout : analyzeReview env reviewText metadata = reviewFailure message := by
    rcases h with h | ⟨text, h1, h2⟩
    · simp [analyzeReview, h]
    · simp [analyzeReview, h1, h2]
  rw [hout]
  exact ⟨rfl, rfl, rfl, rfl⟩

/-- The two failures of C12 at a concrete review: the inference call throws,
and the response is not JSON. -/
theorem analyzeReview_degrades_witness :
    analyzeReview (demoEnv (.error "503 overloaded")) "Great lamp" none
        = reviewFailure "503 overloaded"
      ∧ (analyzeReview (demoEnv (.ok "I cannot tell.")) "Great lamp" none).get? "confidence"
        = some (.num (.fin 0)) :=
  ⟨(analyzeReview_degrades (demoEnv (.error "503 overloaded")) "Great lamp" none
      "503 overloaded" (Or.inl rfl)).1,
   (analyzeReview_degrades (demoEnv (.ok "I cannot tell.")) "Great lamp" none
      "Unexpected token in JSON" (Or.inr ⟨"I cannot tell.", rfl, by with_unfolding_all rfl⟩)).2.2.1⟩

/-- Without the search key the `try` block of `analyzeProduct` throws before
the inference call. -/
theorem analysisData_without_serpKey (env : AnalysisEnv) (product : AnalyzedProduct)
    (h : env.serpKey = false) : analysisData env product = .error nullLengthMessage := by
  simp [analysisData, serpApiGoogleSearch, h]

/-- C17 (failing run): the inference call would answer a well-formed
assessment, but no search key is configured.  `serpApiGoogleSearch` returns
`null`, reading its `length` throws, and `analyzeProduct` returns the failure
report: trust score 0 and, as `error`, the message of the `TypeError`. -/
theorem missing_search_key_fails_analysis :
    analyzeProduct (noSerpEnv (.ok goodAnswer)) demoProduct
        = failureReport "2025-01-01T00:00:00.000Z" nullLengthMessage
      ∧ (analyzeProduct (noSerpEnv (.ok goodAnswer)) demoProduct).get? "trustScore"
        = some (.num (.fin 0))
      ∧ (analyzeProduct (noSerpEnv (.ok goodAnswer)) demoProduct).get? "error"
        = some (.str "Cannot read properties of null (reading 'length')") := by
  have h := analyzeProduct_failure (noSerpEnv (.ok goodAnswer)) demoProduct nullLengthMessage rfl
    (analysisData_without_serpKey _ _ rfl)
  rw [h]
  exact ⟨rfl, rfl, rfl⟩

/-- The causes for which the `try` block of `analyzeProduct` throws `message`:
the search key is absent; the inference call, with its retry, throws; the
response has no span between braces; `JSON.parse` throws on the span. -/
theorem analysisData_error (env : AnalysisEnv) (product : AnalyzedProduct) (message : String)
    (h : (env.serpKey = false ∧ message = nullLengthMessage)
      ∨ ∃ results, serpApiGoogleSearch env product.name = some results ∧
          (generateText env (productPrompt env product results) (imageParts env product)
              = .error message
            ∨ ∃ text, generateText env (productPrompt env product results)
                  (imageParts env product) = .ok text ∧
                ((braceSpan text = none
                    ∧ message = "Failed to parse JSON response from Gemini.")
                  ∨ ∃ span, braceSpan text = some span ∧ env.jsonParse span = .error message))) :
    analysisData env product = .error message := by
  rcases h with ⟨h1, rfl⟩ | ⟨results, hs, h2 | ⟨text, ht, ⟨h3, rfl⟩ | ⟨span, h4, h5⟩⟩⟩
  · exact analysisData_without_serpKey env product h1
  · simp [analysisData, hs, h2]
  · simp [analysisData, hs, ht, h3]
  · simp [analysisData, hs, ht, h4, h5]

/-- The fields of the report of the `catch` clause of `analyzeProduct`. -/
theorem failureReport_fields (now message : String) :
    (failureReport now message).get? "trustScore" = some (.num (.fin 0))
      ∧ (failureReport now message).get? "error" = some (.str message)
      ∧ (failureReport now message).path? ["verification", "descriptionCheck", "quality"]
          = some (.str "Unknown")
      ∧ (failureReport now message).path? ["verification", "priceCheck", "status"]
          = some (.str "Unknown")
      ∧ (failureReport now message).path? ["verification", "imageCheck", "authenticity"]
          = some (.str "Unknown")
      ∧ (failureReport now message).path? ["verification", "sellerCheck", "status"]
          = some (.str "Unknown")
      ∧ (failureReport now message).path? ["verification", "brandCheck", "status"]
          = some (.str "Unknown")
      ∧ ∀ check ∈ ["descriptionCheck", "priceCheck", "imageCheck", "sellerCheck", "brandCheck"],
          (failureReport now message).path? ["verification", check, "findings"]
            = some (.str "Analysis failed.") := by
  refine ⟨rfl, rfl, rfl, rfl, rfl, rfl, rfl, ?_⟩
  intro check hc
  simp only [List.mem_cons, List.mem_singleton, List.not_mem_nil, or_false] at hc
  rcases hc with rfl | rfl | rfl | rfl | rfl <;> rfl

/-- With the inference key configured, whatever makes the `try` block of
`analyzeProduct` throw gives the failure report: trust score 0, the message
thrown as `error`, and the five checks labelled "Unknown" with the findings
"Analysis failed.". -/
theorem failures_give_the_failure_report (env : AnalysisEnv) (product : AnalyzedProduct)
    (message : String) (hkey : env.geminiKey = true)
    (h : (env.serpKey = false ∧ message = nullLengthMessage)
      ∨ ∃ results, serpApiGoogleSearch env product.name = some results ∧
          (generateText env (productPrompt env product results) (imageParts env product)
              = .error message
            ∨ ∃ text, generateText env (productPrompt env product results)
                  (imageParts env product) = .ok text ∧
                ((braceSpan text = none
                    ∧ message = "Failed to parse JSON response from Gemini.")
                  ∨ ∃ span, braceSpan text = some span ∧ env.jsonParse span = .error message))) :
    analyzeProduct env product = failureReport env.now message
      ∧ (analyzeProduct env product).get? "trustScore" = some (.num (.fin 0))
      ∧ (analyzeProduct env product).get? "error" = some (.str message)
      ∧ (analyzeProduct env product).path? ["verification", "descriptionCheck", "quality"]
          = some (.str "Unknown")
      ∧ (analyzeProduct env product).path? ["verification", "priceCheck", "status"]
          = some (.str "Unknown")
      ∧ (analyzeProduct env product).path? ["verification", "imageCheck", "authenticity"]
          = some (.str "Unknown")
      ∧ (analyzeProduct env product).path? ["verification", "sellerCheck", "status"]
          = some (.str "Unknown")
      ∧ (analyzeProduct env product).path? ["verification", "brandCheck", "status"]
          = some (.str "Unknown")
      ∧ ∀ check ∈ ["descriptionCheck", "priceCheck", "imageCheck", "sellerCheck", "brandCheck"],
          (analyzeProduct env product).path? ["verification", check, "findings"]
            = some (.str "Analysis failed.") := by
  rw [analyzeProduct_failure env product message hkey (analysisData_error env product message h)]
  exact ⟨rfl, failureReport_fields env.now message⟩

/-- The inference call throws, without images attached: the failure report
carries the message with the prefix of the `catch` clause around the call. -/
theorem failures_give_the_failure_report_witness :
    analyzeProduct (demoEnv (.error "503 overloaded")) { demoProduct with images := none }
      = failureReport "2025-01-01T00:00:00.000Z" "Gemini API error: 503 overloaded" :=
  (failures_give_the_failure_report (demoEnv (.error "503 overloaded"))
    { demoProduct with images := none } "Gemini API error: 503 overloaded" rfl
    (Or.inr ⟨[], by with_unfolding_all rfl, Or.inl (by with_unfolding_all rfl)⟩)).1

/-! ## Trust analysis: what the report takes from the response -/

/-- The report and the parsed response agree along a path that starts with a
key other than `analyzedAt`, `productId` and `productName`. -/
theorem successReport_path (env : AnalysisEnv) (product : AnalyzedProduct) (data : Json)
    (key : String) (keys : List String) (h1 : key ≠ "analyzedAt") (h2 : key ≠ "productId")
    (h3 : key ≠ "productName") :
    (successReport env product data).path? (key :: keys)
      = (Json.obj (spreadFields data)).path? (key :: keys) := by
  have h := successReport_get env product data key h1 h2 h3
  simp only [Json.path?, List.foldl_cons, Option.some_bind]
  rw [h]
  rfl

/-- C13 (as amended): with the inference key configured, the report of
`analyzeProduct` holds the five check results in its verification block when
the `try` block throws; and when the response was parsed its `verification` is
the one the parsed response defines, none when the response defines none. -/
theorem verification_block_by_outcome (env : AnalysisEnv) (product : AnalyzedProduct)
    (hkey : env.geminiKey = true) :
    (∀ message, analysisData env product = .error message →
      ∀ check ∈ ["descriptionCheck", "priceCheck", "imageCheck", "sellerCheck", "brandCheck"],
        ((analyzeProduct env product).path? ["verification", check]).isSome = true)
    ∧ (∀ data, analysisData env product = .ok data →
        (analyzeProduct env product).get? "verification"
          = lookupField "verification" (spreadFields data)) := by
  refine ⟨?_, ?_⟩
  · intro message h check hc
    rw [analyzeProduct_failure env product message hkey h]
    simp only [List.mem_cons, List.mem_singleton, List.not_mem_nil, or_false] at hc
    rcases hc with rfl | rfl | rfl | rfl | rfl <;> rfl
  · intro data h
    rw [analyzeProduct_success env product data hkey h]
    exact successReport_get env product data "verification" (by decide) (by decide) (by decide)

set_option maxRecDepth 100000 in
/-- The cases of C13 at a concrete product: a response without JSON, and a
response with the documented shape. -/
theorem verification_block_by_outcome_witness :
    ((analyzeProduct (demoEnv (.ok "I cannot tell.")) demoProduct).path?
        ["verification", "sellerCheck"]).isSome = true
      ∧ ((analyzeProduct (demoEnv (.ok goodAnswer)) demoProduct).path?
        ["verification", "sellerCheck", "status"]) = some (.str "Unknown") := by
  constructor
  · exact (verification_block_by_outcome (demoEnv (.ok "I cannot tell.")) demoProduct rfl).1
      "Failed to parse JSON response from Gemini." (by with_unfolding_all rfl) "sellerCheck"
      (by decide)
  · with_unfolding_all rfl

/-- C13 (counterexample): the inference call answers the empty object; the
report is not a failure report and has no verification block. -/
theorem empty_response_has_no_verification :
    analysisData (demoEnv (.ok "\x7b\x7d")) demoProduct = .ok (.obj [])
      ∧ (analyzeProduct (demoEnv (.ok "\x7b\x7d")) demoProduct).get? "verification" = none
      ∧ (analyzeProduct (demoEnv (.ok "\x7b\x7d")) demoProduct).get? "error" = none := by
  refine ⟨?_, ?_, ?_⟩ <;> with_unfolding_all rfl

/-- C14 (as amended): the report of `analyzeProduct` holds no check, hence no
label, when the inference key is not set; each of its five checks is labelled
"Unknown" when the `try` block throws; and when the response was parsed, what
the report holds under `verification`, labels included, is what the parsed
response holds there. -/
theorem check_labels_by_outcome (env : AnalysisEnv) (product : AnalyzedProduct) :
    (env.geminiKey = false → ∀ check label,
      (analyzeProduct env product).path? ["verification", check, label] = none)
    ∧ (∀ message, env.geminiKey = true → analysisData env product = .error message →
      (analyzeProduct env product).path? ["verification", "descriptionCheck", "quality"]
          = some (.str "Unknown")
        ∧ (analyzeProduct env product).path? ["verification", "priceCheck", "status"]
          = some (.str "Unknown")
        ∧ (analyzeProduct env product).path? ["verification", "imageCheck", "authenticity"]
          = some (.str "Unknown")
        ∧ (analyzeProduct env product).path? ["verification", "sellerCheck", "status"]
          = some (.str "Unknown")
        ∧ (analyzeProduct env product).path? ["verification", "brandCheck", "status"]
          = some (.str "Unknown"))
    ∧ (∀ data, env.geminiKey = true → analysisData env product = .ok data → ∀ check label,
        (analyzeProduct env product).path? ["verification", check, label]
          = (Json.obj (spreadFields data)).path? ["verification", check, label]) := by
  refine ⟨?_, ?_, ?_⟩
  · intro h check label
    rw [analyzeProduct_unconfigured env product h]
    rfl
  · intro message hkey h
    rw [analyzeProduct_failure env product message hkey h]
    exact ⟨rfl, rfl, rfl, rfl, rfl⟩
  · intro data hkey h check label
    rw [analyzeProduct_success env product data hkey h]
    exact successReport_path env product data "verification" [check, label]
      (by decide) (by decide) (by decide)

/-- The second case of C14 at a concrete product: the inference call throws. -/
theorem check_labels_by_outcome_witness :
    (analyzeProduct (demoEnv (.error "503 overloaded")) demoProduct).path?
        ["verification", "priceCheck", "status"] = some (.str "Unknown") :=
  ((check_labels_by_outcome (demoEnv (.error "503 overloaded")) demoProduct).2.1
    "Gemini API error: 503 overloaded" rfl (by with_unfolding_all rfl)).2.1

/-- C14 (counterexample): in the failure report the description quality, the
image authenticity and the brand status are "Unknown", which is not a label of
their enumerations; and a label of the response that is in no enumeration
reaches the report as it is. -/
theorem labels_outside_the_enumerations :
    (analyzeProduct (demoEnv (.error "503 overloaded")) demoProduct).path?
        ["verification", "descriptionCheck", "quality"] = some (.str "Unknown")
      ∧ "Unknown" ∉ ["Good", "Average", "Poor"]
      ∧ (analyzeProduct (demoEnv (.error "503 overloaded")) demoProduct).path?
        ["verification", "imageCheck", "authenticity"] = some (.str "Unknown")
      ∧ "Unknown" ∉ ["Authentic", "Stock Photo", "Suspicious", "No Images"]
      ∧ (analyzeProduct (demoEnv (.error "503 overloaded")) demoProduct).path?
        ["verification", "brandCheck", "status"] = some (.str "Unknown")
      ∧ "Unknown" ∉ ["Present", "Unverified", "Missing"]
      ∧ (analyzeProduct
          (demoEnv (.ok "\x7b\"verification\": \x7b\"priceCheck\": \x7b\"status\": \"Cheap\"\x7d\x7d\x7d"))
          demoProduct).path? ["verification", "priceCheck", "status"] = some (.str "Cheap")
      ∧ "Cheap" ∉ ["Reasonable", "Slightly Off", "Too Low", "Too High", "Unknown"] := by
  refine ⟨?_, by decide, ?_, by decide, ?_, by decide, ?_, by decide⟩ <;> with_unfolding_all rfl

/-- C15 (as amended): the trust score of the report is 0 when the inference key
is not set and when the `try` block throws; when the response was parsed it is
what the parsed response defines as `trustScore`, as it is.  The weights that
the prompt states sum to 1. -/
theorem trustScore_by_outcome (env : AnalysisEnv) (product : AnalyzedProduct) :
    (env.geminiKey = false →
      (analyzeProduct env product).get? "trustScore" = some (.num (.fin 0)))
    ∧ (∀ message, env.geminiKey = true → analysisData env product = .error message →
        (analyzeProduct env product).get? "trustScore" = some (.num (.fin 0)))
    ∧ (∀ data, env.geminiKey = true → analysisData env product = .ok data →
        (analyzeProduct env product).get? "trustScore"
          = lookupField "trustScore" (spreadFields data))
    ∧ promptWeights.sum = 1 := by
  refine ⟨?_, ?_, ?_, by norm_num [promptWeights]⟩
  · intro h
    rw [analyzeProduct_unconfigured env product h]
    rfl
  · intro message hkey h
    rw [analyzeProduct_failure env product message hkey h]
    rfl
  · intro data hkey h
    rw [analyzeProduct_success env product data hkey h]
    exact successReport_get env product data "trustScore" (by decide) (by decide) (by decide)

set_option maxRecDepth 100000 in
/-- The three cases of C15 at a concrete product. -/
theorem trustScore_by_outcome_witness :
    (analyzeProduct (noGeminiEnv (.ok goodAnswer)) demoProduct).get? "trustScore"
        = some (.num (.fin 0))
      ∧ (analyzeProduct (demoEnv (.error "503 overloaded")) demoProduct).get? "trustScore"
        = some (.num (.fin 0))
      ∧ (analyzeProduct (demoEnv (.ok goodAnswer)) demoProduct).get? "trustScore"
        = some (.num (.fin 80)) := by
  refine ⟨(trustScore_by_outcome (noGeminiEnv (.ok goodAnswer)) demoProduct).1 rfl,
    (trustScore_by_outcome (demoEnv (.error "503 overloaded")) demoProduct).2.1
      "Gemini API error: 503 overloaded" rfl (by with_unfolding_all rfl), ?_⟩
  with_unfolding_all rfl

/-- C15 (counterexample): the inference call answers a trust score of 150, and
one of 72.5; the report carries them as they are. -/
theorem trustScore_is_not_clamped :
    (analyzeProduct (demoEnv (.ok "\x7b\"trustScore\": 150\x7d")) demoProduct).get? "trustScore"
        = some (.num (.fin 150))
      ∧ (100 : ℚ) < 150
      ∧ (analyzeProduct (demoEnv (.ok "\x7b\"trustScore\": 72.5\x7d")) demoProduct).get?
          "trustScore" = some (.num (.fin (145 / 2)))
      ∧ ¬ ∃ n : ℤ, ((145 / 2 : ℚ)) = n := by
  refine ⟨?_, by norm_num, ?_, ?_⟩
  · with_unfolding_all rfl
  · with_unfolding_all rfl
  · rintro ⟨n, hn⟩
    have h2 : (145 : ℚ) = 2 * n := by linarith
    have h3 : (145 : ℤ) = 2 * n := by exact_mod_cast h2
    omega

/-! ## Trust analysis: the text handed to `JSON.parse` -/

/-- Dropping while a test holds skips a front on which it holds. -/
theorem dropWhile_append_of_all {α : Type} (p : α → Bool) (front rest : List α)
    (h : ∀ a ∈ front, p a = true) :
    (front ++ rest).dropWhile p = rest.dropWhile p := by
  induction front with
  | nil => rfl
  | cons a front ih =>
    have ha : p a = true := h a (List.mem_cons_self a front)
    simp only [List.cons_append, List.dropWhile_cons, ha, if_true]
    exact ih (fun b hb => h b (List.mem_cons_of_mem a hb))

/-- The span between braces of a text whose first opening brace and last
closing brace are those written out. -/
theorem braceSpanChars_outer (before body after : List Char)
    (hb : Char.ofNat 123 ∉ before) (ha : Char.ofNat 125 ∉ after) :
    braceSpanChars (before ++ Char.ofNat 123 :: (body ++ Char.ofNat 125 :: after))
      = some (Char.ofNat 123 :: (body ++ [Char.ofNat 125])) := by
  have h1 : (before ++ Char.ofNat 123 :: (body ++ Char.ofNat 125 :: after)).dropWhile
      (fun c => c != Char.ofNat 123) = Char.ofNat 123 :: (body ++ Char.ofNat 125 :: after) := by
    rw [dropWhile_append_of_all]
    · simp [List.dropWhile_cons]
    · intro c hc
      have : c ≠ Char.ofNat 123 := fun h => hb (h ▸ hc)
      simpa using this
  have h2 : ((body ++ Char.ofNat 125 :: after).reverse.dropWhile
      (fun c => c != Char.ofNat 125)).reverse = body ++ [Char.ofNat 125] := by
    rw [List.reverse_append, List.reverse_cons, List.append_assoc, dropWhile_append_of_all]
    · simp [List.dropWhile_cons]
    · intro c hc
      have : c ≠ Char.ofNat 125 := fun h => ha (h ▸ (List.mem_reverse.mp hc))
      simpa using this
  unfold braceSpanChars
  rw [h1]
  simp only
  rw [h2]
  cases body <;> rfl

/-- The first occurrence of the fence opening after a front without a
backtick. -/
theorem splitAtFirst_fenceOpen (front rest : List Char) (h : Char.ofNat 96 ∉ front) :
    splitAtFirst fenceOpen (front ++ (fenceOpen ++ rest)) = some (front, rest) := by
  induction front with
  | nil => simp [splitAtFirst, fenceOpen, List.isPrefixOf]
  | cons c front ih =>
    have hc : c ≠ Char.ofNat 96 := fun e => h (e ▸ List.mem_cons_self c front)
    have hc2 : (Char.ofNat 96 == c) = false := by
      simpa using fun e : Char.ofNat 96 = c => hc e.symm
    have ih2 := ih (fun e => h (List.mem_cons_of_mem c e))
    have hp : fenceOpen.isPrefixOf (c :: (front ++ (fenceOpen ++ rest))) = false := by
      simp [fenceOpen, List.isPrefixOf, hc2]
    rw [List.cons_append, splitAtFirst, if_neg (by simp [hp]), ih2]
    rfl

/-- The first occurrence of the fence closing after a text without a
backtick. -/
theorem splitAtFirst_fenceClose (inner rest : List Char) (h : Char.ofNat 96 ∉ inner) :
    splitAtFirst fenceClose (inner ++ (fenceClose ++ rest)) = some (inner, rest) := by
  induction inner with
  | nil => simp [splitAtFirst, fenceClose, List.isPrefixOf]
  | cons c inner ih =>
    have ih2 := ih (fun e => h (List.mem_cons_of_mem c e))
    have hp : fenceClose.isPrefixOf (c :: (inner ++ (fenceClose ++ rest))) = false := by
      cases inner with
      | nil =>
        have : (Char.ofNat 96 == '\n') = false := by decide
        simp [fenceClose, List.isPrefixOf, this]
      | cons d inner =>
        have hd : d ≠ Char.ofNat 96 := fun e =>
          h (e ▸ List.mem_cons_of_mem c (List.mem_cons_self d inner))
        have hd2 : (Char.ofNat 96 == d) = false := by
          simpa using fun e : Char.ofNat 96 = d => hd e.symm
        simp [fenceClose, List.isPrefixOf, hd2]
    rw [List.cons_append, splitAtFirst, if_neg (by simp [hp]), ih2]
    rfl

/-- A text without a backtick has no fence opening. -/
theorem splitAtFirst_fenceOpen_none (cs : List Char) (h : Char.ofNat 96 ∉ cs) :
    splitAtFirst fenceOpen cs = none := by
  induction cs with
  | nil => simp [splitAtFirst, fenceOpen]
  | cons c cs ih =>
    have hc : c ≠ Char.ofNat 96 := fun e => h (e ▸ List.mem_cons_self c cs)
    have hc2 : (Char.ofNat 96 == c) = false := by
      simpa using fun e : Char.ofNat 96 = c => hc e.symm
    have hp : fenceOpen.isPrefixOf (c :: cs) = false := by
      simp [fenceOpen, List.isPrefixOf, hc2]
    rw [splitAtFirst, if_neg (by simp [hp]), ih (fun e => h (List.mem_cons_of_mem c e))]
    rfl

/-- The text parsed by `analyzeReview` when the response holds a fenced block. -/
theorem jsonStr_fenced (front inner rest : List Char) (hf : Char.ofNat 96 ∉ front)
    (hi : Char.ofNat 96 ∉ inner) :
    jsonStr (String.mk (front ++ (fenceOpen ++ (inner ++ (fenceClose ++ rest)))))
      = String.mk inner := by
  simp only [jsonStr, fencedChars, String.toList]
  rw [splitAtFirst_fenceOpen front _ hf]
  simp only
  rw [splitAtFirst_fenceClose inner rest hi]
  rfl

/-- The text parsed by `analyzeReview` when the response has no backtick: the
response itself. -/
theorem jsonStr_plain (text : String) (h : Char.ofNat 96 ∉ text.toList) :
    jsonStr text = text := by
  simp only [jsonStr, fencedChars]
  rw [splitAtFirst_fenceOpen_none _ h]

/-- C16 (as amended): `analyzeProduct` parses the span from the first opening
brace of the response to its last closing brace, so an object with no opening
brace before it and no closing brace after it is parsed, and the report is
built from it; `analyzeReview` parses the content of the first fenced block
(no backtick before the fence or inside the block), and the whole response
when it has no backtick, and returns what was parsed. -/
theorem extraction_by_outer_braces_and_fence (env : AnalysisEnv) :
    (∀ (product : AnalyzedProduct) (results : List SearchResult)
        (before body after : List Char) (data : Json),
      env.geminiKey = true →
      serpApiGoogleSearch env product.name = some results →
      generateText env (productPrompt env product results) (imageParts env product)
        = .ok (String.mk (before ++ Char.ofNat 123 :: (body ++ Char.ofNat 125 :: after))) →
      Char.ofNat 123 ∉ before → Char.ofNat 125 ∉ after →
      env.jsonParse (String.mk (Char.ofNat 123 :: (body ++ [Char.ofNat 125]))) = .ok data →
      analyzeProduct env product = successReport env product data)
    ∧ (∀ (reviewText : String) (metadata : Option ReviewMetadata)
        (front inner rest : List Char) (value : Json),
      env.generateReview (reviewPrompt env reviewText metadata)
        = .ok (String.mk (front ++ (fenceOpen ++ (inner ++ (fenceClose ++ rest))))) →
      Char.ofNat 96 ∉ front → Char.ofNat 96 ∉ inner →
      env.jsonParse (String.mk inner) = .ok value →
      analyzeReview env reviewText metadata = value)
    ∧ (∀ (reviewText : String) (metadata : Option ReviewMetadata) (text : String) (value : Json),
      env.generateReview (reviewPrompt env reviewText metadata) = .ok text →
      Char.ofNat 96 ∉ text.toList →
      env.jsonParse text = .ok value →
      analyzeReview env reviewText metadata = value) := by
  refine ⟨?_, ?_, ?_⟩
  · intro product results before body after data hkey hs ht hb ha hp
    apply analyzeProduct_success env product data hkey
    have hspan : braceSpan (String.mk (before ++ Char.ofNat 123 :: (body ++ Char.ofNat 125 :: after)))
        = some (String.mk (Char.ofNat 123 :: (body ++ [Char.ofNat 125]))) := by
      simp only [braceSpan, String.toList]
      rw [braceSpanChars_outer before body after hb ha]
      rfl
    simp only [analysisData, hs, ht, hspan]
    exact hp
  · intro reviewText metadata front inner rest value hg hf hi hp
    simp only [analyzeReview, hg, jsonStr_fenced front inner rest hf hi, hp]
  · intro reviewText metadata text value hg ht hp
    simp only [analyzeReview, hg, jsonStr_plain text ht, hp]

/-- The three cases of C16 at concrete responses: an object between prose, a
fenced block between prose, and an object alone. -/
theorem extraction_by_outer_braces_and_fence_witness :
    (analyzeProduct (demoEnv (.ok "Sure! \x7b\"trustScore\": 80\x7d Hope it helps.")) demoProduct).get?
        "trustScore" = some (.num (.fin 80))
      ∧ (analyzeReview (demoEnv (.ok ("Here:\n" ++ String.mk fenceOpen ++ "\x7b\"isFake\": true\x7d"
          ++ String.mk fenceClose ++ "\nBye"))) "Great lamp" none).get? "isFake"
        = some (.bool true)
      ∧ (analyzeReview (demoEnv (.ok "\x7b\"isFake\": true\x7d")) "Great lamp" none).get? "isFake"
        = some (.bool true) := by
  refine ⟨?_, ?_, ?_⟩
  · rw [(extraction_by_outer_braces_and_fence
      (demoEnv (.ok "Sure! \x7b\"trustScore\": 80\x7d Hope it helps."))).1 demoProduct []
      "Sure! ".toList "\"trustScore\": 80".toList " Hope it helps.".toList
      (.obj [("trustScore", .num (.fin 80))]) rfl (by with_unfolding_all rfl)
      (by with_unfolding_all rfl) (by decide) (by decide) (by with_unfolding_all rfl)]
    rfl
  · rw [(extraction_by_outer_braces_and_fence (demoEnv (.ok ("Here:\n" ++ String.mk fenceOpen
      ++ "\x7b\"isFake\": true\x7d" ++ String.mk fenceClose ++ "\nBye")))).2.1 "Great lamp" none
      "Here:\n".toList "\x7b\"isFake\": true\x7d".toList "\nBye".toList
      (.obj [("isFake", .bool true)]) (by with_unfolding_all rfl) (by decide) (by decide)
      (by with_unfolding_all rfl)]
    rfl
  · rw [(extraction_by_outer_braces_and_fence (demoEnv (.ok "\x7b\"isFake\": true\x7d"))).2.2
      "Great lamp" none "\x7b\"isFake\": true\x7d" (.obj [("isFake", .bool true)]) rfl (by decide)
      (by with_unfolding_all rfl)]
    rfl

/-- C16 (counterexample): a response of two objects, and one with braces in
the text before the object, give `analyzeProduct` a span that is not the first
object, and the failure report comes back; an object after prose, without a
fence, gives `analyzeReview` the whole response to parse, and the failure
result comes back. -/
theorem first_object_is_not_isolated :
    braceSpan "\x7b\"trustScore\": 80\x7d \x7b\"trustScore\": 10\x7d"
        = some "\x7b\"trustScore\": 80\x7d \x7b\"trustScore\": 10\x7d"
      ∧ (analyzeProduct (demoEnv (.ok "\x7b\"trustScore\": 80\x7d \x7b\"trustScore\": 10\x7d"))
          demoProduct).get? "trustScore" = some (.num (.fin 0))
      ∧ ((analyzeProduct (demoEnv (.ok "\x7b\"trustScore\": 80\x7d \x7b\"trustScore\": 10\x7d"))
          demoProduct).get? "error").isSome = true
      ∧ braceSpan "Score \x7bdraft\x7d: \x7b\"trustScore\": 80\x7d"
        = some "\x7bdraft\x7d: \x7b\"trustScore\": 80\x7d"
      ∧ ((analyzeProduct (demoEnv (.ok "Score \x7bdraft\x7d: \x7b\"trustScore\": 80\x7d"))
          demoProduct).get? "error").isSome = true
      ∧ jsonStr "Here you go: \x7b\"isFake\": true\x7d" = "Here you go: \x7b\"isFake\": true\x7d"
      ∧ (analyzeReview (demoEnv (.ok "Here you go: \x7b\"isFake\": true\x7d")) "Great lamp"
          none).get? "isFake" = some (.bool false)
      ∧ ((analyzeReview (demoEnv (.ok "Here you go: \x7b\"isFake\": true\x7d")) "Great lamp"
          none).get? "error").isSome = true := by
  refine ⟨?_, ?_, ?_, ?_, ?_, ?_, ?_, ?_⟩ <;> with_unfolding_all rfl

/-! ## Trust analysis: evidence that could not be retrieved -/

/-- C18 (as amended): with both keys configured and a web-search request that
fails, `analyzeProduct` goes on to the scoring call.  The prompt carries the
text "No Google Search results found." and one block of evidence per image, in
the order of the images, joined by an empty line; the summary of an image is
"Failed. Check manually: ..." when its reverse search failed, "Quota exceeded.
Check manually: ..." when the search met the quota, and the lines of its own
answer otherwise, whether the image was downloaded or not; the parts handed
to the inference call with the prompt are those of the images that were
downloaded, in order; and when that call answers, the report is built from
the object parsed from the answer. -/
theorem retrieval_failures_do_not_abort (env : AnalysisEnv) (product : AnalyzedProduct)
    (hg : env.geminiKey = true) (hs : env.serpKey = true)
    (hq : env.googleSearch (jsText product.name ++ " India price and specs") = .error ()) :
    (imageData env product).map (fun d => d.url) = (product.images.getD []).map (fun img => img.1)
    ∧ (∀ url, (env.reverseImageSearch url = .error none ∨ env.reverseImageSearch url = .ok none
          ∨ ∃ t, env.reverseImageSearch url = .error (some t)
              ∧ includes t "monthly searches" = false) →
        serpSummary env url = "Failed. Check manually: " ++ manualCheckUrl env url)
    ∧ (∀ url t, env.reverseImageSearch url = .error (some t) →
        includes t "monthly searches" = true →
        serpSummary env url = "Quota exceeded. Check manually: " ++ manualCheckUrl env url)
    ∧ (∀ url d, env.reverseImageSearch url = .ok (some d) →
        serpSummary env url = "\n".intercalate
          (if (reverseLines d).isEmpty then ["No reverse image results found."]
            else reverseLines d))
    ∧ imageParts env product
        = (product.images.getD []).filterMap (fun img => urlToGenerativePart env img.1)
    ∧ (∀ url, env.httpGet url = none → urlToGenerativePart env url = none)
    ∧ (∀ part ∈ imageParts env product, ∃ img ∈ product.images.getD [], ∃ response,
        env.httpGet img.1 = some response ∧ part.data = response.bodyBase64)
    ∧ (∀ text span data,
        env.generateContent
            { name := orElse product.name "Not specified",
              brand := orElse product.brand "Not specified",
              price := (match product.price with
                | some p => env.toFixed2 p
                | none => "Not specified"),
              description := orElse product.description "No description provided",
              seller := orElse product.seller "Not specified",
              googleSearchSummary := "No Google Search results found.",
              imageSerpSummaries := "\n\n".intercalate ((product.images.getD []).map (fun img =>
                "Image: " ++ img.1 ++ "\nReverse image search findings:\n"
                  ++ serpSummary env img.1)) }
            ((product.images.getD []).filterMap (fun img => urlToGenerativePart env img.1))
          = .ok text →
        braceSpan text = some span → env.jsonParse span = .ok data →
        analyzeProduct env product = successReport env product data) := by
  have hparts : imageParts env product
      = (product.images.getD []).filterMap (fun img => urlToGenerativePart env img.1) := by
    simp only [imageParts, imageData, List.filterMap_map]
    rfl
  have hsearch : serpApiGoogleSearch env product.name = some [] := by
    simp [serpApiGoogleSearch, hs, hq]
  have hsum : imageSerpSummaries env product
      = "\n\n".intercalate ((product.images.getD []).map (fun img =>
          "Image: " ++ img.1 ++ "\nReverse image search findings:\n" ++ serpSummary env img.1)) := by
    simp [imageSerpSummaries, imageData, imageBlock, List.map_map, Function.comp_def]
  refine ⟨?_, ?_, ?_, ?_, hparts, ?_, ?_, ?_⟩
  · simp [imageData, List.map_map, Function.comp_def]
  · intro url h
    rcases h with h | h | ⟨t, h, ht⟩
    · simp [serpSummary, serpApiReverseImageSearchFull, hs, h]
    · simp [serpSummary, serpApiReverseImageSearchFull, hs, h]
    · simp [serpSummary, serpApiReverseImageSearchFull, hs, h, ht]
  · intro url t h ht
    simp [serpSummary, serpApiReverseImageSearchFull, hs, h, ht]
  · intro url d h
    simp [serpSummary, serpApiReverseImageSearchFull, hs, h]
  · intro url h
    simp [urlToGenerativePart, h]
  · intro part hp
    rw [hparts, List.mem_filterMap] at hp
    obtain ⟨img, himg, hpart⟩ := hp
    refine ⟨img, himg, ?_⟩
    unfold urlToGenerativePart at hpart
    cases hget : env.httpGet img.1 with
    | none => simp [hget] at hpart
    | some response =>
      refine ⟨response, rfl, ?_⟩
      rw [hget] at hpart
      simp only at hpart
      cases hct : response.contentType with
      | none => simp [hct] at hpart
      | some mimeType =>
        rw [hct] at hpart
        simp only at hpart
        split at hpart
        · cases hpart
          rfl
        · cases hpart
  · intro text span data ht hspan hp
    apply analyzeProduct_success env product data hg
    have hprompt : productPrompt env product []
        = { name := orElse product.name "Not specified",
            brand := orElse product.brand "Not specified",
            price := (match product.price with
              | some p => env.toFixed2 p
              | none => "Not specified"),
            description := orElse product.description "No description provided",
            seller := orElse product.seller "Not specified",
            googleSearchSummary := "No Google Search results found.",
            imageSerpSummaries := "\n\n".intercalate ((product.images.getD []).map (fun img =>
              "Image: " ++ img.1 ++ "\nReverse image search findings:\n"
                ++ serpSummary env img.1)) } := by
      simp only [productPrompt, hsum]
      rfl
    have hgen : generateText env (productPrompt env product []) (imageParts env product)
        = .ok text := by
      simp only [generateText, hprompt, hparts, ht]
    simp only [analysisData, hsearch, hgen, hspan]
    exact hp

set_option maxRecDepth 100000 in
/-- The case of C18 at a product with two images: the first cannot be
downloaded and its reverse search meets the quota (or fails), the second is
downloaded and found, and the web search fails. -/
theorem retrieval_failures_do_not_abort_witness :
    serpSummary (demoEnv (.ok goodAnswer)) "a.png"
        = "Quota exceeded. Check manually: "
            ++ "https://images.google.com/searchbyimage?image_url=a.png"
      ∧ serpSummary { demoEnv (.ok goodAnswer) with reverseImageSearch := fun _ => .error none }
          "a.png"
        = "Failed. Check manually: https://images.google.com/searchbyimage?image_url=a.png"
      ∧ imageSerpSummaries (demoEnv (.ok goodAnswer)) demoProduct
        = "Image: a.png\nReverse image search findings:\nQuota exceeded. Check manually: "
            ++ "https://images.google.com/searchbyimage?image_url=a.png\n\nImage: b.png\n"
            ++ "Reverse image search findings:\nTop image results:\n1. Lamp X - shop.in/x"
      ∧ imageParts (demoEnv (.ok goodAnswer)) demoProduct = [⟨"aGk=", "image/png"⟩]
      ∧ (analyzeProduct (demoEnv (.ok goodAnswer)) demoProduct).get? "trustScore"
        = some (.num (.fin 80))
      ∧ (analyzeProduct (demoEnv (.ok goodAnswer)) demoProduct).get? "error" = none := by
  refine ⟨?_, ?_, ?_, ?_, ?_, ?_⟩
  · exact (retrieval_failures_do_not_abort (demoEnv (.ok goodAnswer)) demoProduct rfl rfl
      rfl).2.2.1 "a.png" "You have run out of monthly searches" rfl (by with_unfolding_all rfl)
  · exact (retrieval_failures_do_not_abort
      { demoEnv (.ok goodAnswer) with reverseImageSearch := fun _ => .error none } demoProduct
      rfl rfl rfl).2.1 "a.png" (Or.inl rfl)
  · with_unfolding_all rfl
  · with_unfolding_all rfl
  · with_unfolding_all rfl
  · with_unfolding_all rfl

/-- C18 (counterexample): no image can be downloaded, and the reverse search of
`b.png` answers.  The download of `b.png` failed, yet its summary is the
findings of its search, neither "Failed. Check manually: ..." nor "Quota
exceeded. Check manually: ..."; no part is attached. -/
theorem failed_download_keeps_search_findings :
    urlToGenerativePart { demoEnv (.ok goodAnswer) with httpGet := fun _ => none } "b.png" = none
      ∧ serpSummary { demoEnv (.ok goodAnswer) with httpGet := fun _ => none } "b.png"
        = "Top image results:\n1. Lamp X - shop.in/x"
      ∧ imageSerpSummaries { demoEnv (.ok goodAnswer) with httpGet := fun _ => none } demoProduct
        = "Image: a.png\nReverse image search findings:\nQuota exceeded. Check manually: "
            ++ "https://images.google.com/searchbyimage?image_url=a.png\n\nImage: b.png\n"
            ++ "Reverse image search findings:\nTop image results:\n1. Lamp X - shop.in/x"
      ∧ imageParts { demoEnv (.ok goodAnswer) with httpGet := fun _ => none } demoProduct = [] := by
  refine ⟨?_, ?_, ?_, ?_⟩ <;> with_unfolding_all rfl

end TrustoMeter
